import Mathlib

/-!
# Strage: tile grid, movement resolution and life accounting

A shallow embedding of the simulation core of the Strage game:

* `LevelManager` (Sources/LevelManager.cpp): the level grid, the four
  directional wall-distance queries, the loading of a level and the rendering
  of the scene;
* `MovableEntity` (Includes/MovableEntity.hpp): the four move operations;
* `FightingEntity` (Includes/FightingEntity.hpp) and `EnemySpawnerEntity`
  (Includes/EnemySpawnerEntity.hpp): life-point accounting, the fire-rate
  gate of `shoot` and the spawn timer of `update`.

Conventions of the embedding.

* A C++ `int` is an element of `Int`. Signed overflow is undefined behaviour in
  C++, so the arithmetic of the model is the exact one. An `unsigned int` is a
  `Nat` kept below `2 ^ 32`.
* The C++ operators `/` and `%` on `int` truncate towards zero: they are
  `Int.tdiv` and `Int.tmod`.
* A member function that may change its object takes the object and returns the
  returned value together with the new object.
* `CONFIGURATION_LEVEL_BLOCK_SIZE` is declared in a header that is not part of
  the sources at hand; the functions that use it take it as the argument
  `blockSize`.
* The value of a call of `SDL_GetTicks()` is an argument of the function that
  makes the call, one argument per call.
* A file is the list of its bytes; `fscanf` and `fgetc` are the functions of the
  C library on that list.
-/

namespace Strage

/-- The SDL rectangle: top left corner `(x, y)`, width `w` and height `h`, in pixels. -/
structure SDL_Rect where
  x : Int
  y : Int
  w : Int
  h : Int
deriving DecidableEq

/-- The SDL point. -/
structure SDL_Point where
  x : Int
  y : Int
deriving DecidableEq

/-! ## Machine integers -/

/-- The value of an integer kept in a 32-bit `int`: the value itself when it is in the range of
`int`, and else the value that has the same low 32 bits (two's complement). This is what the
compiled game does where C++ leaves the result of an `int` operation out of range undefined. -/
def wrapInt32 (n : Int) : Int :=
  (n + 2 ^ 31) % 2 ^ 32 - 2 ^ 31

/-- The value that the C library function `strtol` returns for a numeral of value `n` where
`long` has 64 bits: the value, or the nearest end of the range of `long`. -/
def saturateLong (n : Int) : Int :=
  if n > 2 ^ 63 - 1 then 2 ^ 63 - 1 else if n < -(2 ^ 63) then -(2 ^ 63) else n

/-- The `int` that `fscanf` with the format `%d` stores for a numeral of value `n` (GNU C library,
`long` of 64 bits): the numeral is converted by `strtol` and the `long` is then cut to its low
32 bits. It is `n` itself when `n` is in the range of `int`. -/
def storeInt (n : Int) : Int :=
  wrapInt32 (saturateLong n)

/-! ## LevelManager -/

namespace LevelManager

/-- A block of the catalog (`Block` in LevelManager.cpp). The texture pointer is kept as the
identifier of the texture. `isColliding` is a C `int` used as a truth value. -/
structure Block where
  pointerTexture : Nat
  isColliding : Int
deriving DecidableEq

/-- The static variables of the `LevelManager` namespace. `pointerLevelBlocks i` is the index,
in the catalog `blocks`, of the block that `_pointerLevelBlocks[i]` points to, for a cell that
holds a pointer. Which cells hold one is not part of this record: the queries that can meet a
cell without a pointer take that as the map `written` (see `isCollidingAtOrFault`). -/
structure State where
  levelWidthBlocks : Int
  levelHeightBlocks : Int
  displayWidthBlocks : Int
  displayHeightBlocks : Int
  blocks : Nat → Block
  pointerLevelBlocks : Int → Nat

/-- The macro `COMPUTE_BLOCK_INDEX(x, y)`. -/
def COMPUTE_BLOCK_INDEX (s : State) (x y : Int) : Int :=
  (y * s.levelWidthBlocks) + x

/-- The expression `_pointerLevelBlocks[i]->isColliding` on a cell that holds a pointer. -/
def isCollidingAt (s : State) (i : Int) : Int :=
  (s.blocks (s.pointerLevelBlocks i)).isColliding

/-- `LevelManager::getDistanceFromUpperWall`. -/
def getDistanceFromUpperWall (s : State) (blockSize : Int) (x y : Int) : Int :=
  let xBlock := Int.tdiv x blockSize
  let yBlock := Int.tdiv y blockSize
  if xBlock ≤ 0 ∨ xBlock ≥ s.levelWidthBlocks - 1 ∨ yBlock ≤ 0 ∨ yBlock ≥ s.levelWidthBlocks - 1 then 0
  else if isCollidingAt s (COMPUTE_BLOCK_INDEX s xBlock yBlock) ≠ 0 then 0
  else if isCollidingAt s (COMPUTE_BLOCK_INDEX s xBlock (yBlock - 1)) = 0 then blockSize
  else Int.tmod y blockSize

/-- `LevelManager::getDistanceFromDownerWall`. -/
def getDistanceFromDownerWall (s : State) (blockSize : Int) (x y : Int) : Int :=
  let xBlock := Int.tdiv x blockSize
  let yBlock := Int.tdiv y blockSize
  if xBlock ≤ 0 ∨ xBlock ≥ s.levelWidthBlocks - 1 ∨ yBlock ≤ 0 ∨ yBlock ≥ s.levelWidthBlocks - 1 then 0
  else if isCollidingAt s (COMPUTE_BLOCK_INDEX s xBlock yBlock) ≠ 0 then 0
  else if isCollidingAt s (COMPUTE_BLOCK_INDEX s xBlock (yBlock + 1)) = 0 then blockSize
  else blockSize - Int.tmod y blockSize

/-- `LevelManager::getDistanceFromLeftmostWall`. -/
def getDistanceFromLeftmostWall (s : State) (blockSize : Int) (x y : Int) : Int :=
  let xBlock := Int.tdiv x blockSize
  let yBlock := Int.tdiv y blockSize
  if xBlock ≤ 0 ∨ xBlock ≥ s.levelWidthBlocks - 1 ∨ yBlock ≤ 0 ∨ yBlock ≥ s.levelWidthBlocks - 1 then 0
  else if isCollidingAt s (COMPUTE_BLOCK_INDEX s xBlock yBlock) ≠ 0 then 0
  else if isCollidingAt s (COMPUTE_BLOCK_INDEX s (xBlock - 1) yBlock) = 0 then blockSize
  else Int.tmod x blockSize

/-- `LevelManager::getDistanceFromRightmostWall`. -/
def getDistanceFromRightmostWall (s : State) (blockSize : Int) (x y : Int) : Int :=
  let xBlock := Int.tdiv x blockSize
  let yBlock := Int.tdiv y blockSize
  if xBlock ≤ 0 ∨ xBlock ≥ s.levelWidthBlocks - 1 ∨ yBlock ≤ 0 ∨ yBlock ≥ s.levelWidthBlocks - 1 then 0
  else if isCollidingAt s (COMPUTE_BLOCK_INDEX s xBlock yBlock) ≠ 0 then 0
  else if isCollidingAt s (COMPUTE_BLOCK_INDEX s (xBlock + 1) yBlock) = 0 then blockSize
  else blockSize - Int.tmod x blockSize

/-! ### Loading a level -/

/-- The number of blocks of the catalog: the last value of the enumeration `BlockId`. -/
def BLOCK_IDS_COUNT : Int := 5

/-- The C library predicate `isspace` on a byte, in the C locale: space, tabulation, newline,
vertical tabulation, form feed, carriage return. -/
def isspace (c : Nat) : Bool :=
  c = 32 || c = 9 || c = 10 || c = 11 || c = 12 || c = 13

/-- The C library predicate `isdigit` on a byte. -/
def isdigit (c : Nat) : Bool :=
  48 ≤ c && c ≤ 57

/-- The white space that a conversion of `fscanf` skips before the number. -/
def skipWhitespace : List Nat → List Nat
  | [] => []
  | c :: cs => if isspace c then skipWhitespace cs else c :: cs

/-- The decimal digits that a conversion of `fscanf` reads: the value and the bytes left. -/
def readDigits (value : Nat) : List Nat → Nat × List Nat
  | [] => (value, [])
  | c :: cs => if isdigit c then readDigits (value * 10 + (c - 48)) cs else (value, c :: cs)

/-- The numeral that a conversion `%d` of `fscanf` reads from a file whose unread part is the
given list of bytes: `none` at the end of the file or when no number follows the white space,
else the exact value of the numeral and the bytes left unread. The numeral is white space, then
an optional sign (byte 45 is the minus sign, byte 43 the plus sign), then decimal digits. -/
def fscanfNumeral (file : List Nat) : Option (Int × List Nat) :=
  match skipWhitespace file with
  | [] => none
  | c :: cs =>
    if c = 45 then
      match cs with
      | [] => none
      | d :: ds =>
        if isdigit d then
          some (-((readDigits 0 (d :: ds)).1 : Int), (readDigits 0 (d :: ds)).2)
        else none
    else if c = 43 then
      match cs with
      | [] => none
      | d :: ds =>
        if isdigit d then
          some (((readDigits 0 (d :: ds)).1 : Int), (readDigits 0 (d :: ds)).2)
        else none
    else if isdigit c then some (((readDigits 0 (c :: cs)).1 : Int), (readDigits 0 (c :: cs)).2)
    else none

/-- The call `fscanf(pointerFile, "%d", &blockId)` on a file whose unread part is the given list
of bytes: `none` when the call does not return 1 (end of file, or no number after the white
space), else the `int` stored in `blockId` and the bytes left unread. -/
def fscanfInt (file : List Nat) : Option (Int × List Nat) :=
  match fscanfNumeral file with
  | none => none
  | some (numeral, afterNumber) => some (storeInt numeral, afterNumber)

/-- The call `fgetc(pointerFile)`: the next byte, or `EOF` (-1) at the end of the file, and the
bytes left unread. -/
def fgetc : List Nat → Int × List Nat
  | [] => (-1, [])
  | c :: cs => ((c : Int), cs)

/-- The variables of `loadLevel` while it parses: the static variables of the namespace, the
index `i` of the next cell and the unread part of the file. -/
structure Loading where
  level : State
  i : Int
  file : List Nat

/-- How the inner loop of `loadLevel` (the loop on `x`) is left. -/
inductive RowEnd where
  /-- By `goto Scene_Loading_End`: no block index could be read. -/
  | sceneLoadingEnd (l : Loading)
  /-- By `return -1`: the block index read is not one of the catalog. -/
  | badBlockId (l : Loading)
  /-- By `break` at a newline, or because `x` reached the maximum width. -/
  | nextRow (l : Loading)

/-- The inner loop of `loadLevel`, `for (x = ...; x < CONFIGURATION_LEVEL_MAXIMUM_WIDTH; x++)`,
with `remaining` the number of values of `x` that are left. -/
def loadRow : (remaining : Nat) → (x : Int) → Loading → RowEnd
  | 0, _, l => RowEnd.nextRow l
  | remaining + 1, x, l =>
    match fscanfInt l.file with
    | none => RowEnd.sceneLoadingEnd l
    | some (blockId, afterNumber) =>
      if blockId < 0 ∨ blockId ≥ BLOCK_IDS_COUNT then
        RowEnd.badBlockId { l with file := afterNumber }
      else if (fgetc afterNumber).1 = 10 then
        RowEnd.nextRow
          { level :=
              { l.level with
                pointerLevelBlocks := fun k =>
                  if k = l.i then blockId.toNat else l.level.pointerLevelBlocks k
                levelWidthBlocks := x + 1 }
            i := l.i + 1
            file := (fgetc afterNumber).2 }
      else
        loadRow remaining (x + 1)
          { level :=
              { l.level with
                pointerLevelBlocks := fun k =>
                  if k = l.i then blockId.toNat else l.level.pointerLevelBlocks k }
            i := l.i + 1
            file := (fgetc afterNumber).2 }

/-- The outer loop of `loadLevel`, `for (y = ...; y < CONFIGURATION_LEVEL_MAXIMUM_HEIGHT; y++)`,
with `remaining` the number of values of `y` that are left, followed by the end of the function:
the returned `int` and the static variables after the call. -/
def loadRows (maximumWidth : Nat) : (remaining : Nat) → (y : Int) → Loading → Int × State
  | 0, y, l => (0, { l.level with levelHeightBlocks := y })
  | remaining + 1, y, l =>
    match loadRow maximumWidth 0 l with
    | RowEnd.sceneLoadingEnd l1 => (0, { l1.level with levelHeightBlocks := y })
    | RowEnd.badBlockId l1 => (-1, l1.level)
    | RowEnd.nextRow l1 => loadRows maximumWidth remaining (y + 1) l1

/-- `LevelManager::loadLevel`. The scene file is `none` when `fopen` fails, else the bytes of the
file. `maximumWidth` and `maximumHeight` are `CONFIGURATION_LEVEL_MAXIMUM_WIDTH` and
`CONFIGURATION_LEVEL_MAXIMUM_HEIGHT`, declared in a header that is not part of the sources at
hand. The result is the returned `int` and the static variables after the call. -/
def loadLevel (s : State) (maximumWidth maximumHeight : Nat) (sceneFile : Option (List Nat)) :
    Int × State :=
  match sceneFile with
  | none => (-1, s)
  | some file =>
    loadRows maximumWidth maximumHeight 0
      { level := { s with levelWidthBlocks := 0, levelHeightBlocks := 0 }, i := 0, file := file }

/-! ### The cells that the wall-distance queries read -/

/-- The cells `(xBlock, yBlock)` whose block `getDistanceFromUpperWall` reads through
`_pointerLevelBlocks[COMPUTE_BLOCK_INDEX(xBlock, yBlock)]`, in the order of the reads. -/
def getDistanceFromUpperWallReads (s : State) (blockSize : Int) (x y : Int) : List (Int × Int) :=
  let xBlock := Int.tdiv x blockSize
  let yBlock := Int.tdiv y blockSize
  if xBlock ≤ 0 ∨ xBlock ≥ s.levelWidthBlocks - 1 ∨ yBlock ≤ 0 ∨ yBlock ≥ s.levelWidthBlocks - 1 then []
  else if isCollidingAt s (COMPUTE_BLOCK_INDEX s xBlock yBlock) ≠ 0 then [(xBlock, yBlock)]
  else [(xBlock, yBlock), (xBlock, yBlock - 1)]

/-- The cells that `getDistanceFromDownerWall` reads, in the order of the reads. -/
def getDistanceFromDownerWallReads (s : State) (blockSize : Int) (x y : Int) : List (Int × Int) :=
  let xBlock := Int.tdiv x blockSize
  let yBlock := Int.tdiv y blockSize
  if xBlock ≤ 0 ∨ xBlock ≥ s.levelWidthBlocks - 1 ∨ yBlock ≤ 0 ∨ yBlock ≥ s.levelWidthBlocks - 1 then []
  else if isCollidingAt s (COMPUTE_BLOCK_INDEX s xBlock yBlock) ≠ 0 then [(xBlock, yBlock)]
  else [(xBlock, yBlock), (xBlock, yBlock + 1)]

/-- The cells that `getDistanceFromLeftmostWall` reads, in the order of the reads. -/
def getDistanceFromLeftmostWallReads (s : State) (blockSize : Int) (x y : Int) :
    List (Int × Int) :=
  let xBlock := Int.tdiv x blockSize
  let yBlock := Int.tdiv y blockSize
  if xBlock ≤ 0 ∨ xBlock ≥ s.levelWidthBlocks - 1 ∨ yBlock ≤ 0 ∨ yBlock ≥ s.levelWidthBlocks - 1 then []
  else if isCollidingAt s (COMPUTE_BLOCK_INDEX s xBlock yBlock) ≠ 0 then [(xBlock, yBlock)]
  else [(xBlock, yBlock), (xBlock - 1, yBlock)]

/-- The cells that `getDistanceFromRightmostWall` reads, in the order of the reads. -/
def getDistanceFromRightmostWallReads (s : State) (blockSize : Int) (x y : Int) :
    List (Int × Int) :=
  let xBlock := Int.tdiv x blockSize
  let yBlock := Int.tdiv y blockSize
  if xBlock ≤ 0 ∨ xBlock ≥ s.levelWidthBlocks - 1 ∨ yBlock ≤ 0 ∨ yBlock ≥ s.levelWidthBlocks - 1 then []
  else if isCollidingAt s (COMPUTE_BLOCK_INDEX s xBlock yBlock) ≠ 0 then [(xBlock, yBlock)]
  else [(xBlock, yBlock), (xBlock + 1, yBlock)]

/-! ### The wall-distance queries on cells that may hold no pointer -/

/-- The cells that hold a pointer after the first load of a level in a process, when the load
wrote `count` cells: the cells of index 0 to `count - 1`. The other cells of the static array
`_pointerLevelBlocks` still hold the null pointer. -/
def writtenByFirstLoad (count : Int) (i : Int) : Bool :=
  0 ≤ i && i < count

/-- The expression `_pointerLevelBlocks[i]->isColliding` when only the cells that `written` tells
hold a pointer: `none` is the fault of reading through the null pointer. -/
def isCollidingAtOrFault (s : State) (written : Int → Bool) (i : Int) : Option Int :=
  if written i then some (isCollidingAt s i) else none

/-- `LevelManager::getDistanceFromUpperWall` when only the cells that `written` tells hold a
pointer: the returned `int`, or `none` when the call faults. -/
def getDistanceFromUpperWallOrFault (s : State) (written : Int → Bool) (blockSize : Int)
    (x y : Int) : Option Int :=
  let xBlock := Int.tdiv x blockSize
  let yBlock := Int.tdiv y blockSize
  if xBlock ≤ 0 ∨ xBlock ≥ s.levelWidthBlocks - 1 ∨ yBlock ≤ 0 ∨ yBlock ≥ s.levelWidthBlocks - 1 then
    some 0
  else
    match isCollidingAtOrFault s written (COMPUTE_BLOCK_INDEX s xBlock yBlock) with
    | none => none
    | some here =>
      if here ≠ 0 then some 0
      else
        match isCollidingAtOrFault s written (COMPUTE_BLOCK_INDEX s xBlock (yBlock - 1)) with
        | none => none
        | some neighbour => if neighbour = 0 then some blockSize else some (Int.tmod y blockSize)

/-- `LevelManager::getDistanceFromDownerWall` when only the cells that `written` tells hold a
pointer: the returned `int`, or `none` when the call faults. -/
def getDistanceFromDownerWallOrFault (s : State) (written : Int → Bool) (blockSize : Int)
    (x y : Int) : Option Int :=
  let xBlock := Int.tdiv x blockSize
  let yBlock := Int.tdiv y blockSize
  if xBlock ≤ 0 ∨ xBlock ≥ s.levelWidthBlocks - 1 ∨ yBlock ≤ 0 ∨ yBlock ≥ s.levelWidthBlocks - 1 then
    some 0
  else
    match isCollidingAtOrFault s written (COMPUTE_BLOCK_INDEX s xBlock yBlock) with
    | none => none
    | some here =>
      if here ≠ 0 then some 0
      else
        match isCollidingAtOrFault s written (COMPUTE_BLOCK_INDEX s xBlock (yBlock + 1)) with
        | none => none
        | some neighbour =>
          if neighbour = 0 then some blockSize else some (blockSize - Int.tmod y blockSize)

/-- `LevelManager::getDistanceFromLeftmostWall` when only the cells that `written` tells hold a
pointer: the returned `int`, or `none` when the call faults. -/
def getDistanceFromLeftmostWallOrFault (s : State) (written : Int → Bool) (blockSize : Int)
    (x y : Int) : Option Int :=
  let xBlock := Int.tdiv x blockSize
  let yBlock := Int.tdiv y blockSize
  if xBlock ≤ 0 ∨ xBlock ≥ s.levelWidthBlocks - 1 ∨ yBlock ≤ 0 ∨ yBlock ≥ s.levelWidthBlocks - 1 then
    some 0
  else
    match isCollidingAtOrFault s written (COMPUTE_BLOCK_INDEX s xBlock yBlock) with
    | none => none
    | some here =>
      if here ≠ 0 then some 0
      else
        match isCollidingAtOrFault s written (COMPUTE_BLOCK_INDEX s (xBlock - 1) yBlock) with
        | none => none
        | some neighbour => if neighbour = 0 then some blockSize else some (Int.tmod x blockSize)

/-- `LevelManager::getDistanceFromRightmostWall` when only the cells that `written` tells hold a
pointer: the returned `int`, or `none` when the call faults. -/
def getDistanceFromRightmostWallOrFault (s : State) (written : Int → Bool) (blockSize : Int)
    (x y : Int) : Option Int :=
  let xBlock := Int.tdiv x blockSize
  let yBlock := Int.tdiv y blockSize
  if xBlock ≤ 0 ∨ xBlock ≥ s.levelWidthBlocks - 1 ∨ yBlock ≤ 0 ∨ yBlock ≥ s.levelWidthBlocks - 1 then
    some 0
  else
    match isCollidingAtOrFault s written (COMPUTE_BLOCK_INDEX s xBlock yBlock) with
    | none => none
    | some here =>
      if here ≠ 0 then some 0
      else
        match isCollidingAtOrFault s written (COMPUTE_BLOCK_INDEX s (xBlock + 1) yBlock) with
        | none => none
        | some neighbour =>
          if neighbour = 0 then some blockSize else some (blockSize - Int.tmod x blockSize)

/-! ### Initialization and rendering -/

/-- `LevelManager::initialize` (the name is a reserved word here): the returned `int` and the
static variables after the call.
`displayWidth` and `displayHeight` are `CONFIGURATION_DISPLAY_WIDTH` and
`CONFIGURATION_DISPLAY_HEIGHT`, declared in a header that is not part of the sources at hand;
`textures k` is the texture that the texture manager returns for the block number `k` of the
catalog. -/
def initializeManager (s : State) (displayWidth displayHeight blockSize : Int)
    (textures : Nat → Nat) :
    Int × State :=
  let displayWidthBlocks := Int.tdiv displayWidth blockSize
  let displayHeightBlocks := Int.tdiv displayHeight blockSize
  (0,
    { s with
      blocks := fun blockId =>
        if blockId = 0 then { pointerTexture := textures 0, isColliding := 0 }
        else if blockId = 1 then { pointerTexture := textures 1, isColliding := 0 }
        else if blockId = 2 then { pointerTexture := textures 2, isColliding := 1 }
        else if blockId = 3 then { pointerTexture := textures 3, isColliding := 0 }
        else if blockId = 4 then { pointerTexture := textures 4, isColliding := 0 }
        else s.blocks blockId
      displayWidthBlocks :=
        if Int.tmod displayWidth blockSize ≠ 0 then displayWidthBlocks + 1
        else displayWidthBlocks
      displayHeightBlocks :=
        if Int.tmod displayHeight blockSize ≠ 0 then displayHeightBlocks + 1
        else displayHeightBlocks })

/-- A call `pointerTexture->render(xPixel, yPixel)` that `renderScene` makes for the block of the
cell `(xBlock, yBlock)`. -/
structure DrawCall where
  xBlock : Int
  yBlock : Int
  pointerTexture : Nat
  xPixel : Int
  yPixel : Int
deriving DecidableEq

/-- The inner loop of `renderScene`, `for (xDisplayBlock = ...; xDisplayBlock <
xDisplayBlocksCount; xDisplayBlock++)`, with `remaining` the number of values of `xDisplayBlock`
that are left: the draw calls it makes. -/
def renderSceneColumns (s : State) (blockSize xStartingBlock yStartingBlock yDisplayBlock
    yPixel : Int) : (remaining : Nat) → (xDisplayBlock xPixel : Int) → List DrawCall
  | 0, _, _ => []
  | remaining + 1, xDisplayBlock, xPixel =>
    let xBlock := xStartingBlock + xDisplayBlock
    let yBlock := yStartingBlock + yDisplayBlock
    (if xBlock ≥ 0 ∧ yBlock ≥ 0 ∧ xBlock < s.levelWidthBlocks ∧ yBlock < s.levelHeightBlocks then
        [{ xBlock := xBlock
           yBlock := yBlock
           pointerTexture :=
             (s.blocks (s.pointerLevelBlocks (COMPUTE_BLOCK_INDEX s xBlock yBlock))).pointerTexture
           xPixel := xPixel
           yPixel := yPixel }]
      else []) ++
      renderSceneColumns s blockSize xStartingBlock yStartingBlock yDisplayBlock yPixel remaining
        (xDisplayBlock + 1) (xPixel + blockSize)

/-- The outer loop of `renderScene`, `for (yDisplayBlock = ...; yDisplayBlock <
yDisplayBlocksCount; yDisplayBlock++)`, with `remaining` the number of values of `yDisplayBlock`
that are left: the draw calls it makes. -/
def renderSceneRows (s : State) (blockSize xStartingBlock yStartingBlock xStartingPixel
    xDisplayBlocksCount : Int) : (remaining : Nat) → (yDisplayBlock yPixel : Int) → List DrawCall
  | 0, _, _ => []
  | remaining + 1, yDisplayBlock, yPixel =>
    renderSceneColumns s blockSize xStartingBlock yStartingBlock yDisplayBlock yPixel
        xDisplayBlocksCount.toNat 0 xStartingPixel ++
      renderSceneRows s blockSize xStartingBlock yStartingBlock xStartingPixel xDisplayBlocksCount
        remaining (yDisplayBlock + 1) (yPixel + blockSize)

/-- `LevelManager::renderScene`: the draw calls it makes, in their order, and the static variables
after the call. -/
def renderScene (s : State) (blockSize topLeftX topLeftY : Int) : List DrawCall × State :=
  let xStartingPixel := -(Int.tmod topLeftX blockSize)
  let yStartingPixel := -(Int.tmod topLeftY blockSize)
  let xStartingBlock := Int.tdiv topLeftX blockSize
  let yStartingBlock := Int.tdiv topLeftY blockSize
  let xDisplayBlocksCount :=
    if xStartingPixel < 0 then s.displayWidthBlocks + 1 else s.displayWidthBlocks
  let yDisplayBlocksCount :=
    if yStartingPixel < 0 then s.displayHeightBlocks + 1 else s.displayHeightBlocks
  (renderSceneRows s blockSize xStartingBlock yStartingBlock xStartingPixel xDisplayBlocksCount
      yDisplayBlocksCount.toNat 0 yStartingPixel, s)

end LevelManager

/-! ## MovableEntity -/

/-- The part of the base class `Entity` that `MovableEntity` uses: the texture (kept as its
identifier) and the position rectangle. The base constructor `Entity(textureId)` is not part of
the sources at hand; its result is an argument of `MovableEntity.new`. -/
structure Entity where
  pointerTexture : Nat
  positionRectangle : SDL_Rect
deriving DecidableEq

/-- `MovableEntity::FacingDirection`. -/
inductive FacingDirection where
  | FACING_DIRECTION_UP
  | FACING_DIRECTION_DOWN
  | FACING_DIRECTION_LEFT
  | FACING_DIRECTION_RIGHT
deriving DecidableEq

/-- The class `MovableEntity`. The rotation angle is a `double` in the source; it only ever holds
one of the constants 0, 90, 180, 270 and is kept as an integer number of degrees. -/
structure MovableEntity extends Entity where
  rotationAngle : Int
  facingDirection : FacingDirection
  movingPixelsAmount : Int
deriving DecidableEq

namespace MovableEntity

open LevelManager

/-- The constructor `MovableEntity(textureId, x, y, movingPixelsAmount)`; `base` is the object
built by the base constructor `Entity(textureId)`. -/
def new (base : Entity) (x y movingPixelsAmount : Int) : MovableEntity :=
  { pointerTexture := base.pointerTexture
    positionRectangle := { base.positionRectangle with x := x, y := y }
    rotationAngle := 0
    facingDirection := FacingDirection.FACING_DIRECTION_UP
    movingPixelsAmount := movingPixelsAmount }

/-- `MovableEntity::moveToUp`. -/
def moveToUp (s : State) (blockSize : Int) (e : MovableEntity) : Int × MovableEntity :=
  let leftSideDistanceToWall :=
    getDistanceFromUpperWall s blockSize e.positionRectangle.x e.positionRectangle.y
  let rightSizeDistanceToWall :=
    getDistanceFromUpperWall s blockSize (e.positionRectangle.x + e.positionRectangle.w - 1)
      e.positionRectangle.y
  let distanceToWall :=
    if leftSideDistanceToWall < rightSizeDistanceToWall then leftSideDistanceToWall
    else rightSizeDistanceToWall
  let y :=
    if distanceToWall ≥ e.movingPixelsAmount then e.positionRectangle.y - e.movingPixelsAmount
    else e.positionRectangle.y - distanceToWall
  (distanceToWall,
    { e with
      positionRectangle := { e.positionRectangle with y := y }
      rotationAngle := 0
      facingDirection := FacingDirection.FACING_DIRECTION_UP })

/-- `MovableEntity::moveToDown`. -/
def moveToDown (s : State) (blockSize : Int) (e : MovableEntity) : Int × MovableEntity :=
  let leftSideDistanceToWall :=
    getDistanceFromDownerWall s blockSize e.positionRectangle.x
      (e.positionRectangle.y + e.positionRectangle.h)
  let rightSizeDistanceToWall :=
    getDistanceFromDownerWall s blockSize (e.positionRectangle.x + e.positionRectangle.w - 1)
      (e.positionRectangle.y + e.positionRectangle.h)
  let distanceToWall :=
    if leftSideDistanceToWall < rightSizeDistanceToWall then leftSideDistanceToWall
    else rightSizeDistanceToWall
  let y :=
    if distanceToWall ≥ e.movingPixelsAmount then e.positionRectangle.y + e.movingPixelsAmount
    else e.positionRectangle.y + distanceToWall
  (distanceToWall,
    { e with
      positionRectangle := { e.positionRectangle with y := y }
      rotationAngle := 180
      facingDirection := FacingDirection.FACING_DIRECTION_DOWN })

/-- `MovableEntity::moveToLeft`. -/
def moveToLeft (s : State) (blockSize : Int) (e : MovableEntity) : Int × MovableEntity :=
  let upperSideDistanceToWall :=
    getDistanceFromLeftmostWall s blockSize e.positionRectangle.x e.positionRectangle.y
  let downerSizeDistanceToWall :=
    getDistanceFromLeftmostWall s blockSize e.positionRectangle.x
      (e.positionRectangle.y + e.positionRectangle.h - 1)
  let distanceToWall :=
    if upperSideDistanceToWall < downerSizeDistanceToWall then upperSideDistanceToWall
    else downerSizeDistanceToWall
  let x :=
    if distanceToWall ≥ e.movingPixelsAmount then e.positionRectangle.x - e.movingPixelsAmount
    else e.positionRectangle.x - distanceToWall
  (distanceToWall,
    { e with
      positionRectangle := { e.positionRectangle with x := x }
      rotationAngle := 270
      facingDirection := FacingDirection.FACING_DIRECTION_LEFT })

/-- `MovableEntity::moveToRight`. -/
def moveToRight (s : State) (blockSize : Int) (e : MovableEntity) : Int × MovableEntity :=
  let upperSideDistanceToWall :=
    getDistanceFromRightmostWall s blockSize (e.positionRectangle.x + e.positionRectangle.w)
      e.positionRectangle.y
  let downerSizeDistanceToWall :=
    getDistanceFromRightmostWall s blockSize (e.positionRectangle.x + e.positionRectangle.w)
      (e.positionRectangle.y + e.positionRectangle.h - 1)
  let distanceToWall :=
    if upperSideDistanceToWall < downerSizeDistanceToWall then upperSideDistanceToWall
    else downerSizeDistanceToWall
  let x :=
    if distanceToWall ≥ e.movingPixelsAmount then e.positionRectangle.x + e.movingPixelsAmount
    else e.positionRectangle.x + distanceToWall
  (distanceToWall,
    { e with
      positionRectangle := { e.positionRectangle with x := x }
      rotationAngle := 90
      facingDirection := FacingDirection.FACING_DIRECTION_RIGHT })

/-- `MovableEntity::getFacingDirection`. -/
def getFacingDirection (e : MovableEntity) : FacingDirection :=
  e.facingDirection

end MovableEntity

/-- A move request of the game loop: which of the four move operations it calls. -/
inductive MoveRequest where
  | up
  | down
  | left
  | right
deriving DecidableEq

namespace MoveRequest

/-- The facing direction that belongs to a move request. -/
def direction : MoveRequest → FacingDirection
  | up => FacingDirection.FACING_DIRECTION_UP
  | down => FacingDirection.FACING_DIRECTION_DOWN
  | left => FacingDirection.FACING_DIRECTION_LEFT
  | right => FacingDirection.FACING_DIRECTION_RIGHT

/-- The entity after the move operation that the request names. -/
def apply (s : LevelManager.State) (blockSize : Int) (e : MovableEntity) :
    MoveRequest → MovableEntity
  | up => (MovableEntity.moveToUp s blockSize e).2
  | down => (MovableEntity.moveToDown s blockSize e).2
  | left => (MovableEntity.moveToLeft s blockSize e).2
  | right => (MovableEntity.moveToRight s blockSize e).2

/-- The entity after a sequence of move requests, served from left to right. -/
def applyAll (s : LevelManager.State) (blockSize : Int) (e : MovableEntity) :
    List MoveRequest → MovableEntity
  | [] => e
  | m :: ms => applyAll s blockSize (apply s blockSize e m) ms

end MoveRequest

/-! ## Clock and collaborators -/

/-- The subtraction of two `unsigned int` values: the difference modulo `2 ^ 32`. -/
def u32sub (a b : Nat) : Nat :=
  (a % 2 ^ 32 + (2 ^ 32 - b % 2 ^ 32)) % 2 ^ 32

/-- A call that a member function makes to a collaborator outside of its object: the bullet
factory `_fireBullet(x, y)` of the concrete entity, or `AudioManager::playSound(id, angle,
distance)`. A member function returns the calls it made, in the order it made them. -/
inductive Effect where
  | fireBullet (x y : Int)
  | playSound (id : Nat) (soundSourceAngle soundSourceDistance : Int)
deriving DecidableEq

/-! ## FightingEntity -/

/-- Modelled from the spec: the enumeration `Direction` of the header MovingEntity.hpp, which is
not part of the sources at hand. FightingEntity.hpp uses its four values `DIRECTION_UP`,
`DIRECTION_DOWN`, `DIRECTION_LEFT`, `DIRECTION_RIGHT` (in this order, `DIRECTIONS_COUNT` many) to
index the per-direction tables; the spec calls it the facing direction. -/
inductive Direction where
  | DIRECTION_UP
  | DIRECTION_DOWN
  | DIRECTION_LEFT
  | DIRECTION_RIGHT
deriving DecidableEq

/-- Modelled from the spec: the base class `MovingEntity` (header MovingEntity.hpp, not part of
the sources at hand), reduced to the members that FightingEntity.hpp reads or writes: one position
rectangle per direction, the facing direction, the move speed and the collision mask. It is the
movable body of the spec: a position, a facing direction and a speed. -/
structure MovingEntity where
  positionRectangles : Direction → SDL_Rect
  facingDirection : Direction
  movingPixelsAmount : Int
  collisionBlockContent : Int

/-- The class `FightingEntity`. The two time stamps are `unsigned int`; the sound is kept as its
identifier. -/
structure FightingEntity extends MovingEntity where
  lifePointsAmount : Int
  maximumLifePointsAmount : Int
  bulletStartingPositionOffsets : Direction → SDL_Point
  lastShotTime : Nat
  timeBetweenShots : Nat
  firingSoundId : Nat

namespace FightingEntity

/-- The constructor of `FightingEntity`. `base` is the object built by the base constructor
`MovingEntity(x, y, textureId, movingPixelsAmount)`; `wallOrEnemySpawner` is the value of
`LevelManager::BLOCK_CONTENT_WALL | LevelManager::BLOCK_CONTENT_ENEMY_SPAWNER`; `entityWidth`,
`bulletWidth` and `bulletHeight` are the texture dimensions that the constructor asks the texture
manager for. The `int` argument `timeBetweenShots` is converted to `unsigned int`. -/
def new (base : MovingEntity) (maximumLifePointsAmount timeBetweenShots : Int)
    (firingSoundId : Nat) (wallOrEnemySpawner entityWidth bulletWidth bulletHeight : Int) :
    FightingEntity :=
  let upX := Int.tdiv (entityWidth - bulletWidth) 2
  let upY := 2
  let downX := upX
  let downY := entityWidth - bulletHeight - 2
  let leftX := 2
  let leftY := upX
  let rightX := downY
  let rightY := leftY
  { positionRectangles := base.positionRectangles
    facingDirection := base.facingDirection
    movingPixelsAmount := base.movingPixelsAmount
    collisionBlockContent := wallOrEnemySpawner
    lifePointsAmount := maximumLifePointsAmount
    maximumLifePointsAmount := maximumLifePointsAmount
    bulletStartingPositionOffsets := fun d =>
      match d with
      | Direction.DIRECTION_UP => { x := upX, y := upY }
      | Direction.DIRECTION_DOWN => { x := downX, y := downY }
      | Direction.DIRECTION_LEFT => { x := leftX, y := leftY }
      | Direction.DIRECTION_RIGHT => { x := rightX, y := rightY }
    lastShotTime := 0
    timeBetweenShots := (timeBetweenShots % 2 ^ 32).toNat
    firingSoundId := firingSoundId }

/-- `FightingEntity::getLifePointsAmount`. -/
def getLifePointsAmount (e : FightingEntity) : Int :=
  e.lifePointsAmount

/-- `FightingEntity::setLifePointsAmount`. -/
def setLifePointsAmount (e : FightingEntity) (lifePointsAmount : Int) : FightingEntity :=
  { e with lifePointsAmount := lifePointsAmount }

/-- `FightingEntity::getMaximumLifePointsAmount`. -/
def getMaximumLifePointsAmount (e : FightingEntity) : Int :=
  e.maximumLifePointsAmount

/-- `FightingEntity::setMaximumLifePointsAmount`. -/
def setMaximumLifePointsAmount (e : FightingEntity) (lifePointsAmount : Int) : FightingEntity :=
  { e with maximumLifePointsAmount := lifePointsAmount }

/-- `FightingEntity::modifyLife` with the sum taken in the integers: what the member function
computes as long as the sum is in the range of `int` (see `modifyLifeWrapping` for the sum out of
that range). -/
def modifyLife (e : FightingEntity) (lifePointsAmount : Int) : FightingEntity :=
  let e1 := { e with lifePointsAmount := e.lifePointsAmount + lifePointsAmount }
  if e1.lifePointsAmount < 0 then { e1 with lifePointsAmount := 0 }
  else if e1.lifePointsAmount > e1.maximumLifePointsAmount then
    { e1 with lifePointsAmount := e1.maximumLifePointsAmount }
  else e1

/-- `FightingEntity::modifyLife` with the `int` addition of the compiled game: a sum out of the
range of the 32-bit `int` wraps around before it is clamped. It is `modifyLife` whenever the sum
is in the range of `int`. -/
def modifyLifeWrapping (e : FightingEntity) (lifePointsAmount : Int) : FightingEntity :=
  let e1 := { e with lifePointsAmount := wrapInt32 (e.lifePointsAmount + lifePointsAmount) }
  if e1.lifePointsAmount < 0 then { e1 with lifePointsAmount := 0 }
  else if e1.lifePointsAmount > e1.maximumLifePointsAmount then
    { e1 with lifePointsAmount := e1.maximumLifePointsAmount }
  else e1

/-- `FightingEntity::isWounded`: the returned `int` and the object after the call. -/
def isWounded (e : FightingEntity) : Int × FightingEntity :=
  if e.lifePointsAmount < e.maximumLifePointsAmount then (1, e) else (0, e)

/-- `FightingEntity::isDead`: the returned `int` and the object after the call. -/
def isDead (e : FightingEntity) : Int × FightingEntity :=
  if e.lifePointsAmount = 0 then (1, e) else (0, e)

/-- The entity after a sequence of `modifyLife` calls, served from left to right. -/
def modifyLifeAll (e : FightingEntity) : List Int → FightingEntity
  | [] => e
  | d :: ds => modifyLifeAll (modifyLife e d) ds

/-- `FightingEntity::shoot`. The pure virtual `_fireBullet` of the concrete entity is the argument
`fireBullet`; a pointer to a bullet is an `Option`, with `none` for `NULL`. `ticksAtCheck` is the
value of the first call of `SDL_GetTicks()` and `ticksAfterFire` the value of the second call, made
after the bullet is created. The result is the returned pointer, the object after the call and the
calls made to the collaborators. -/
def shoot {Bullet : Type} (fireBullet : Int → Int → Option Bullet) (e : FightingEntity)
    (ticksAtCheck ticksAfterFire : Nat) : Option Bullet × FightingEntity × List Effect :=
  if u32sub ticksAtCheck e.lastShotTime ≥ e.timeBetweenShots then
    let bulletStartingPositionOffsetX := (e.bulletStartingPositionOffsets e.facingDirection).x
    let bulletStartingPositionOffsetY := (e.bulletStartingPositionOffsets e.facingDirection).y
    let x := (e.positionRectangles e.facingDirection).x + bulletStartingPositionOffsetX
    let y := (e.positionRectangles e.facingDirection).y + bulletStartingPositionOffsetY
    let pointerBullet := fireBullet x y
    (pointerBullet, { e with lastShotTime := ticksAfterFire },
      [Effect.fireBullet x y, Effect.playSound e.firingSoundId 0 0])
  else (none, e, [])

end FightingEntity

/-! ## EnemySpawnerEntity -/

/-- The class `EnemySpawnerEntity`. The time stamp is an `unsigned int`. -/
structure EnemySpawnerEntity extends Entity where
  lifePointsAmount : Int
  maximumLifePointsAmount : Int
  lastEnemySpawnTime : Nat
deriving DecidableEq

namespace EnemySpawnerEntity

/-- The constant member `_timeBetweenSpawns`. -/
def timeBetweenSpawns : Nat := 3000

/-- The constructor `EnemySpawnerEntity(x, y)`; `base` is the object built by the base constructor
`Entity(TextureManager::TEXTURE_ID_ENEMY_SPAWNER, x, y)`. The last spawn time is the `unsigned int`
negation of the spawn interval. -/
def new (base : Entity) : EnemySpawnerEntity :=
  { pointerTexture := base.pointerTexture
    positionRectangle := base.positionRectangle
    lifePointsAmount := 100
    maximumLifePointsAmount := 100
    lastEnemySpawnTime := (2 ^ 32 - timeBetweenSpawns % 2 ^ 32) % 2 ^ 32 }

/-- `EnemySpawnerEntity::modifyLife` with the sum taken in the integers: what the member function
computes as long as the sum is in the range of `int` (see `modifyLifeWrapping` for the sum out of
that range). -/
def modifyLife (e : EnemySpawnerEntity) (lifePointsAmount : Int) : EnemySpawnerEntity :=
  let e1 := { e with lifePointsAmount := e.lifePointsAmount + lifePointsAmount }
  if e1.lifePointsAmount < 0 then { e1 with lifePointsAmount := 0 }
  else if e1.lifePointsAmount > e1.maximumLifePointsAmount then
    { e1 with lifePointsAmount := e1.maximumLifePointsAmount }
  else e1

/-- `EnemySpawnerEntity::modifyLife` with the `int` addition of the compiled game: a sum out of
the range of the 32-bit `int` wraps around before it is clamped. It is `modifyLife` whenever the
sum is in the range of `int`. -/
def modifyLifeWrapping (e : EnemySpawnerEntity) (lifePointsAmount : Int) : EnemySpawnerEntity :=
  let e1 := { e with lifePointsAmount := wrapInt32 (e.lifePointsAmount + lifePointsAmount) }
  if e1.lifePointsAmount < 0 then { e1 with lifePointsAmount := 0 }
  else if e1.lifePointsAmount > e1.maximumLifePointsAmount then
    { e1 with lifePointsAmount := e1.maximumLifePointsAmount }
  else e1

/-- `EnemySpawnerEntity::update`. `ticksAtCheck` is the value of the first call of
`SDL_GetTicks()` and `ticksAtStore` the value of the second call, the one that is stored. The
result is the returned `int` and the object after the call. -/
def update (e : EnemySpawnerEntity) (ticksAtCheck ticksAtStore : Nat) :
    Int × EnemySpawnerEntity :=
  if e.lifePointsAmount = 0 then (1, e)
  else if u32sub ticksAtCheck e.lastEnemySpawnTime ≥ timeBetweenSpawns then
    (2, { e with lastEnemySpawnTime := ticksAtStore })
  else (0, e)

/-- The spawner after a sequence of `modifyLife` calls, served from left to right. -/
def modifyLifeAll (e : EnemySpawnerEntity) : List Int → EnemySpawnerEntity
  | [] => e
  | d :: ds => modifyLifeAll (modifyLife e d) ds

end EnemySpawnerEntity

/-! ## Predicates of the specification -/

/-- The life invariant of the specification: `0 ≤ lifePoints ≤ maxLifePoints`. -/
def lifeInvariant (lifePoints maxLifePoints : Int) : Prop :=
  0 ≤ lifePoints ∧ lifePoints ≤ maxLifePoints

instance (lifePoints maxLifePoints : Int) : Decidable (lifeInvariant lifePoints maxLifePoints) := by
  unfold lifeInvariant
  infer_instance

/-- The life points clamped to `[0, maxLifePoints]` in the words of the specification: 0 if the
sum is negative, the maximum if the sum exceeds it, the sum otherwise. -/
def clampLife (sum maxLifePoints : Int) : Int :=
  if sum < 0 then 0 else if sum > maxLifePoints then maxLifePoints else sum

/-- The pixel rectangle `[r.x, r.x + r.w) x [r.y, r.y + r.h)` meets the square of the block
`(xBlock, yBlock)`, which is `[xBlock * blockSize, (xBlock + 1) * blockSize)` on the x axis and
likewise on the y axis. -/
def overlapsBlock (blockSize : Int) (r : SDL_Rect) (xBlock yBlock : Int) : Prop :=
  r.x < (xBlock + 1) * blockSize ∧ xBlock * blockSize < r.x + r.w ∧
    r.y < (yBlock + 1) * blockSize ∧ yBlock * blockSize < r.y + r.h

instance (blockSize : Int) (r : SDL_Rect) (xBlock yBlock : Int) :
    Decidable (overlapsBlock blockSize r xBlock yBlock) := by
  unfold overlapsBlock
  infer_instance

/-- The block `(xBlock, yBlock)` is a block of the loaded grid and it is colliding. -/
def isLevelWall (s : LevelManager.State) (xBlock yBlock : Int) : Prop :=
  0 ≤ xBlock ∧ xBlock < s.levelWidthBlocks ∧ 0 ≤ yBlock ∧ yBlock < s.levelHeightBlocks ∧
    LevelManager.isCollidingAt s (LevelManager.COMPUTE_BLOCK_INDEX s xBlock yBlock) ≠ 0

instance (s : LevelManager.State) (xBlock yBlock : Int) : Decidable (isLevelWall s xBlock yBlock) := by
  unfold isLevelWall
  infer_instance

/-- The rectangle overlaps no colliding block of the loaded grid. -/
def overlapsNoWall (s : LevelManager.State) (blockSize : Int) (r : SDL_Rect) : Prop :=
  ∀ xBlock yBlock : Int, isLevelWall s xBlock yBlock → ¬ overlapsBlock blockSize r xBlock yBlock

/-- The text of one row of a level: every block index in `[0, 10)` as one decimal digit, a comma
(byte 44) between two indexes, a newline (byte 10) at the end. -/
def rowText : List Nat → List Nat
  | [] => [10]
  | [a] => [48 + a, 10]
  | a :: b :: rest => (48 + a) :: 44 :: rowText (b :: rest)

/-- The text of a level: the texts of its rows, one after the other. -/
def levelText : List (List Nat) → List Nat
  | [] => []
  | r :: rs => rowText r ++ levelText rs

/-- The block indexes of a level in the order of its text: row after row. -/
def levelIds : List (List Nat) → List Nat
  | [] => []
  | r :: rs => r ++ levelIds rs

/-- The cells after writing the block indexes `ids` from the cell `i` on. -/
def writeCells (cells : Int → Nat) (i : Int) : List Nat → Int → Nat
  | [] => cells
  | a :: ids => writeCells (fun k => if k = i then a else cells k) (i + 1) ids

/-- A block index that is not in the range of the catalog. -/
def isBadBlockId (blockId : Int) : Prop :=
  blockId < 0 ∨ blockId ≥ LevelManager.BLOCK_IDS_COUNT

instance (blockId : Int) : Decidable (isBadBlockId blockId) := by
  unfold isBadBlockId
  infer_instance

/-- The numerals that one row of the parsing loop reads, with their exact values as they are
written in the file, when no index is checked: as many as the maximum width allows, up to the
first newline or the first unreadable token. The second component is the unread part of the file
when the parsing goes on with the next row, and `none` when it stops at an unreadable token. -/
def scanRowNumerals : (remaining : Nat) → List Nat → List Int × Option (List Nat)
  | 0, file => ([], some file)
  | remaining + 1, file =>
    match LevelManager.fscanfNumeral file with
    | none => ([], none)
    | some (numeral, afterNumber) =>
      if (LevelManager.fgetc afterNumber).1 = 10 then
        ([numeral], some (LevelManager.fgetc afterNumber).2)
      else
        (numeral :: (scanRowNumerals remaining (LevelManager.fgetc afterNumber).2).1,
          (scanRowNumerals remaining (LevelManager.fgetc afterNumber).2).2)

/-- The numerals read before the parsing stops, with their exact values as they are written in
the file, when no index is checked: those of the rows, as many rows as the maximum height allows,
up to the first unreadable token. -/
def scanNumerals (maximumWidth : Nat) : (remaining : Nat) → List Nat → List Int
  | 0, _ => []
  | remaining + 1, file =>
    match (scanRowNumerals maximumWidth file).2 with
    | none => (scanRowNumerals maximumWidth file).1
    | some rest => (scanRowNumerals maximumWidth file).1 ++ scanNumerals maximumWidth remaining rest

/-- The integers that one row of the parsing loop reads when no index is checked: as many as the
maximum width allows, up to the first newline or the first unreadable token. The second component
is the unread part of the file when the parsing goes on with the next row, and `none` when it
stops at an unreadable token. -/
def scanRow : (remaining : Nat) → List Nat → List Int × Option (List Nat)
  | 0, file => ([], some file)
  | remaining + 1, file =>
    match LevelManager.fscanfInt file with
    | none => ([], none)
    | some (blockId, afterNumber) =>
      if (LevelManager.fgetc afterNumber).1 = 10 then
        ([blockId], some (LevelManager.fgetc afterNumber).2)
      else
        (blockId :: (scanRow remaining (LevelManager.fgetc afterNumber).2).1,
          (scanRow remaining (LevelManager.fgetc afterNumber).2).2)

/-- The integers read before the parsing stops, when no index is checked: those of the rows, as
many rows as the maximum height allows, up to the first unreadable token. -/
def scanRows (maximumWidth : Nat) : (remaining : Nat) → List Nat → List Int
  | 0, _ => []
  | remaining + 1, file =>
    match (scanRow maximumWidth file).2 with
    | none => (scanRow maximumWidth file).1
    | some rest => (scanRow maximumWidth file).1 ++ scanRows maximumWidth remaining rest

/-- The text of a last row that ends at the end of the file: every block index as one decimal
digit, a comma between two indexes, no newline. -/
def openRowText : List Nat → List Nat
  | [] => []
  | [a] => [48 + a]
  | a :: b :: rest => (48 + a) :: 44 :: openRowText (b :: rest)

/-- The number of columns of the last row of a list of rows, and `initial` when there is no
row. -/
def lastRowWidth (initial : Int) : List (List Nat) → Int
  | [] => initial
  | r :: rs => lastRowWidth r.length rs

/-- The rectangle overlaps none of the blocks that have the property `P`. -/
def overlapsNone (P : Int → Int → Prop) (blockSize : Int) (r : SDL_Rect) : Prop :=
  ∀ xBlock yBlock : Int, P xBlock yBlock → ¬ overlapsBlock blockSize r xBlock yBlock

/-- The block `(xBlock, yBlock)` is a block of the outer border of the loaded grid: it is in the
grid, in the first or last column or in the first or last row. -/
def isBorderBlock (s : LevelManager.State) (xBlock yBlock : Int) : Prop :=
  0 ≤ xBlock ∧ xBlock < s.levelWidthBlocks ∧ 0 ≤ yBlock ∧ yBlock < s.levelHeightBlocks ∧
    (xBlock = 0 ∨ xBlock = s.levelWidthBlocks - 1 ∨ yBlock = 0 ∨
      yBlock = s.levelHeightBlocks - 1)

instance (s : LevelManager.State) (xBlock yBlock : Int) :
    Decidable (isBorderBlock s xBlock yBlock) := by
  unfold isBorderBlock
  infer_instance

/-- The rectangle overlaps no block of the outer border of the loaded grid. -/
def overlapsNoBorder (s : LevelManager.State) (blockSize : Int) (r : SDL_Rect) : Prop :=
  ∀ xBlock yBlock : Int, isBorderBlock s xBlock yBlock → ¬ overlapsBlock blockSize r xBlock yBlock

/-- The pixel `(px, py)` is one of the rectangle `[r.x, r.x + r.w) x [r.y, r.y + r.h)`. -/
def containsPixel (r : SDL_Rect) (px py : Int) : Prop :=
  r.x ≤ px ∧ px < r.x + r.w ∧ r.y ≤ py ∧ py < r.y + r.h

/-- Modelled from the spec: the rectangle of a bullet (class `MovingEntityBullet`, not part of the
sources at hand) created at `(x, y)`. The bullet texture of `bulletWidth` x `bulletHeight` pixels
is the one facing up; the bullet occupies `bulletWidth` x `bulletHeight` pixels when it faces up
or down and `bulletHeight` x `bulletWidth` pixels when it faces left or right. -/
def bulletRectangle (facing : Direction) (x y bulletWidth bulletHeight : Int) : SDL_Rect :=
  match facing with
  | Direction.DIRECTION_UP => { x := x, y := y, w := bulletWidth, h := bulletHeight }
  | Direction.DIRECTION_DOWN => { x := x, y := y, w := bulletWidth, h := bulletHeight }
  | Direction.DIRECTION_LEFT => { x := x, y := y, w := bulletHeight, h := bulletWidth }
  | Direction.DIRECTION_RIGHT => { x := x, y := y, w := bulletHeight, h := bulletWidth }

/-- The draw call of `renderScene` for the cell `(xBlock, yBlock)` at the screen position
`(xPixel, yPixel)`: it renders the texture of the block that the cell points to. -/
def drawCallOf (s : LevelManager.State) (xBlock yBlock xPixel yPixel : Int) :
    LevelManager.DrawCall :=
  { xBlock := xBlock
    yBlock := yBlock
    pointerTexture :=
      (s.blocks
        (s.pointerLevelBlocks (LevelManager.COMPUTE_BLOCK_INDEX s xBlock yBlock))).pointerTexture
    xPixel := xPixel
    yPixel := yPixel }

/-- The cell `(xBlock, yBlock)` is a cell of the loaded grid. -/
def isLevelCell (s : LevelManager.State) (xBlock yBlock : Int) : Prop :=
  xBlock ≥ 0 ∧ yBlock ≥ 0 ∧ xBlock < s.levelWidthBlocks ∧ yBlock < s.levelHeightBlocks

/-- The square of `blockSize` x `blockSize` pixels at the screen position `(xScreen, yScreen)`
has a pixel in the display area `[0, displayWidth) x [0, displayHeight)`. -/
def isOnDisplay (displayWidth displayHeight blockSize xScreen yScreen : Int) : Prop :=
  ∃ px py : Int, 0 ≤ px ∧ px < displayWidth ∧ 0 ≤ py ∧ py < displayHeight ∧
    xScreen ≤ px ∧ px < xScreen + blockSize ∧ yScreen ≤ py ∧ py < yScreen + blockSize

/-! ## Sample data -/

/-- The collision flags that `LevelManager::initialize` gives to the five blocks of the catalog:
only `BLOCK_ID_WALL_STONE_1` (number 2) collides. The texture of a block is numbered like the
block. -/
def sampleBlocks (blockId : Nat) : LevelManager.Block :=
  { pointerTexture := blockId, isColliding := if blockId = 2 then 1 else 0 }

/-- A level of the given size in which every cell is grass (block 1). -/
def grassLevel (width height : Int) : LevelManager.State :=
  { levelWidthBlocks := width
    levelHeightBlocks := height
    displayWidthBlocks := 0
    displayHeightBlocks := 0
    blocks := sampleBlocks
    pointerLevelBlocks := fun _ => 1 }

/-- A level of 5 x 5 blocks: grass everywhere, except one stone wall at block `(2, 1)`,
which is the cell of index 7. -/
def wallLevel : LevelManager.State :=
  { levelWidthBlocks := 5
    levelHeightBlocks := 5
    displayWidthBlocks := 0
    displayHeightBlocks := 0
    blocks := sampleBlocks
    pointerLevelBlocks := fun i => if i = 7 then 2 else 1 }

/-- A movable entity of 32 x 32 pixels at `(x, y)` moving `speed` pixels per move. -/
def sampleEntity (x y speed : Int) : MovableEntity :=
  MovableEntity.new { pointerTexture := 0, positionRectangle := { x := 0, y := 0, w := 32, h := 32 } }
    x y speed

/-- A fighting entity with the given life points and maximum. -/
def sampleFighter (lifePoints maxLifePoints : Int) : FightingEntity :=
  FightingEntity.setLifePointsAmount
    (FightingEntity.new
      { positionRectangles := fun _ => { x := 64, y := 64, w := 32, h := 32 }
        facingDirection := Direction.DIRECTION_UP
        movingPixelsAmount := 3
        collisionBlockContent := 0 }
      maxLifePoints 500 0 3 32 8 16)
    lifePoints

/-- A level of 5 x 5 blocks whose outer border is stone wall (block 2) and whose inner blocks
are grass (block 1). -/
def walledLevel : LevelManager.State :=
  { levelWidthBlocks := 5
    levelHeightBlocks := 5
    displayWidthBlocks := 0
    displayHeightBlocks := 0
    blocks := sampleBlocks
    pointerLevelBlocks := fun i => if i < 5 ∨ i ≥ 20 ∨ i % 5 = 0 ∨ i % 5 = 4 then 2 else 1 }

/-- The bytes of the level source with the rows `1,4294967297` and `2,3`, each ended by a
newline. -/
def bigNumeralText : List Nat :=
  [49, 44, 52, 50, 57, 52, 57, 54, 55, 50, 57, 55, 10, 50, 44, 51, 10]

/-- The rows of a level of 5 x 3 grass blocks. -/
def grassRows : List (List Nat) :=
  [[1, 1, 1, 1, 1], [1, 1, 1, 1, 1], [1, 1, 1, 1, 1]]

/-- The static variables after the level of 5 x 3 grass blocks is loaded. -/
def loadedGrass : LevelManager.State :=
  (LevelManager.loadLevel (grassLevel 0 0) 10 10 (some (levelText grassRows))).2

/-- A freshly constructed fighting entity: 32 x 32 pixels at (64, 64), facing up, 10 life
points, 500 milliseconds between two shots, bullets of 8 x 16 pixels. -/
def freshFighter : FightingEntity :=
  FightingEntity.new
    { positionRectangles := fun _ => { x := 64, y := 64, w := 32, h := 32 }
      facingDirection := Direction.DIRECTION_UP
      movingPixelsAmount := 3
      collisionBlockContent := 0 }
    10 500 0 3 32 8 16

/-- A bullet factory that always creates a bullet, kept as the point where it was created. -/
def sampleFireBullet (x y : Int) : Option SDL_Point :=
  some { x := x, y := y }

/-- A freshly constructed spawner of 64 x 64 pixels at (128, 128). -/
def freshSpawner : EnemySpawnerEntity :=
  EnemySpawnerEntity.new
    { pointerTexture := 0, positionRectangle := { x := 128, y := 128, w := 64, h := 64 } }

/-! ## Auxiliary facts -/

section Auxiliary

open LevelManager

theorem smaller_distance_eq_min (a b : Int) : (if a < b then a else b) = min a b := by
  split_ifs with h
  · exact (min_eq_left (le_of_lt h)).symm
  · exact (min_eq_right (not_lt.mp h)).symm

theorem step_backward_eq_min (c d m : Int) : (if d ≥ m then c - m else c - d) = c - min m d := by
  split_ifs with h
  · rw [min_eq_left h]
  · rw [min_eq_right (le_of_lt (not_le.mp h))]

theorem step_forward_eq_min (c d m : Int) : (if d ≥ m then c + m else c + d) = c + min m d := by
  split_ifs with h
  · rw [min_eq_left h]
  · rw [min_eq_right (le_of_lt (not_le.mp h))]

theorem applyAll_append (s : State) (blockSize : Int) (ms ns : List MoveRequest) :
    ∀ e : MovableEntity, MoveRequest.applyAll s blockSize e (ms ++ ns) =
      MoveRequest.applyAll s blockSize (MoveRequest.applyAll s blockSize e ms) ns := by
  induction ms with
  | nil => intro e; rfl
  | cons m ms ih => intro e; exact ih (MoveRequest.apply s blockSize e m)

theorem apply_facingDirection (s : State) (blockSize : Int) (e : MovableEntity) (m : MoveRequest) :
    (MoveRequest.apply s blockSize e m).facingDirection = m.direction := by
  cases m <;> rfl

/-! ### Floor division by the block size -/

theorem ediv_sub_self (a T : Int) (hT : 0 < T) : (a - T) / T = a / T - 1 := by
  have h := Int.add_mul_ediv_right a (-1) (ne_of_gt hT)
  have e : a + -1 * T = a - T := by ring
  rw [e] at h
  omega

theorem ediv_add_self (a T : Int) (hT : 0 < T) : (a + T) / T = a / T + 1 := by
  have h := Int.add_mul_ediv_right a 1 (ne_of_gt hT)
  rw [one_mul] at h
  exact h

theorem ediv_sub_emod (a T : Int) (hT : 0 < T) : (a - a % T) / T = a / T := by
  have h : a - a % T = T * (a / T) := by
    have := Int.ediv_add_emod a T
    omega
  rw [h, Int.mul_ediv_cancel_left _ (ne_of_gt hT)]

theorem ediv_round_up (a T : Int) (hT : 0 < T) : (a + (T - a % T) - 1) / T = a / T := by
  have h : a + (T - a % T) - 1 = (T - 1) + (a / T) * T := by
    have := Int.ediv_add_emod a T
    have : T * (a / T) = a / T * T := mul_comm _ _
    omega
  rw [h, Int.add_mul_ediv_right _ _ (ne_of_gt hT)]
  have : (T - 1) / T = 0 := Int.ediv_eq_zero_of_lt (by omega) (by omega)
  omega

theorem nonneg_of_tdiv_pos (a T : Int) (hT : 0 < T) (h : 0 < Int.tdiv a T) : 0 ≤ a := by
  by_contra hneg
  have h1 : 0 ≤ Int.tdiv (-a) T := Int.tdiv_nonneg (by omega) (le_of_lt hT)
  rw [Int.neg_tdiv] at h1
  omega

/-- A rectangle meets the square of a block exactly when the block lies between the blocks of its
first and last pixel, on both axes. -/
theorem overlapsBlock_iff (T : Int) (hT : 0 < T) (r : SDL_Rect) (xBlock yBlock : Int) :
    overlapsBlock T r xBlock yBlock ↔
      r.x / T ≤ xBlock ∧ xBlock ≤ (r.x + r.w - 1) / T ∧
        r.y / T ≤ yBlock ∧ yBlock ≤ (r.y + r.h - 1) / T := by
  unfold overlapsBlock
  rw [Int.le_ediv_iff_mul_le hT, Int.le_ediv_iff_mul_le hT,
    ← Int.ediv_lt_iff_lt_mul hT, ← Int.ediv_lt_iff_lt_mul hT]
  constructor
  · rintro ⟨h1, h2, h3, h4⟩
    exact ⟨by omega, by omega, by omega, by omega⟩
  · rintro ⟨h1, h2, h3, h4⟩
    exact ⟨by omega, by omega, by omega, by omega⟩

/-! ### What a wall distance guarantees -/

/-- Outside the margin the query point has non negative coordinates, so the truncating division
and remainder of the source are the floor division and the non negative remainder. -/
theorem outside_margin (W T x y : Int) (hT : 0 < T)
    (h : ¬ (Int.tdiv x T ≤ 0 ∨ Int.tdiv x T ≥ W - 1 ∨ Int.tdiv y T ≤ 0 ∨ Int.tdiv y T ≥ W - 1)) :
    0 ≤ x ∧ 0 ≤ y ∧ Int.tdiv x T = x / T ∧ Int.tdiv y T = y / T ∧
      Int.tmod x T = x % T ∧ Int.tmod y T = y % T := by
  have hx : 0 ≤ x := nonneg_of_tdiv_pos x T hT (by omega)
  have hy : 0 ≤ y := nonneg_of_tdiv_pos y T hT (by omega)
  exact ⟨hx, hy, Int.tdiv_eq_ediv hx (le_of_lt hT), Int.tdiv_eq_ediv hy (le_of_lt hT),
    Int.tmod_eq_emod hx (le_of_lt hT), Int.tmod_eq_emod hy (le_of_lt hT)⟩

/-- The upper wall distance `d` at `(x, y)` is 0, or it is at most the block size and no block of
the column of `x` between the rows of `y - d` and of `y` collides. -/
theorem upperWall_clear (s : State) (T x y : Int) (hT : 0 < T) :
    getDistanceFromUpperWall s T x y = 0 ∨
      (0 < getDistanceFromUpperWall s T x y ∧ getDistanceFromUpperWall s T x y ≤ T ∧
        ∀ yBlock : Int, (y - getDistanceFromUpperWall s T x y) / T ≤ yBlock → yBlock ≤ y / T →
          isCollidingAt s (COMPUTE_BLOCK_INDEX s (x / T) yBlock) = 0) := by
  unfold getDistanceFromUpperWall
  simp only
  split_ifs with hm hc hn
  · exact Or.inl rfl
  · exact Or.inl rfl
  · obtain ⟨_, _, ex, ey, _, _⟩ := outside_margin _ T x y hT hm
    rw [ex, ey] at hc hn
    refine Or.inr ⟨hT, le_refl T, ?_⟩
    intro yBlock h1 h2
    rw [ediv_sub_self y T hT] at h1
    rcases (show yBlock = y / T ∨ yBlock = y / T - 1 by omega) with h | h
    · rw [h]; exact not_not.mp hc
    · rw [h]; exact hn
  · obtain ⟨_, _, ex, ey, _, my⟩ := outside_margin _ T x y hT hm
    rw [ex, ey] at hc
    rw [my]
    have hr0 := Int.emod_nonneg y (ne_of_gt hT)
    have hrT := Int.emod_lt_of_pos y hT
    rcases (show y % T = 0 ∨ 0 < y % T by omega) with h | h
    · exact Or.inl h
    · refine Or.inr ⟨h, le_of_lt hrT, ?_⟩
      intro yBlock h1 h2
      rw [ediv_sub_emod y T hT] at h1
      rw [show yBlock = y / T by omega]
      exact not_not.mp hc

/-- The downer wall distance `d` at `(x, y)` is 0, or it is at most the block size and no block
of the column of `x` between the rows of `y` and of `y + d - 1` collides. -/
theorem downerWall_clear (s : State) (T x y : Int) (hT : 0 < T) :
    getDistanceFromDownerWall s T x y = 0 ∨
      (0 < getDistanceFromDownerWall s T x y ∧ getDistanceFromDownerWall s T x y ≤ T ∧
        ∀ yBlock : Int, y / T ≤ yBlock → yBlock ≤ (y + getDistanceFromDownerWall s T x y - 1) / T →
          isCollidingAt s (COMPUTE_BLOCK_INDEX s (x / T) yBlock) = 0) := by
  unfold getDistanceFromDownerWall
  simp only
  split_ifs with hm hc hn
  · exact Or.inl rfl
  · exact Or.inl rfl
  · obtain ⟨_, _, ex, ey, _, _⟩ := outside_margin _ T x y hT hm
    rw [ex, ey] at hc hn
    refine Or.inr ⟨hT, le_refl T, ?_⟩
    intro yBlock h1 h2
    have h3 : (y + T - 1) / T ≤ (y + T) / T := Int.ediv_le_ediv hT (by omega)
    rw [ediv_add_self y T hT] at h3
    rcases (show yBlock = y / T ∨ yBlock = y / T + 1 by omega) with h | h
    · rw [h]; exact not_not.mp hc
    · rw [h]; exact hn
  · obtain ⟨_, _, ex, ey, _, my⟩ := outside_margin _ T x y hT hm
    rw [ex, ey] at hc
    rw [my]
    have hr0 := Int.emod_nonneg y (ne_of_gt hT)
    have hrT := Int.emod_lt_of_pos y hT
    refine Or.inr ⟨by omega, by omega, ?_⟩
    intro yBlock h1 h2
    rw [ediv_round_up y T hT] at h2
    rw [show yBlock = y / T by omega]
    exact not_not.mp hc

/-- The leftmost wall distance `d` at `(x, y)` is 0, or it is at most the block size and no block
of the row of `y` between the columns of `x - d` and of `x` collides. -/
theorem leftmostWall_clear (s : State) (T x y : Int) (hT : 0 < T) :
    getDistanceFromLeftmostWall s T x y = 0 ∨
      (0 < getDistanceFromLeftmostWall s T x y ∧ getDistanceFromLeftmostWall s T x y ≤ T ∧
        ∀ xBlock : Int, (x - getDistanceFromLeftmostWall s T x y) / T ≤ xBlock → xBlock ≤ x / T →
          isCollidingAt s (COMPUTE_BLOCK_INDEX s xBlock (y / T)) = 0) := by
  unfold getDistanceFromLeftmostWall
  simp only
  split_ifs with hm hc hn
  · exact Or.inl rfl
  · exact Or.inl rfl
  · obtain ⟨_, _, ex, ey, _, _⟩ := outside_margin _ T x y hT hm
    rw [ex, ey] at hc hn
    refine Or.inr ⟨hT, le_refl T, ?_⟩
    intro xBlock h1 h2
    rw [ediv_sub_self x T hT] at h1
    rcases (show xBlock = x / T ∨ xBlock = x / T - 1 by omega) with h | h
    · rw [h]; exact not_not.mp hc
    · rw [h]; exact hn
  · obtain ⟨_, _, ex, ey, mx, _⟩ := outside_margin _ T x y hT hm
    rw [ex, ey] at hc
    rw [mx]
    have hr0 := Int.emod_nonneg x (ne_of_gt hT)
    have hrT := Int.emod_lt_of_pos x hT
    rcases (show x % T = 0 ∨ 0 < x % T by omega) with h | h
    · exact Or.inl h
    · refine Or.inr ⟨h, le_of_lt hrT, ?_⟩
      intro xBlock h1 h2
      rw [ediv_sub_emod x T hT] at h1
      rw [show xBlock = x / T by omega]
      exact not_not.mp hc

/-- The rightmost wall distance `d` at `(x, y)` is 0, or it is at most the block size and no
block of the row of `y` between the columns of `x` and of `x + d - 1` collides. -/
theorem rightmostWall_clear (s : State) (T x y : Int) (hT : 0 < T) :
    getDistanceFromRightmostWall s T x y = 0 ∨
      (0 < getDistanceFromRightmostWall s T x y ∧ getDistanceFromRightmostWall s T x y ≤ T ∧
        ∀ xBlock : Int, x / T ≤ xBlock →
          xBlock ≤ (x + getDistanceFromRightmostWall s T x y - 1) / T →
          isCollidingAt s (COMPUTE_BLOCK_INDEX s xBlock (y / T)) = 0) := by
  unfold getDistanceFromRightmostWall
  simp only
  split_ifs with hm hc hn
  · exact Or.inl rfl
  · exact Or.inl rfl
  · obtain ⟨_, _, ex, ey, _, _⟩ := outside_margin _ T x y hT hm
    rw [ex, ey] at hc hn
    refine Or.inr ⟨hT, le_refl T, ?_⟩
    intro xBlock h1 h2
    have h3 : (x + T - 1) / T ≤ (x + T) / T := Int.ediv_le_ediv hT (by omega)
    rw [ediv_add_self x T hT] at h3
    rcases (show xBlock = x / T ∨ xBlock = x / T + 1 by omega) with h | h
    · rw [h]; exact not_not.mp hc
    · rw [h]; exact hn
  · obtain ⟨_, _, ex, ey, mx, _⟩ := outside_margin _ T x y hT hm
    rw [ex, ey] at hc
    rw [mx]
    have hr0 := Int.emod_nonneg x (ne_of_gt hT)
    have hrT := Int.emod_lt_of_pos x hT
    refine Or.inr ⟨by omega, by omega, ?_⟩
    intro xBlock h1 h2
    rw [ediv_round_up x T hT] at h2
    rw [show xBlock = x / T by omega]
    exact not_not.mp hc

/-! ### Sliding a rectangle along free blocks -/

/-- The blocks of the first and of the last pixel of a span of at most one block size are equal
or neighbours. -/
theorem last_block_le_succ (T a n : Int) (hT : 0 < T) (hn : n ≤ T) :
    (a + n - 1) / T ≤ a / T + 1 := by
  have h : (a + n - 1) / T ≤ (a + T) / T := Int.ediv_le_ediv hT (by omega)
  rw [ediv_add_self a T hT] at h
  exact h

theorem overlapsNoWall_shift_up (s : State) (T : Int) (r : SDL_Rect) (m : Int) (hT : 0 < T)
    (hw : r.w ≤ T) (hm : 0 ≤ m) (hfree : overlapsNoWall s T r)
    (hL : ∀ yBlock : Int, (r.y - m) / T ≤ yBlock → yBlock ≤ r.y / T →
      isCollidingAt s (COMPUTE_BLOCK_INDEX s (r.x / T) yBlock) = 0)
    (hR : ∀ yBlock : Int, (r.y - m) / T ≤ yBlock → yBlock ≤ r.y / T →
      isCollidingAt s (COMPUTE_BLOCK_INDEX s ((r.x + r.w - 1) / T) yBlock) = 0) :
    overlapsNoWall s T { x := r.x, y := r.y - m, w := r.w, h := r.h } := by
  intro xBlock yBlock hwall hov
  rw [overlapsBlock_iff T hT] at hov
  obtain ⟨a1, a2, a3, a4⟩ := hov
  simp only at a1 a2 a3 a4
  have mono : (r.y - m + r.h - 1) / T ≤ (r.y + r.h - 1) / T := Int.ediv_le_ediv hT (by omega)
  have span := last_block_le_succ T r.x r.w hT hw
  by_cases hc : r.y / T ≤ yBlock
  · exact hfree xBlock yBlock hwall ((overlapsBlock_iff T hT r xBlock yBlock).2
      ⟨a1, a2, hc, by omega⟩)
  · have hcol := hwall.2.2.2.2
    rcases (show xBlock = r.x / T ∨ xBlock = (r.x + r.w - 1) / T by omega) with h | h
    · rw [h] at hcol; exact hcol (hL yBlock a3 (by omega))
    · rw [h] at hcol; exact hcol (hR yBlock a3 (by omega))

theorem overlapsNoWall_shift_down (s : State) (T : Int) (r : SDL_Rect) (m : Int) (hT : 0 < T)
    (hw : r.w ≤ T) (hm : 0 ≤ m) (hfree : overlapsNoWall s T r)
    (hL : ∀ yBlock : Int, (r.y + r.h) / T ≤ yBlock → yBlock ≤ (r.y + r.h + m - 1) / T →
      isCollidingAt s (COMPUTE_BLOCK_INDEX s (r.x / T) yBlock) = 0)
    (hR : ∀ yBlock : Int, (r.y + r.h) / T ≤ yBlock → yBlock ≤ (r.y + r.h + m - 1) / T →
      isCollidingAt s (COMPUTE_BLOCK_INDEX s ((r.x + r.w - 1) / T) yBlock) = 0) :
    overlapsNoWall s T { x := r.x, y := r.y + m, w := r.w, h := r.h } := by
  intro xBlock yBlock hwall hov
  rw [overlapsBlock_iff T hT] at hov
  obtain ⟨a1, a2, a3, a4⟩ := hov
  simp only at a1 a2 a3 a4
  have mono : r.y / T ≤ (r.y + m) / T := Int.ediv_le_ediv hT (by omega)
  have e : r.y + m + r.h - 1 = r.y + r.h + m - 1 := by ring
  rw [e] at a4
  have next : (r.y + r.h) / T ≤ (r.y + r.h - 1) / T + 1 := by
    have h : (r.y + r.h) / T ≤ (r.y + r.h - 1 + T) / T := Int.ediv_le_ediv hT (by omega)
    rw [ediv_add_self _ T hT] at h
    exact h
  have span := last_block_le_succ T r.x r.w hT hw
  by_cases hc : yBlock ≤ (r.y + r.h - 1) / T
  · exact hfree xBlock yBlock hwall ((overlapsBlock_iff T hT r xBlock yBlock).2
      ⟨a1, a2, by omega, hc⟩)
  · have hcol := hwall.2.2.2.2
    rcases (show xBlock = r.x / T ∨ xBlock = (r.x + r.w - 1) / T by omega) with h | h
    · rw [h] at hcol; exact hcol (hL yBlock (by omega) a4)
    · rw [h] at hcol; exact hcol (hR yBlock (by omega) a4)

theorem overlapsNoWall_shift_left (s : State) (T : Int) (r : SDL_Rect) (m : Int) (hT : 0 < T)
    (hh : r.h ≤ T) (hm : 0 ≤ m) (hfree : overlapsNoWall s T r)
    (hU : ∀ xBlock : Int, (r.x - m) / T ≤ xBlock → xBlock ≤ r.x / T →
      isCollidingAt s (COMPUTE_BLOCK_INDEX s xBlock (r.y / T)) = 0)
    (hD : ∀ xBlock : Int, (r.x - m) / T ≤ xBlock → xBlock ≤ r.x / T →
      isCollidingAt s (COMPUTE_BLOCK_INDEX s xBlock ((r.y + r.h - 1) / T)) = 0) :
    overlapsNoWall s T { x := r.x - m, y := r.y, w := r.w, h := r.h } := by
  intro xBlock yBlock hwall hov
  rw [overlapsBlock_iff T hT] at hov
  obtain ⟨a1, a2, a3, a4⟩ := hov
  simp only at a1 a2 a3 a4
  have mono : (r.x - m + r.w - 1) / T ≤ (r.x + r.w - 1) / T := Int.ediv_le_ediv hT (by omega)
  have span := last_block_le_succ T r.y r.h hT hh
  by_cases hc : r.x / T ≤ xBlock
  · exact hfree xBlock yBlock hwall ((overlapsBlock_iff T hT r xBlock yBlock).2
      ⟨hc, by omega, a3, a4⟩)
  · have hcol := hwall.2.2.2.2
    rcases (show yBlock = r.y / T ∨ yBlock = (r.y + r.h - 1) / T by omega) with h | h
    · rw [h] at hcol; exact hcol (hU xBlock a1 (by omega))
    · rw [h] at hcol; exact hcol (hD xBlock a1 (by omega))

theorem overlapsNoWall_shift_right (s : State) (T : Int) (r : SDL_Rect) (m : Int) (hT : 0 < T)
    (hh : r.h ≤ T) (hm : 0 ≤ m) (hfree : overlapsNoWall s T r)
    (hU : ∀ xBlock : Int, (r.x + r.w) / T ≤ xBlock → xBlock ≤ (r.x + r.w + m - 1) / T →
      isCollidingAt s (COMPUTE_BLOCK_INDEX s xBlock (r.y / T)) = 0)
    (hD : ∀ xBlock : Int, (r.x + r.w) / T ≤ xBlock → xBlock ≤ (r.x + r.w + m - 1) / T →
      isCollidingAt s (COMPUTE_BLOCK_INDEX s xBlock ((r.y + r.h - 1) / T)) = 0) :
    overlapsNoWall s T { x := r.x + m, y := r.y, w := r.w, h := r.h } := by
  intro xBlock yBlock hwall hov
  rw [overlapsBlock_iff T hT] at hov
  obtain ⟨a1, a2, a3, a4⟩ := hov
  simp only at a1 a2 a3 a4
  have mono : r.x / T ≤ (r.x + m) / T := Int.ediv_le_ediv hT (by omega)
  have e : r.x + m + r.w - 1 = r.x + r.w + m - 1 := by ring
  rw [e] at a2
  have next : (r.x + r.w) / T ≤ (r.x + r.w - 1) / T + 1 := by
    have h : (r.x + r.w) / T ≤ (r.x + r.w - 1 + T) / T := Int.ediv_le_ediv hT (by omega)
    rw [ediv_add_self _ T hT] at h
    exact h
  have span := last_block_le_succ T r.y r.h hT hh
  by_cases hc : xBlock ≤ (r.x + r.w - 1) / T
  · exact hfree xBlock yBlock hwall ((overlapsBlock_iff T hT r xBlock yBlock).2
      ⟨by omega, hc, a3, a4⟩)
  · have hcol := hwall.2.2.2.2
    rcases (show yBlock = r.y / T ∨ yBlock = (r.y + r.h - 1) / T by omega) with h | h
    · rw [h] at hcol; exact hcol (hU xBlock (by omega) a2)
    · rw [h] at hcol; exact hcol (hD xBlock (by omega) a2)

/-! ### The rectangle after a move -/

theorem moveToUp_positionRectangle (s : State) (T : Int) (e : MovableEntity) :
    (MovableEntity.moveToUp s T e).2.positionRectangle =
      { x := e.positionRectangle.x
        y := e.positionRectangle.y - min e.movingPixelsAmount
          (min (getDistanceFromUpperWall s T e.positionRectangle.x e.positionRectangle.y)
            (getDistanceFromUpperWall s T (e.positionRectangle.x + e.positionRectangle.w - 1)
              e.positionRectangle.y))
        w := e.positionRectangle.w
        h := e.positionRectangle.h } := by
  simp only [MovableEntity.moveToUp, smaller_distance_eq_min, step_backward_eq_min]

theorem moveToDown_positionRectangle (s : State) (T : Int) (e : MovableEntity) :
    (MovableEntity.moveToDown s T e).2.positionRectangle =
      { x := e.positionRectangle.x
        y := e.positionRectangle.y + min e.movingPixelsAmount
          (min (getDistanceFromDownerWall s T e.positionRectangle.x
              (e.positionRectangle.y + e.positionRectangle.h))
            (getDistanceFromDownerWall s T (e.positionRectangle.x + e.positionRectangle.w - 1)
              (e.positionRectangle.y + e.positionRectangle.h)))
        w := e.positionRectangle.w
        h := e.positionRectangle.h } := by
  simp only [MovableEntity.moveToDown, smaller_distance_eq_min, step_forward_eq_min]

theorem moveToLeft_positionRectangle (s : State) (T : Int) (e : MovableEntity) :
    (MovableEntity.moveToLeft s T e).2.positionRectangle =
      { x := e.positionRectangle.x - min e.movingPixelsAmount
          (min (getDistanceFromLeftmostWall s T e.positionRectangle.x e.positionRectangle.y)
            (getDistanceFromLeftmostWall s T e.positionRectangle.x
              (e.positionRectangle.y + e.positionRectangle.h - 1)))
        y := e.positionRectangle.y
        w := e.positionRectangle.w
        h := e.positionRectangle.h } := by
  simp only [MovableEntity.moveToLeft, smaller_distance_eq_min, step_backward_eq_min]

theorem moveToRight_positionRectangle (s : State) (T : Int) (e : MovableEntity) :
    (MovableEntity.moveToRight s T e).2.positionRectangle =
      { x := e.positionRectangle.x + min e.movingPixelsAmount
          (min (getDistanceFromRightmostWall s T (e.positionRectangle.x + e.positionRectangle.w)
              e.positionRectangle.y)
            (getDistanceFromRightmostWall s T (e.positionRectangle.x + e.positionRectangle.w)
              (e.positionRectangle.y + e.positionRectangle.h - 1)))
        y := e.positionRectangle.y
        w := e.positionRectangle.w
        h := e.positionRectangle.h } := by
  simp only [MovableEntity.moveToRight, smaller_distance_eq_min, step_forward_eq_min]

/-! ### A move keeps the rectangle off the walls -/

theorem moveToUp_overlapsNoWall (s : State) (T : Int) (e : MovableEntity) (hT : 0 < T)
    (hw : e.positionRectangle.w ≤ T) (hs : 0 ≤ e.movingPixelsAmount)
    (hfree : overlapsNoWall s T e.positionRectangle) :
    overlapsNoWall s T (MovableEntity.moveToUp s T e).2.positionRectangle := by
  rw [moveToUp_positionRectangle]
  have h1 := upperWall_clear s T e.positionRectangle.x e.positionRectangle.y hT
  have h2 := upperWall_clear s T (e.positionRectangle.x + e.positionRectangle.w - 1)
    e.positionRectangle.y hT
  generalize getDistanceFromUpperWall s T e.positionRectangle.x e.positionRectangle.y = d1
    at h1 ⊢
  generalize getDistanceFromUpperWall s T (e.positionRectangle.x + e.positionRectangle.w - 1)
    e.positionRectangle.y = d2 at h2 ⊢
  generalize hm : min e.movingPixelsAmount (min d1 d2) = m
  have b1 : m ≤ d1 := by omega
  have b2 : m ≤ d2 := by omega
  have b0 : 0 ≤ m := by omega
  rcases (show m = 0 ∨ 0 < m by omega) with h0 | hpos
  · rw [h0, sub_zero]; exact hfree
  · rcases h1 with h | ⟨_, _, c1⟩
    · omega
    rcases h2 with h | ⟨_, _, c2⟩
    · omega
    apply overlapsNoWall_shift_up s T e.positionRectangle m hT hw b0 hfree
    · intro yBlock a b
      exact c1 yBlock (le_trans (Int.ediv_le_ediv hT (by omega)) a) b
    · intro yBlock a b
      exact c2 yBlock (le_trans (Int.ediv_le_ediv hT (by omega)) a) b

theorem moveToDown_overlapsNoWall (s : State) (T : Int) (e : MovableEntity) (hT : 0 < T)
    (hw : e.positionRectangle.w ≤ T) (hs : 0 ≤ e.movingPixelsAmount)
    (hfree : overlapsNoWall s T e.positionRectangle) :
    overlapsNoWall s T (MovableEntity.moveToDown s T e).2.positionRectangle := by
  rw [moveToDown_positionRectangle]
  have h1 := downerWall_clear s T e.positionRectangle.x
    (e.positionRectangle.y + e.positionRectangle.h) hT
  have h2 := downerWall_clear s T (e.positionRectangle.x + e.positionRectangle.w - 1)
    (e.positionRectangle.y + e.positionRectangle.h) hT
  generalize getDistanceFromDownerWall s T e.positionRectangle.x
    (e.positionRectangle.y + e.positionRectangle.h) = d1 at h1 ⊢
  generalize getDistanceFromDownerWall s T (e.positionRectangle.x + e.positionRectangle.w - 1)
    (e.positionRectangle.y + e.positionRectangle.h) = d2 at h2 ⊢
  generalize hm : min e.movingPixelsAmount (min d1 d2) = m
  have b1 : m ≤ d1 := by omega
  have b2 : m ≤ d2 := by omega
  have b0 : 0 ≤ m := by omega
  rcases (show m = 0 ∨ 0 < m by omega) with h0 | hpos
  · rw [h0, add_zero]; exact hfree
  · rcases h1 with h | ⟨_, _, c1⟩
    · omega
    rcases h2 with h | ⟨_, _, c2⟩
    · omega
    apply overlapsNoWall_shift_down s T e.positionRectangle m hT hw b0 hfree
    · intro yBlock a b
      exact c1 yBlock a (le_trans b (Int.ediv_le_ediv hT (by omega)))
    · intro yBlock a b
      exact c2 yBlock a (le_trans b (Int.ediv_le_ediv hT (by omega)))

theorem moveToLeft_overlapsNoWall (s : State) (T : Int) (e : MovableEntity) (hT : 0 < T)
    (hh : e.positionRectangle.h ≤ T) (hs : 0 ≤ e.movingPixelsAmount)
    (hfree : overlapsNoWall s T e.positionRectangle) :
    overlapsNoWall s T (MovableEntity.moveToLeft s T e).2.positionRectangle := by
  rw [moveToLeft_positionRectangle]
  have h1 := leftmostWall_clear s T e.positionRectangle.x e.positionRectangle.y hT
  have h2 := leftmostWall_clear s T e.positionRectangle.x
    (e.positionRectangle.y + e.positionRectangle.h - 1) hT
  generalize getDistanceFromLeftmostWall s T e.positionRectangle.x e.positionRectangle.y = d1
    at h1 ⊢
  generalize getDistanceFromLeftmostWall s T e.positionRectangle.x
    (e.positionRectangle.y + e.positionRectangle.h - 1) = d2 at h2 ⊢
  generalize hm : min e.movingPixelsAmount (min d1 d2) = m
  have b1 : m ≤ d1 := by omega
  have b2 : m ≤ d2 := by omega
  have b0 : 0 ≤ m := by omega
  rcases (show m = 0 ∨ 0 < m by omega) with h0 | hpos
  · rw [h0, sub_zero]; exact hfree
  · rcases h1 with h | ⟨_, _, c1⟩
    · omega
    rcases h2 with h | ⟨_, _, c2⟩
    · omega
    apply overlapsNoWall_shift_left s T e.positionRectangle m hT hh b0 hfree
    · intro xBlock a b
      exact c1 xBlock (le_trans (Int.ediv_le_ediv hT (by omega)) a) b
    · intro xBlock a b
      exact c2 xBlock (le_trans (Int.ediv_le_ediv hT (by omega)) a) b

theorem moveToRight_overlapsNoWall (s : State) (T : Int) (e : MovableEntity) (hT : 0 < T)
    (hh : e.positionRectangle.h ≤ T) (hs : 0 ≤ e.movingPixelsAmount)
    (hfree : overlapsNoWall s T e.positionRectangle) :
    overlapsNoWall s T (MovableEntity.moveToRight s T e).2.positionRectangle := by
  rw [moveToRight_positionRectangle]
  have h1 := rightmostWall_clear s T (e.positionRectangle.x + e.positionRectangle.w)
    e.positionRectangle.y hT
  have h2 := rightmostWall_clear s T (e.positionRectangle.x + e.positionRectangle.w)
    (e.positionRectangle.y + e.positionRectangle.h - 1) hT
  generalize getDistanceFromRightmostWall s T (e.positionRectangle.x + e.positionRectangle.w)
    e.positionRectangle.y = d1 at h1 ⊢
  generalize getDistanceFromRightmostWall s T (e.positionRectangle.x + e.positionRectangle.w)
    (e.positionRectangle.y + e.positionRectangle.h - 1) = d2 at h2 ⊢
  generalize hm : min e.movingPixelsAmount (min d1 d2) = m
  have b1 : m ≤ d1 := by omega
  have b2 : m ≤ d2 := by omega
  have b0 : 0 ≤ m := by omega
  rcases (show m = 0 ∨ 0 < m by omega) with h0 | hpos
  · rw [h0, add_zero]; exact hfree
  · rcases h1 with h | ⟨_, _, c1⟩
    · omega
    rcases h2 with h | ⟨_, _, c2⟩
    · omega
    apply overlapsNoWall_shift_right s T e.positionRectangle m hT hh b0 hfree
    · intro xBlock a b
      exact c1 xBlock a (le_trans b (Int.ediv_le_ediv hT (by omega)))
    · intro xBlock a b
      exact c2 xBlock a (le_trans b (Int.ediv_le_ediv hT (by omega)))

theorem apply_keeps_size_and_speed (s : State) (T : Int) (e : MovableEntity) (m : MoveRequest) :
    (MoveRequest.apply s T e m).positionRectangle.w = e.positionRectangle.w ∧
      (MoveRequest.apply s T e m).positionRectangle.h = e.positionRectangle.h ∧
      (MoveRequest.apply s T e m).movingPixelsAmount = e.movingPixelsAmount := by
  cases m <;> exact ⟨rfl, rfl, rfl⟩

theorem apply_overlapsNoWall (s : State) (T : Int) (e : MovableEntity) (m : MoveRequest)
    (hT : 0 < T) (hw : e.positionRectangle.w ≤ T) (hh : e.positionRectangle.h ≤ T)
    (hs : 0 ≤ e.movingPixelsAmount) (hfree : overlapsNoWall s T e.positionRectangle) :
    overlapsNoWall s T (MoveRequest.apply s T e m).positionRectangle := by
  cases m
  · exact moveToUp_overlapsNoWall s T e hT hw hs hfree
  · exact moveToDown_overlapsNoWall s T e hT hw hs hfree
  · exact moveToLeft_overlapsNoWall s T e hT hh hs hfree
  · exact moveToRight_overlapsNoWall s T e hT hh hs hfree

theorem applyAll_overlapsNoWall (s : State) (T : Int) (hT : 0 < T) (ms : List MoveRequest) :
    ∀ e : MovableEntity, e.positionRectangle.w ≤ T → e.positionRectangle.h ≤ T →
      0 ≤ e.movingPixelsAmount → overlapsNoWall s T e.positionRectangle →
      overlapsNoWall s T (MoveRequest.applyAll s T e ms).positionRectangle := by
  induction ms with
  | nil => intro e _ _ _ hfree; exact hfree
  | cons m ms ih =>
    intro e hw hh hs hfree
    obtain ⟨kw, kh, ks⟩ := apply_keeps_size_and_speed s T e m
    exact ih (MoveRequest.apply s T e m) (by rw [kw]; exact hw) (by rw [kh]; exact hh)
      (by rw [ks]; exact hs) (apply_overlapsNoWall s T e m hT hw hh hs hfree)

/-- In the sample level with one wall, the 32 x 32 rectangle at (130, 130) lies in the free
blocks below and right of the wall block `(2, 1)`. -/
theorem sampleEntity_overlapsNoWall :
    overlapsNoWall wallLevel 64 (sampleEntity 130 130 8).positionRectangle := by
  intro xBlock yBlock hwall hov
  obtain ⟨h1, h2, h3, h4, hc⟩ := hwall
  obtain ⟨o1, o2, o3, o4⟩ := hov
  simp only [wallLevel, sampleEntity, MovableEntity.new] at h1 h2 h3 h4 o1 o2 o3 o4
  have hidx : yBlock * 5 + xBlock = 7 := by
    by_contra hne
    apply hc
    simp [isCollidingAt, COMPUTE_BLOCK_INDEX, wallLevel, sampleBlocks, hne]
  omega

/-! ### Life points -/

/-- One `modifyLife` call puts the life points into `[0, maximum]` when the maximum is not
negative, and keeps the maximum. -/
theorem fighting_modifyLife_bounds (e : FightingEntity) (delta : Int)
    (hmax : 0 ≤ e.maximumLifePointsAmount) :
    (FightingEntity.modifyLife e delta).maximumLifePointsAmount = e.maximumLifePointsAmount ∧
      lifeInvariant (FightingEntity.modifyLife e delta).lifePointsAmount
        e.maximumLifePointsAmount := by
  unfold FightingEntity.modifyLife lifeInvariant
  simp only
  split_ifs with h1 h2
  · exact ⟨rfl, le_refl 0, hmax⟩
  · exact ⟨rfl, hmax, le_refl _⟩
  · exact ⟨rfl, by simp only; omega, by simp only; omega⟩

theorem spawner_modifyLife_bounds (e : EnemySpawnerEntity) (delta : Int)
    (hmax : 0 ≤ e.maximumLifePointsAmount) :
    (EnemySpawnerEntity.modifyLife e delta).maximumLifePointsAmount =
        e.maximumLifePointsAmount ∧
      lifeInvariant (EnemySpawnerEntity.modifyLife e delta).lifePointsAmount
        e.maximumLifePointsAmount := by
  unfold EnemySpawnerEntity.modifyLife lifeInvariant
  simp only
  split_ifs with h1 h2
  · exact ⟨rfl, le_refl 0, hmax⟩
  · exact ⟨rfl, hmax, le_refl _⟩
  · exact ⟨rfl, by simp only; omega, by simp only; omega⟩

theorem fighting_modifyLifeAll_bounds (deltas : List Int) :
    ∀ e : FightingEntity, lifeInvariant e.lifePointsAmount e.maximumLifePointsAmount →
      (FightingEntity.modifyLifeAll e deltas).maximumLifePointsAmount =
          e.maximumLifePointsAmount ∧
        lifeInvariant (FightingEntity.modifyLifeAll e deltas).lifePointsAmount
          e.maximumLifePointsAmount := by
  induction deltas with
  | nil => intro e h; exact ⟨rfl, h⟩
  | cons d ds ih =>
    intro e h
    have hmax : 0 ≤ e.maximumLifePointsAmount := le_trans h.1 h.2
    obtain ⟨k, b⟩ := fighting_modifyLife_bounds e d hmax
    have step := ih (FightingEntity.modifyLife e d) (by rw [k]; exact b)
    rw [k] at step
    exact step

theorem spawner_modifyLifeAll_bounds (deltas : List Int) :
    ∀ e : EnemySpawnerEntity, lifeInvariant e.lifePointsAmount e.maximumLifePointsAmount →
      (EnemySpawnerEntity.modifyLifeAll e deltas).maximumLifePointsAmount =
          e.maximumLifePointsAmount ∧
        lifeInvariant (EnemySpawnerEntity.modifyLifeAll e deltas).lifePointsAmount
          e.maximumLifePointsAmount := by
  induction deltas with
  | nil => intro e h; exact ⟨rfl, h⟩
  | cons d ds ih =>
    intro e h
    have hmax : 0 ≤ e.maximumLifePointsAmount := le_trans h.1 h.2
    obtain ⟨k, b⟩ := spawner_modifyLife_bounds e d hmax
    have step := ih (EnemySpawnerEntity.modifyLife e d) (by rw [k]; exact b)
    rw [k] at step
    exact step

/-! ### What the code computes -/

/-- Each move operation returns the smaller of the two wall distances of its leading edge. -/
theorem move_returns_smaller_wall_distance (s : State) (T : Int) (e : MovableEntity) :
    (MovableEntity.moveToUp s T e).1 =
        min (getDistanceFromUpperWall s T e.positionRectangle.x e.positionRectangle.y)
          (getDistanceFromUpperWall s T (e.positionRectangle.x + e.positionRectangle.w - 1)
            e.positionRectangle.y) ∧
      (MovableEntity.moveToDown s T e).1 =
        min (getDistanceFromDownerWall s T e.positionRectangle.x
            (e.positionRectangle.y + e.positionRectangle.h))
          (getDistanceFromDownerWall s T (e.positionRectangle.x + e.positionRectangle.w - 1)
            (e.positionRectangle.y + e.positionRectangle.h)) ∧
      (MovableEntity.moveToLeft s T e).1 =
        min (getDistanceFromLeftmostWall s T e.positionRectangle.x e.positionRectangle.y)
          (getDistanceFromLeftmostWall s T e.positionRectangle.x
            (e.positionRectangle.y + e.positionRectangle.h - 1)) ∧
      (MovableEntity.moveToRight s T e).1 =
        min (getDistanceFromRightmostWall s T (e.positionRectangle.x + e.positionRectangle.w)
            e.positionRectangle.y)
          (getDistanceFromRightmostWall s T (e.positionRectangle.x + e.positionRectangle.w)
            (e.positionRectangle.y + e.positionRectangle.h - 1)) := by
  refine ⟨?_, ?_, ?_, ?_⟩
  · simp only [MovableEntity.moveToUp, smaller_distance_eq_min]
  · simp only [MovableEntity.moveToDown, smaller_distance_eq_min]
  · simp only [MovableEntity.moveToLeft, smaller_distance_eq_min]
  · simp only [MovableEntity.moveToRight, smaller_distance_eq_min]

/-- The margin of the four wall-distance functions: the block column and the block row of the
query point are both compared with the level width. Inside the margin the four functions
return 0. -/
theorem wall_distance_in_width_margin (s : State) (T x y : Int)
    (h : Int.tdiv x T ≤ 0 ∨ Int.tdiv x T ≥ s.levelWidthBlocks - 1 ∨ Int.tdiv y T ≤ 0 ∨
      Int.tdiv y T ≥ s.levelWidthBlocks - 1) :
    getDistanceFromUpperWall s T x y = 0 ∧ getDistanceFromDownerWall s T x y = 0 ∧
      getDistanceFromLeftmostWall s T x y = 0 ∧ getDistanceFromRightmostWall s T x y = 0 := by
  unfold getDistanceFromUpperWall getDistanceFromDownerWall getDistanceFromLeftmostWall
    getDistanceFromRightmostWall
  simp only [if_pos h, and_self]

/-- Outside that margin, that is when the block column and the block row of the query point are
both between 1 and the level width minus 2, each wall-distance function returns 0 if the block of
the point collides, else the block size if the neighbour block in its direction does not collide,
else the pixel offset of the point to the neighbour. -/
theorem wall_distance_outside_width_margin (s : State) (T x y : Int)
    (hx : 1 ≤ Int.tdiv x T ∧ Int.tdiv x T ≤ s.levelWidthBlocks - 2)
    (hy : 1 ≤ Int.tdiv y T ∧ Int.tdiv y T ≤ s.levelWidthBlocks - 2) :
    getDistanceFromUpperWall s T x y =
        (if isCollidingAt s (COMPUTE_BLOCK_INDEX s (Int.tdiv x T) (Int.tdiv y T)) ≠ 0 then 0
        else if isCollidingAt s (COMPUTE_BLOCK_INDEX s (Int.tdiv x T) (Int.tdiv y T - 1)) = 0
          then T
        else Int.tmod y T) ∧
      getDistanceFromDownerWall s T x y =
        (if isCollidingAt s (COMPUTE_BLOCK_INDEX s (Int.tdiv x T) (Int.tdiv y T)) ≠ 0 then 0
        else if isCollidingAt s (COMPUTE_BLOCK_INDEX s (Int.tdiv x T) (Int.tdiv y T + 1)) = 0
          then T
        else T - Int.tmod y T) ∧
      getDistanceFromLeftmostWall s T x y =
        (if isCollidingAt s (COMPUTE_BLOCK_INDEX s (Int.tdiv x T) (Int.tdiv y T)) ≠ 0 then 0
        else if isCollidingAt s (COMPUTE_BLOCK_INDEX s (Int.tdiv x T - 1) (Int.tdiv y T)) = 0
          then T
        else Int.tmod x T) ∧
      getDistanceFromRightmostWall s T x y =
        (if isCollidingAt s (COMPUTE_BLOCK_INDEX s (Int.tdiv x T) (Int.tdiv y T)) ≠ 0 then 0
        else if isCollidingAt s (COMPUTE_BLOCK_INDEX s (Int.tdiv x T + 1) (Int.tdiv y T)) = 0
          then T
        else T - Int.tmod x T) := by
  have h : ¬ (Int.tdiv x T ≤ 0 ∨ Int.tdiv x T ≥ s.levelWidthBlocks - 1 ∨ Int.tdiv y T ≤ 0 ∨
      Int.tdiv y T ≥ s.levelWidthBlocks - 1) := by omega
  unfold getDistanceFromUpperWall getDistanceFromDownerWall getDistanceFromLeftmostWall
    getDistanceFromRightmostWall
  simp only [if_neg h, and_self]

/-! ### The 32-bit clock -/

theorem u32sub_lt (a b : Nat) : u32sub a b < 2 ^ 32 := by
  unfold u32sub
  omega

theorem u32sub_zero (a : Nat) : u32sub a 0 = a % 2 ^ 32 := by
  unfold u32sub
  omega

theorem u32sub_of_le (a b : Nat) (hab : b ≤ a) (ha : a < 2 ^ 32) : u32sub a b = a - b := by
  unfold u32sub
  omega

theorem u32sub_add_mod (a k : Nat) (hk : k < 2 ^ 32) : u32sub ((a + k) % 2 ^ 32) a = k := by
  unfold u32sub
  omega

/-- A freshly constructed fighting entity shoots at its first call exactly when the clock has
reached its time between shots. -/
theorem fresh_fighter_shoots_iff {Bullet : Type} (fireBullet : Int → Int → Option Bullet)
    (base : MovingEntity) (maximumLifePointsAmount timeBetweenShots : Int) (firingSoundId : Nat)
    (wallOrEnemySpawner entityWidth bulletWidth bulletHeight : Int) (now after : Nat) :
    (FightingEntity.shoot fireBullet
        (FightingEntity.new base maximumLifePointsAmount timeBetweenShots firingSoundId
          wallOrEnemySpawner entityWidth bulletWidth bulletHeight) now after).2.2 ≠ [] ↔
      (timeBetweenShots % 2 ^ 32).toNat ≤ now % 2 ^ 32 := by
  unfold FightingEntity.shoot
  simp only [FightingEntity.new, u32sub_zero, ge_iff_le]
  split_ifs with h
  · exact ⟨fun _ => h, fun _ => List.cons_ne_nil _ _⟩
  · exact ⟨fun hne => absurd rfl hne, fun hle => absurd hle h⟩

/-- The object after an allowed shot. -/
theorem shoot_allowed_object {Bullet : Type} (fireBullet : Int → Int → Option Bullet)
    (e : FightingEntity) (now after : Nat)
    (h : u32sub now e.lastShotTime ≥ e.timeBetweenShots) :
    (FightingEntity.shoot fireBullet e now after).2.1 = { e with lastShotTime := after } := by
  unfold FightingEntity.shoot
  simp only [if_pos h]

/-! ### Loading a level -/

/-- An integer in the range of `int` is stored as it is. -/
theorem storeInt_of_int_range (n : Int) (h : -(2 ^ 31) ≤ n ∧ n < 2 ^ 31) : storeInt n = n := by
  unfold storeInt saturateLong wrapInt32
  split_ifs <;> omega

theorem storeInt_of_small (a : Nat) (ha : a < 10) : storeInt (a : Int) = (a : Int) :=
  storeInt_of_int_range a (by omega)

theorem fscanfInt_digit (a c : Nat) (t : List Nat) (ha : a < 10) (hc : isdigit c = false) :
    fscanfInt ((48 + a) :: c :: t) = some ((a : Int), c :: t) := by
  have hs : isspace (48 + a) = false := by
    simp only [isspace, Bool.or_eq_false_iff, decide_eq_false_iff_not]
    omega
  have hd : isdigit (48 + a) = true := by
    simp only [isdigit, Bool.and_eq_true, decide_eq_true_eq]
    omega
  have h45 : ¬ 48 + a = 45 := by omega
  have h43 : ¬ 48 + a = 43 := by omega
  have hr : readDigits 0 ((48 + a) :: c :: t) = (a, c :: t) := by
    simp [readDigits, hd, hc]
  have hn : fscanfNumeral ((48 + a) :: c :: t) = some ((a : Int), c :: t) := by
    simp only [fscanfNumeral, skipWhitespace, hs, Bool.false_eq_true, if_false, h45, h43, hd,
      if_true, hr]
  simp only [fscanfInt, hn, storeInt_of_small a ha]

theorem loadRow_rowText (tail : List Nat) (r : List Nat) :
    ∀ (remaining : Nat) (x : Int) (level : State) (i : Int), r ≠ [] → r.length ≤ remaining →
      (∀ a ∈ r, a < 5) →
      loadRow remaining x { level := level, i := i, file := rowText r ++ tail } =
        RowEnd.nextRow
          { level :=
              { level with
                pointerLevelBlocks := writeCells level.pointerLevelBlocks i r
                levelWidthBlocks := x + r.length }
            i := i + r.length
            file := tail } := by
  induction r with
  | nil => intro _ _ _ _ h; exact absurd rfl h
  | cons a rest ih =>
    intro remaining x level i _ hlen hids
    have ha : a < 5 := hids a (List.mem_cons_self a rest)
    obtain ⟨n, rfl⟩ : ∃ n, remaining = n + 1 := ⟨remaining - 1, by simp at hlen; omega⟩
    have hgood : ¬ ((a : Int) < 0 ∨ (a : Int) ≥ BLOCK_IDS_COUNT) := by
      unfold BLOCK_IDS_COUNT
      omega
    cases rest with
    | nil =>
      have hf : fscanfInt (rowText [a] ++ tail) = some ((a : Int), 10 :: tail) :=
        fscanfInt_digit a 10 tail (by omega) (by decide)
      simp only [loadRow, hf, hgood, if_false, fgetc, Nat.cast_ofNat, if_true, writeCells,
        List.length_singleton, Nat.cast_one, Int.toNat_ofNat]
    | cons b rest2 =>
      have hf : fscanfInt (rowText (a :: b :: rest2) ++ tail) =
          some ((a : Int), 44 :: (rowText (b :: rest2) ++ tail)) :=
        fscanfInt_digit a 44 _ (by omega) (by decide)
      have h44 : ¬ ((44 : Nat) : Int) = 10 := by decide
      simp only [loadRow, hf, hgood, if_false, fgetc, h44, Int.toNat_ofNat]
      rw [ih n (x + 1) _ (i + 1) (List.cons_ne_nil b rest2)
        (by simp at hlen ⊢; omega)
        (fun c hc => hids c (List.mem_cons_of_mem a hc))]
      simp only [writeCells, List.length_cons, Nat.cast_add, Nat.cast_one, RowEnd.nextRow.injEq,
        Loading.mk.injEq, and_true]
      refine ⟨?_, by ring⟩
      congr 1
      ring

theorem writeCells_append (a b : List Nat) :
    ∀ (cells : Int → Nat) (i : Int),
      writeCells cells i (a ++ b) = writeCells (writeCells cells i a) (i + a.length) b := by
  induction a with
  | nil => intro cells i; simp [writeCells]
  | cons c a ih =>
    intro cells i
    show writeCells (fun k => if k = i then c else cells k) (i + 1) (a ++ b) =
      writeCells (writeCells (fun k => if k = i then c else cells k) (i + 1) a)
        (i + ((a.length + 1 : Nat) : Int)) b
    have e : i + 1 + (a.length : Int) = i + ((a.length + 1 : Nat) : Int) := by
      push_cast
      ring
    rw [ih, e]

theorem writeCells_before (ids : List Nat) :
    ∀ (cells : Int → Nat) (i j : Int), j < i → writeCells cells i ids j = cells j := by
  induction ids with
  | nil => intro cells i j _; rfl
  | cons a ids ih =>
    intro cells i j hj
    simp only [writeCells]
    rw [ih _ (i + 1) j (by omega)]
    simp only [ite_eq_right_iff]
    intro h
    omega

theorem writeCells_at (ids : List Nat) :
    ∀ (cells : Int → Nat) (i : Int) (k : Nat), k < ids.length →
      writeCells cells i ids (i + k) = ids.getD k 0 := by
  induction ids with
  | nil => intro cells i k hk; simp at hk
  | cons a ids ih =>
    intro cells i k hk
    simp only [writeCells]
    cases k with
    | zero =>
      rw [writeCells_before ids _ (i + 1) (i + (0 : Nat)) (by simp)]
      simp
    | succ k =>
      have e : i + ((k + 1 : Nat) : Int) = (i + 1) + (k : Int) := by push_cast; ring
      rw [e, ih _ (i + 1) k (by simp at hk; omega)]
      simp

theorem levelIds_length (W : Nat) (rows : List (List Nat)) (h : ∀ r ∈ rows, r.length = W) :
    (levelIds rows).length = rows.length * W := by
  induction rows with
  | nil => simp [levelIds]
  | cons r rs ih =>
    simp only [levelIds, List.length_append, List.length_cons]
    rw [ih (fun q hq => h q (List.mem_cons_of_mem r hq)), h r (List.mem_cons_self r rs)]
    ring

theorem levelIds_getD (W : Nat) (rows : List (List Nat)) :
    ∀ (x y : Nat), (∀ r ∈ rows, r.length = W) → x < W → y < rows.length →
      (levelIds rows).getD (y * W + x) 0 = (rows.getD y []).getD x 0 := by
  induction rows with
  | nil => intro x y _ _ hy; simp at hy
  | cons r rs ih =>
    intro x y h hx hy
    have hr : r.length = W := h r (List.mem_cons_self r rs)
    cases y with
    | zero =>
      simp only [levelIds, Nat.zero_mul, Nat.zero_add, List.getD_cons_zero]
      rw [List.getD_append _ _ _ _ (by omega)]
    | succ y =>
      have e : (y + 1) * W + x = r.length + (y * W + x) := by rw [hr]; ring
      simp only [levelIds, List.getD_cons_succ]
      rw [e, List.getD_append_right _ _ _ _ (by omega)]
      simp only [Nat.add_sub_cancel_left]
      exact ih x y (fun q hq => h q (List.mem_cons_of_mem r hq)) hx (by simp at hy; omega)

theorem loadRows_levelText (maximumWidth W : Nat) (hW : 1 ≤ W ∧ W ≤ maximumWidth)
    (rows : List (List Nat)) :
    ∀ (remaining : Nat) (y : Int) (level : State) (i : Int), rows.length ≤ remaining →
      (∀ r ∈ rows, r.length = W ∧ ∀ a ∈ r, a < 5) →
      loadRows maximumWidth remaining y { level := level, i := i, file := levelText rows } =
        (0,
          { level with
            pointerLevelBlocks := writeCells level.pointerLevelBlocks i (levelIds rows)
            levelWidthBlocks := if rows = [] then level.levelWidthBlocks else W
            levelHeightBlocks := y + rows.length }) := by
  induction rows with
  | nil =>
    intro remaining y level i _ _
    obtain ⟨m, rfl⟩ : ∃ m, maximumWidth = m + 1 := ⟨maximumWidth - 1, by omega⟩
    cases remaining with
    | zero => simp [loadRows, levelIds, writeCells]
    | succ n =>
      simp [loadRows, loadRow, levelText, fscanfInt, fscanfNumeral, skipWhitespace, levelIds,
        writeCells]
  | cons r rs ih =>
    intro remaining y level i hlen hrows
    obtain ⟨n, rfl⟩ : ∃ n, remaining = n + 1 := ⟨remaining - 1, by simp at hlen; omega⟩
    obtain ⟨hr, hids⟩ := hrows r (List.mem_cons_self r rs)
    have hne : r ≠ [] := by
      intro h
      rw [h] at hr
      simp at hr
      omega
    simp only [loadRows, levelText]
    rw [loadRow_rowText (levelText rs) r maximumWidth 0 level i hne (by omega) hids]
    simp only
    rw [ih n (y + 1) _ _ (by simp at hlen; omega)
      (fun q hq => hrows q (List.mem_cons_of_mem r hq))]
    simp only [levelIds, writeCells_append, List.length_cons, Nat.cast_add, Nat.cast_one,
      Prod.mk.injEq, true_and, hr, zero_add, ite_self, reduceCtorEq, if_false]
    congr 1
    ring

/-- The inner loop against the scan of the same row without checks: the loop returns -1 exactly
when the scan meets an index out of the catalog; else it stops or goes on as the scan does. -/
theorem loadRow_scanRow :
    ∀ (remaining : Nat) (x : Int) (l : Loading),
      ((∃ blockId ∈ (scanRow remaining l.file).1, isBadBlockId blockId) ∧
          ∃ l1, loadRow remaining x l = RowEnd.badBlockId l1) ∨
        ((∀ blockId ∈ (scanRow remaining l.file).1, ¬ isBadBlockId blockId) ∧
          (((scanRow remaining l.file).2 = none ∧
              ∃ l1, loadRow remaining x l = RowEnd.sceneLoadingEnd l1) ∨
            ∃ l1, (scanRow remaining l.file).2 = some l1.file ∧
              loadRow remaining x l = RowEnd.nextRow l1)) := by
  intro remaining
  induction remaining with
  | zero =>
    intro x l
    exact Or.inr ⟨fun _ h => by simp [scanRow] at h, Or.inr ⟨l, rfl, rfl⟩⟩
  | succ n ih =>
    intro x l
    cases hf : fscanfInt l.file with
    | none =>
      refine Or.inr ⟨fun _ h => by simp [scanRow, hf] at h, Or.inl ⟨by simp [scanRow, hf], l, ?_⟩⟩
      simp only [loadRow, hf]
    | some p =>
      obtain ⟨blockId, afterNumber⟩ := p
      by_cases hbad : blockId < 0 ∨ blockId ≥ BLOCK_IDS_COUNT
      · refine Or.inl ⟨⟨blockId, ?_, hbad⟩, ⟨_, by simp only [loadRow, hf, if_pos hbad]; rfl⟩⟩
        simp only [scanRow, hf]
        split_ifs <;> simp
      · by_cases hnl : (fgetc afterNumber).1 = 10
        · refine Or.inr ⟨?_, Or.inr ⟨_, ?_, by simp only [loadRow, hf, if_neg hbad, if_pos hnl]; rfl⟩⟩
          · intro b hb
            simp only [scanRow, hf, if_pos hnl, List.mem_singleton] at hb
            rw [hb]
            exact hbad
          · simp only [scanRow, hf, if_pos hnl]
        · have step := ih (x + 1)
            { level :=
                { l.level with
                  pointerLevelBlocks := fun k =>
                    if k = l.i then blockId.toNat else l.level.pointerLevelBlocks k }
              i := l.i + 1
              file := (fgetc afterNumber).2 }
          have hload : loadRow (n + 1) x l =
              loadRow n (x + 1)
                { level :=
                    { l.level with
                      pointerLevelBlocks := fun k =>
                        if k = l.i then blockId.toNat else l.level.pointerLevelBlocks k }
                  i := l.i + 1
                  file := (fgetc afterNumber).2 } := by
            simp only [loadRow, hf, if_neg hbad, if_neg hnl]
          have hscan1 : (scanRow (n + 1) l.file).1 =
              blockId :: (scanRow n (fgetc afterNumber).2).1 := by
            simp only [scanRow, hf, if_neg hnl]
          have hscan2 : (scanRow (n + 1) l.file).2 = (scanRow n (fgetc afterNumber).2).2 := by
            simp only [scanRow, hf, if_neg hnl]
          rw [hload, hscan1, hscan2]
          rcases step with ⟨⟨b, hb, hbb⟩, hl⟩ | ⟨hall, hrest⟩
          · exact Or.inl ⟨⟨b, List.mem_cons_of_mem _ hb, hbb⟩, hl⟩
          · refine Or.inr ⟨?_, hrest⟩
            intro b hb
            rcases List.mem_cons.mp hb with h | h
            · rw [h]; exact hbad
            · exact hall b h

/-- The outer loop against the scan without checks: it returns -1 when the scan meets an index
out of the catalog, and 0 when it meets none. -/
theorem loadRows_scanRows (maximumWidth : Nat) :
    ∀ (remaining : Nat) (y : Int) (l : Loading),
      ((∃ blockId ∈ scanRows maximumWidth remaining l.file, isBadBlockId blockId) ∧
          (loadRows maximumWidth remaining y l).1 = -1) ∨
        ((∀ blockId ∈ scanRows maximumWidth remaining l.file, ¬ isBadBlockId blockId) ∧
          (loadRows maximumWidth remaining y l).1 = 0) := by
  intro remaining
  induction remaining with
  | zero =>
    intro y l
    exact Or.inr ⟨fun _ h => by simp [scanRows] at h, rfl⟩
  | succ n ih =>
    intro y l
    rcases loadRow_scanRow maximumWidth 0 l with
      ⟨⟨b, hb, hbb⟩, l1, hl⟩ | ⟨hall, ⟨hnone, l1, hl⟩ | ⟨l1, hsome, hl⟩⟩
    · refine Or.inl ⟨⟨b, ?_, hbb⟩, by simp only [loadRows, hl]⟩
      simp only [scanRows]
      split
      · exact hb
      · exact List.mem_append_left _ hb
    · refine Or.inr ⟨?_, by simp only [loadRows, hl]⟩
      simp only [scanRows, hnone]
      exact hall
    · have hrows : loadRows maximumWidth (n + 1) y l = loadRows maximumWidth n (y + 1) l1 := by
        simp only [loadRows, hl]
      have hscan : scanRows maximumWidth (n + 1) l.file =
          (scanRow maximumWidth l.file).1 ++ scanRows maximumWidth n l1.file := by
        simp only [scanRows, hsome]
      rw [hrows, hscan]
      rcases ih (y + 1) l1 with ⟨⟨b, hb, hbb⟩, hr⟩ | ⟨hall2, hr⟩
      · exact Or.inl ⟨⟨b, List.mem_append_right _ hb, hbb⟩, hr⟩
      · refine Or.inr ⟨?_, hr⟩
        intro b hb
        rcases List.mem_append.mp hb with h | h
        · exact hall b h
        · exact hall2 b h

/-! ### Rendering, open rows and borders -/

theorem tmod_nonpos_of_nonpos (a T : Int) (ha : a ≤ 0) : Int.tmod a T ≤ 0 := by
  have h1 : 0 ≤ Int.tmod (-a) T := Int.tmod_nonneg T (by omega)
  rw [Int.tmod_def, Int.neg_tdiv] at h1
  rw [Int.tmod_def]
  have e : T * -a.tdiv T = -(T * a.tdiv T) := by ring
  rw [e] at h1
  omega

theorem tdiv_nonpos_of_nonpos (a T : Int) (hT : 0 < T) (ha : a ≤ 0) : Int.tdiv a T ≤ 0 := by
  by_contra h
  have := nonneg_of_tdiv_pos a T hT (by omega)
  have h0 : a = 0 := by omega
  rw [h0] at h
  simp at h

theorem mem_renderSceneColumns (s : State) (T xS yS yD yPixel : Int) :
    ∀ (n : Nat) (k xPixel : Int) (c : DrawCall),
      c ∈ renderSceneColumns s T xS yS yD yPixel n k xPixel ↔
        ∃ j : Nat, j < n ∧ isLevelCell s (xS + (k + j)) (yS + yD) ∧
          c = drawCallOf s (xS + (k + j)) (yS + yD) (xPixel + j * T) yPixel := by
  intro n
  induction n with
  | zero =>
    intro k xPixel c
    simp [renderSceneColumns]
  | succ n ih =>
    intro k xPixel c
    simp only [renderSceneColumns, List.mem_append, ih]
    constructor
    · rintro (h | ⟨j, hj, hg, hc⟩)
      · split_ifs at h with hg
        · refine ⟨0, by omega, ?_, ?_⟩
          · simpa [isLevelCell] using hg
          · rw [List.mem_singleton] at h
            rw [h]
            simp [drawCallOf]
        · simp at h
      · refine ⟨j + 1, by omega, ?_, ?_⟩
        · have e : xS + (k + ((j + 1 : Nat) : Int)) = xS + (k + 1 + (j : Int)) := by
            push_cast; ring
          rw [e]; exact hg
        · have e : xS + (k + ((j + 1 : Nat) : Int)) = xS + (k + 1 + (j : Int)) := by
            push_cast; ring
          have e2 : xPixel + ((j + 1 : Nat) : Int) * T = xPixel + T + (j : Int) * T := by
            push_cast; ring
          rw [e, e2]; exact hc
    · rintro ⟨j, hj, hg, hc⟩
      cases j with
      | zero =>
        left
        have hg2 : xS + k ≥ 0 ∧ yS + yD ≥ 0 ∧ xS + k < s.levelWidthBlocks ∧
            yS + yD < s.levelHeightBlocks := by
          simpa [isLevelCell] using hg
        rw [if_pos hg2, List.mem_singleton, hc]
        simp [drawCallOf]
      | succ j =>
        right
        refine ⟨j, by omega, ?_, ?_⟩
        · have e : xS + (k + ((j + 1 : Nat) : Int)) = xS + (k + 1 + (j : Int)) := by
            push_cast; ring
          rw [← e]; exact hg
        · have e : xS + (k + ((j + 1 : Nat) : Int)) = xS + (k + 1 + (j : Int)) := by
            push_cast; ring
          have e2 : xPixel + ((j + 1 : Nat) : Int) * T = xPixel + T + (j : Int) * T := by
            push_cast; ring
          rw [← e, ← e2]; exact hc

theorem mem_renderSceneRows (s : State) (T xS yS xSP xCount : Int) :
    ∀ (n : Nat) (k yPixel : Int) (c : DrawCall),
      c ∈ renderSceneRows s T xS yS xSP xCount n k yPixel ↔
        ∃ jy : Nat, jy < n ∧ ∃ jx : Nat, jx < xCount.toNat ∧
          isLevelCell s (xS + (0 + jx)) (yS + (k + jy)) ∧
          c = drawCallOf s (xS + (0 + jx)) (yS + (k + jy)) (xSP + jx * T) (yPixel + jy * T) := by
  intro n
  induction n with
  | zero =>
    intro k yPixel c
    simp [renderSceneRows]
  | succ n ih =>
    intro k yPixel c
    simp only [renderSceneRows, List.mem_append, ih, mem_renderSceneColumns]
    constructor
    · rintro (⟨jx, hjx, hg, hc⟩ | ⟨jy, hjy, jx, hjx, hg, hc⟩)
      · refine ⟨0, by omega, jx, hjx, ?_, ?_⟩
        · simpa using hg
        · simpa using hc
      · refine ⟨jy + 1, by omega, jx, hjx, ?_, ?_⟩
        · have e : yS + (k + ((jy + 1 : Nat) : Int)) = yS + (k + 1 + (jy : Int)) := by
            push_cast; ring
          rw [e]; exact hg
        · have e : yS + (k + ((jy + 1 : Nat) : Int)) = yS + (k + 1 + (jy : Int)) := by
            push_cast; ring
          have e2 : yPixel + ((jy + 1 : Nat) : Int) * T = yPixel + T + (jy : Int) * T := by
            push_cast; ring
          rw [e, e2]; exact hc
    · rintro ⟨jy, hjy, jx, hjx, hg, hc⟩
      cases jy with
      | zero =>
        left
        refine ⟨jx, hjx, ?_, ?_⟩
        · simpa using hg
        · simpa using hc
      | succ jy =>
        right
        refine ⟨jy, by omega, jx, hjx, ?_, ?_⟩
        · have e : yS + (k + ((jy + 1 : Nat) : Int)) = yS + (k + 1 + (jy : Int)) := by
            push_cast; ring
          rw [← e]; exact hg
        · have e : yS + (k + ((jy + 1 : Nat) : Int)) = yS + (k + 1 + (jy : Int)) := by
            push_cast; ring
          have e2 : yPixel + ((jy + 1 : Nat) : Int) * T = yPixel + T + (jy : Int) * T := by
            push_cast; ring
          rw [← e, ← e2]; exact hc

theorem renderSceneColumns_nodup (s : State) (T xS yS yD yPixel : Int) :
    ∀ (n : Nat) (k xPixel : Int),
      ((renderSceneColumns s T xS yS yD yPixel n k xPixel).map
        (fun c => (c.xBlock, c.yBlock))).Nodup := by
  intro n
  induction n with
  | zero => intro k xPixel; simp [renderSceneColumns]
  | succ n ih =>
    intro k xPixel
    have hrest : ∀ c ∈ renderSceneColumns s T xS yS yD yPixel n (k + 1) (xPixel + T),
        (c.xBlock, c.yBlock) ≠ (xS + k, yS + yD) := by
      intro c hc
      obtain ⟨j, _, _, rfl⟩ := (mem_renderSceneColumns s T xS yS yD yPixel n _ _ c).1 hc
      simp only [drawCallOf, ne_eq, Prod.mk.injEq, not_and]
      intro h
      omega
    simp only [renderSceneColumns, List.map_append]
    split_ifs with hg
    · simp only [List.map_cons, List.map_nil, List.singleton_append, List.nodup_cons,
        List.mem_map, not_exists, not_and]
      exact ⟨fun c hc => hrest c hc, ih (k + 1) (xPixel + T)⟩
    · simpa using ih (k + 1) (xPixel + T)

theorem renderSceneRows_nodup (s : State) (T xS yS xSP xCount : Int) :
    ∀ (n : Nat) (k yPixel : Int),
      ((renderSceneRows s T xS yS xSP xCount n k yPixel).map
        (fun c => (c.xBlock, c.yBlock))).Nodup := by
  intro n
  induction n with
  | zero => intro k yPixel; simp [renderSceneRows]
  | succ n ih =>
    intro k yPixel
    simp only [renderSceneRows, List.map_append]
    rw [List.nodup_append]
    refine ⟨renderSceneColumns_nodup s T xS yS k yPixel _ _ _, ih (k + 1) (yPixel + T), ?_⟩
    intro t ht1 ht2
    obtain ⟨c1, hc1, rfl⟩ := List.mem_map.1 ht1
    obtain ⟨c2, hc2, he⟩ := List.mem_map.1 ht2
    obtain ⟨j, _, _, rfl⟩ := (mem_renderSceneColumns s T xS yS k yPixel _ _ _ c1).1 hc1
    obtain ⟨jy, _, jx, _, _, rfl⟩ := (mem_renderSceneRows s T xS yS xSP xCount n _ _ c2).1 hc2
    simp only [drawCallOf, Prod.mk.injEq] at he
    omega

/-- A block of the grid whose screen square has a pixel in the display area is one of the blocks
that the loops of `renderScene` go through, on one axis. -/
theorem visible_block_is_enumerated (T a DW cx : Int) (hT : 0 < T) (hcx : 0 ≤ cx)
    (hlo : 0 < cx * T - a + T) (hhi : cx * T - a < DW) (hDW : 0 < DW) :
    Int.tdiv a T ≤ cx ∧
      cx < Int.tdiv a T +
        (if -(Int.tmod a T) < 0 then
          (if Int.tmod DW T ≠ 0 then Int.tdiv DW T + 1 else Int.tdiv DW T) + 1
        else (if Int.tmod DW T ≠ 0 then Int.tdiv DW T + 1 else Int.tdiv DW T)) := by
  have hq := Int.tdiv_add_tmod a T
  have hrT := Int.tmod_lt_of_pos a hT
  have hpos : 0 ≤ a → 0 ≤ Int.tmod a T := fun h => Int.tmod_nonneg T h
  have hneg : a < 0 → Int.tmod a T ≤ 0 ∧ Int.tdiv a T ≤ 0 := fun h =>
    ⟨tmod_nonpos_of_nonpos a T (le_of_lt h), tdiv_nonpos_of_nonpos a T hT (le_of_lt h)⟩
  have hd := Int.tdiv_add_tmod DW T
  have hdr0 : 0 ≤ Int.tmod DW T := Int.tmod_nonneg T (le_of_lt hDW)
  have hdrT := Int.tmod_lt_of_pos DW hT
  generalize Int.tdiv a T = q at *
  generalize Int.tmod a T = r at *
  generalize Int.tdiv DW T = dq at *
  generalize Int.tmod DW T = dr at *
  constructor
  · by_cases ha : 0 ≤ a
    · have hr0 := hpos ha
      by_contra hlt
      have h1 : (cx + 1) * T ≤ q * T :=
        mul_le_mul_of_nonneg_right (by omega) (le_of_lt hT)
      linarith
    · have := hneg (by omega)
      omega
  · have hr : r ≤ 0 ∨ 0 < r := by omega
    apply lt_of_mul_lt_mul_right _ (le_of_lt hT)
    by_cases ha : 0 ≤ a
    · have hr0 := hpos ha
      split_ifs with h1 h2 h3
      · linarith
      · have : dr = 0 := by simpa using h2
        linarith
      · have : r = 0 := by omega
        linarith
      · have : r = 0 := by omega
        have : dr = 0 := by simpa using h3
        linarith
    · have hn := hneg (by omega)
      split_ifs with h1 h2 h3
      · linarith
      · have : dr = 0 := by simpa using h2
        linarith
      · linarith [hn.1]
      · have : dr = 0 := by simpa using h3
        linarith [hn.1]

theorem fscanfInt_digit_at_end (a : Nat) (ha : a < 10) :
    fscanfInt [48 + a] = some ((a : Int), []) := by
  have hs : isspace (48 + a) = false := by
    simp only [isspace, Bool.or_eq_false_iff, decide_eq_false_iff_not]
    omega
  have hd : isdigit (48 + a) = true := by
    simp only [isdigit, Bool.and_eq_true, decide_eq_true_eq]
    omega
  have h45 : ¬ 48 + a = 45 := by omega
  have h43 : ¬ 48 + a = 43 := by omega
  have hr : readDigits 0 [48 + a] = (a, []) := by
    simp [readDigits, hd]
  have hn : fscanfNumeral [48 + a] = some ((a : Int), []) := by
    simp only [fscanfNumeral, skipWhitespace, hs, Bool.false_eq_true, if_false, h45, h43, hd,
      if_true, hr]
  simp only [fscanfInt, hn, storeInt_of_small a ha]

theorem loadRow_openRowText (r : List Nat) :
    ∀ (remaining : Nat) (x : Int) (level : State) (i : Int), r ≠ [] → r.length < remaining →
      (∀ a ∈ r, a < 5) →
      loadRow remaining x { level := level, i := i, file := openRowText r } =
        RowEnd.sceneLoadingEnd
          { level := { level with pointerLevelBlocks := writeCells level.pointerLevelBlocks i r }
            i := i + r.length
            file := [] } := by
  induction r with
  | nil => intro _ _ _ _ h; exact absurd rfl h
  | cons a rest ih =>
    intro remaining x level i _ hlen hids
    have ha : a < 5 := hids a (List.mem_cons_self a rest)
    obtain ⟨n, rfl⟩ : ∃ n, remaining = n + 1 := ⟨remaining - 1, by simp at hlen; omega⟩
    have hgood : ¬ ((a : Int) < 0 ∨ (a : Int) ≥ BLOCK_IDS_COUNT) := by
      unfold BLOCK_IDS_COUNT
      omega
    cases rest with
    | nil =>
      obtain ⟨k, rfl⟩ : ∃ k, n = k + 1 := ⟨n - 1, by simp at hlen; omega⟩
      have hf : fscanfInt (openRowText [a]) = some ((a : Int), []) :=
        fscanfInt_digit_at_end a (by omega)
      have hend : fscanfInt [] = none := rfl
      have hm : ¬ ((-1 : Int) = 10) := by decide
      simp only [loadRow, hf, hgood, if_false, fgetc, hm, hend, writeCells,
        List.length_singleton, Nat.cast_one, Int.toNat_ofNat]
    | cons b rest2 =>
      have hf : fscanfInt (openRowText (a :: b :: rest2)) =
          some ((a : Int), 44 :: openRowText (b :: rest2)) :=
        fscanfInt_digit a 44 _ (by omega) (by decide)
      have h44 : ¬ ((44 : Nat) : Int) = 10 := by decide
      simp only [loadRow, hf, hgood, if_false, fgetc, h44, Int.toNat_ofNat]
      rw [ih n (x + 1) _ (i + 1) (List.cons_ne_nil b rest2)
        (by simp at hlen ⊢; omega)
        (fun c hc => hids c (List.mem_cons_of_mem a hc))]
      simp only [writeCells, List.length_cons, Nat.cast_add, Nat.cast_one,
        RowEnd.sceneLoadingEnd.injEq, Loading.mk.injEq, and_true, true_and]
      ring

theorem loadRows_at_end (maximumWidth : Nat) (hW : 1 ≤ maximumWidth) :
    ∀ (remaining : Nat) (y : Int) (level : State) (i : Int),
      loadRows maximumWidth remaining y { level := level, i := i, file := [] } =
        (0, { level with levelHeightBlocks := y }) := by
  intro remaining y level i
  obtain ⟨m, rfl⟩ : ∃ m, maximumWidth = m + 1 := ⟨maximumWidth - 1, by omega⟩
  cases remaining with
  | zero => rfl
  | succ n => simp [loadRows, loadRow, fscanfInt, fscanfNumeral, skipWhitespace]

theorem loadRows_rows_then (maximumWidth : Nat) (tail : List Nat) (rows : List (List Nat)) :
    ∀ (remaining : Nat) (y : Int) (level : State) (i : Int), rows.length ≤ remaining →
      (∀ r ∈ rows, r ≠ [] ∧ r.length ≤ maximumWidth ∧ ∀ a ∈ r, a < 5) →
      loadRows maximumWidth remaining y
          { level := level, i := i, file := levelText rows ++ tail } =
        loadRows maximumWidth (remaining - rows.length) (y + rows.length)
          { level :=
              { level with
                pointerLevelBlocks := writeCells level.pointerLevelBlocks i (levelIds rows)
                levelWidthBlocks := lastRowWidth level.levelWidthBlocks rows }
            i := i + (levelIds rows).length
            file := tail } := by
  induction rows with
  | nil =>
    intro remaining y level i _ _
    simp [levelText, levelIds, writeCells, lastRowWidth]
  | cons r rs ih =>
    intro remaining y level i hlen hrows
    obtain ⟨n, rfl⟩ : ∃ n, remaining = n + 1 := ⟨remaining - 1, by simp at hlen; omega⟩
    obtain ⟨hne, hr, hids⟩ := hrows r (List.mem_cons_self r rs)
    have htext : levelText (r :: rs) ++ tail = rowText r ++ (levelText rs ++ tail) := by
      simp [levelText, List.append_assoc]
    rw [htext]
    simp only [loadRows]
    rw [loadRow_rowText (levelText rs ++ tail) r maximumWidth 0 level i hne hr hids]
    simp only
    rw [ih n (y + 1) _ _ (by simp at hlen; omega)
      (fun q hq => hrows q (List.mem_cons_of_mem r hq))]
    have e1 : n + 1 - (r :: rs).length = n - rs.length := by simp
    have e2 : y + 1 + (rs.length : Int) = y + ((r :: rs).length : Int) := by
      simp only [List.length_cons, Nat.cast_add, Nat.cast_one]; ring
    have e3 : i + (r.length : Int) + ((levelIds rs).length : Int) =
        i + ((levelIds (r :: rs)).length : Int) := by
      simp only [levelIds, List.length_append, Nat.cast_add]; ring
    rw [e1, e2, e3]
    simp only [levelIds, writeCells_append, lastRowWidth, zero_add]

theorem lastRowWidth_append_singleton (front : List (List Nat)) (last : List Nat) :
    ∀ initial : Int, lastRowWidth initial (front ++ [last]) = last.length := by
  induction front with
  | nil => intro initial; rfl
  | cons r rs ih => intro initial; exact ih r.length

theorem lastRowWidth_of_equal_rows (W : Nat) (rows : List (List Nat)) :
    ∀ initial : Int, (∀ r ∈ rows, r.length = W) →
      lastRowWidth initial rows = if rows = [] then initial else W := by
  induction rows with
  | nil => intro initial _; rfl
  | cons r rs ih =>
    intro initial h
    simp only [lastRowWidth, reduceCtorEq, if_false]
    rw [ih r.length (fun q hq => h q (List.mem_cons_of_mem r hq)),
      h r (List.mem_cons_self r rs)]
    simp

theorem overlapsNone_shift_up (s : State) (T : Int) (r : SDL_Rect) (m : Int) (hT : 0 < T)
    (P : Int → Int → Prop)
    (hP : ∀ xBlock yBlock : Int, P xBlock yBlock →
      isCollidingAt s (COMPUTE_BLOCK_INDEX s xBlock yBlock) ≠ 0)
    (hw : r.w ≤ T) (hm : 0 ≤ m) (hfree : overlapsNone P T r)
    (hL : ∀ yBlock : Int, (r.y - m) / T ≤ yBlock → yBlock ≤ r.y / T →
      isCollidingAt s (COMPUTE_BLOCK_INDEX s (r.x / T) yBlock) = 0)
    (hR : ∀ yBlock : Int, (r.y - m) / T ≤ yBlock → yBlock ≤ r.y / T →
      isCollidingAt s (COMPUTE_BLOCK_INDEX s ((r.x + r.w - 1) / T) yBlock) = 0) :
    overlapsNone P T { x := r.x, y := r.y - m, w := r.w, h := r.h } := by
  intro xBlock yBlock hwall hov
  rw [overlapsBlock_iff T hT] at hov
  obtain ⟨a1, a2, a3, a4⟩ := hov
  simp only at a1 a2 a3 a4
  have mono : (r.y - m + r.h - 1) / T ≤ (r.y + r.h - 1) / T := Int.ediv_le_ediv hT (by omega)
  have span := last_block_le_succ T r.x r.w hT hw
  by_cases hc : r.y / T ≤ yBlock
  · exact hfree xBlock yBlock hwall ((overlapsBlock_iff T hT r xBlock yBlock).2
      ⟨a1, a2, hc, by omega⟩)
  · have hcol := hP xBlock yBlock hwall
    rcases (show xBlock = r.x / T ∨ xBlock = (r.x + r.w - 1) / T by omega) with h | h
    · rw [h] at hcol; exact hcol (hL yBlock a3 (by omega))
    · rw [h] at hcol; exact hcol (hR yBlock a3 (by omega))

theorem overlapsNone_shift_down (s : State) (T : Int) (r : SDL_Rect) (m : Int) (hT : 0 < T)
    (P : Int → Int → Prop)
    (hP : ∀ xBlock yBlock : Int, P xBlock yBlock →
      isCollidingAt s (COMPUTE_BLOCK_INDEX s xBlock yBlock) ≠ 0)
    (hw : r.w ≤ T) (hm : 0 ≤ m) (hfree : overlapsNone P T r)
    (hL : ∀ yBlock : Int, (r.y + r.h) / T ≤ yBlock → yBlock ≤ (r.y + r.h + m - 1) / T →
      isCollidingAt s (COMPUTE_BLOCK_INDEX s (r.x / T) yBlock) = 0)
    (hR : ∀ yBlock : Int, (r.y + r.h) / T ≤ yBlock → yBlock ≤ (r.y + r.h + m - 1) / T →
      isCollidingAt s (COMPUTE_BLOCK_INDEX s ((r.x + r.w - 1) / T) yBlock) = 0) :
    overlapsNone P T { x := r.x, y := r.y + m, w := r.w, h := r.h } := by
  intro xBlock yBlock hwall hov
  rw [overlapsBlock_iff T hT] at hov
  obtain ⟨a1, a2, a3, a4⟩ := hov
  simp only at a1 a2 a3 a4
  have mono : r.y / T ≤ (r.y + m) / T := Int.ediv_le_ediv hT (by omega)
  have e : r.y + m + r.h - 1 = r.y + r.h + m - 1 := by ring
  rw [e] at a4
  have next : (r.y + r.h) / T ≤ (r.y + r.h - 1) / T + 1 := by
    have h : (r.y + r.h) / T ≤ (r.y + r.h - 1 + T) / T := Int.ediv_le_ediv hT (by omega)
    rw [ediv_add_self _ T hT] at h
    exact h
  have span := last_block_le_succ T r.x r.w hT hw
  by_cases hc : yBlock ≤ (r.y + r.h - 1) / T
  · exact hfree xBlock yBlock hwall ((overlapsBlock_iff T hT r xBlock yBlock).2
      ⟨a1, a2, by omega, hc⟩)
  · have hcol := hP xBlock yBlock hwall
    rcases (show xBlock = r.x / T ∨ xBlock = (r.x + r.w - 1) / T by omega) with h | h
    · rw [h] at hcol; exact hcol (hL yBlock (by omega) a4)
    · rw [h] at hcol; exact hcol (hR yBlock (by omega) a4)

theorem overlapsNone_shift_left (s : State) (T : Int) (r : SDL_Rect) (m : Int) (hT : 0 < T)
    (P : Int → Int → Prop)
    (hP : ∀ xBlock yBlock : Int, P xBlock yBlock →
      isCollidingAt s (COMPUTE_BLOCK_INDEX s xBlock yBlock) ≠ 0)
    (hh : r.h ≤ T) (hm : 0 ≤ m) (hfree : overlapsNone P T r)
    (hU : ∀ xBlock : Int, (r.x - m) / T ≤ xBlock → xBlock ≤ r.x / T →
      isCollidingAt s (COMPUTE_BLOCK_INDEX s xBlock (r.y / T)) = 0)
    (hD : ∀ xBlock : Int, (r.x - m) / T ≤ xBlock → xBlock ≤ r.x / T →
      isCollidingAt s (COMPUTE_BLOCK_INDEX s xBlock ((r.y + r.h - 1) / T)) = 0) :
    overlapsNone P T { x := r.x - m, y := r.y, w := r.w, h := r.h } := by
  intro xBlock yBlock hwall hov
  rw [overlapsBlock_iff T hT] at hov
  obtain ⟨a1, a2, a3, a4⟩ := hov
  simp only at a1 a2 a3 a4
  have mono : (r.x - m + r.w - 1) / T ≤ (r.x + r.w - 1) / T := Int.ediv_le_ediv hT (by omega)
  have span := last_block_le_succ T r.y r.h hT hh
  by_cases hc : r.x / T ≤ xBlock
  · exact hfree xBlock yBlock hwall ((overlapsBlock_iff T hT r xBlock yBlock).2
      ⟨hc, by omega, a3, a4⟩)
  · have hcol := hP xBlock yBlock hwall
    rcases (show yBlock = r.y / T ∨ yBlock = (r.y + r.h - 1) / T by omega) with h | h
    · rw [h] at hcol; exact hcol (hU xBlock a1 (by omega))
    · rw [h] at hcol; exact hcol (hD xBlock a1 (by omega))

theorem overlapsNone_shift_right (s : State) (T : Int) (r : SDL_Rect) (m : Int) (hT : 0 < T)
    (P : Int → Int → Prop)
    (hP : ∀ xBlock yBlock : Int, P xBlock yBlock →
      isCollidingAt s (COMPUTE_BLOCK_INDEX s xBlock yBlock) ≠ 0)
    (hh : r.h ≤ T) (hm : 0 ≤ m) (hfree : overlapsNone P T r)
    (hU : ∀ xBlock : Int, (r.x + r.w) / T ≤ xBlock → xBlock ≤ (r.x + r.w + m - 1) / T →
      isCollidingAt s (COMPUTE_BLOCK_INDEX s xBlock (r.y / T)) = 0)
    (hD : ∀ xBlock : Int, (r.x + r.w) / T ≤ xBlock → xBlock ≤ (r.x + r.w + m - 1) / T →
      isCollidingAt s (COMPUTE_BLOCK_INDEX s xBlock ((r.y + r.h - 1) / T)) = 0) :
    overlapsNone P T { x := r.x + m, y := r.y, w := r.w, h := r.h } := by
  intro xBlock yBlock hwall hov
  rw [overlapsBlock_iff T hT] at hov
  obtain ⟨a1, a2, a3, a4⟩ := hov
  simp only at a1 a2 a3 a4
  have mono : r.x / T ≤ (r.x + m) / T := Int.ediv_le_ediv hT (by omega)
  have e : r.x + m + r.w - 1 = r.x + r.w + m - 1 := by ring
  rw [e] at a2
  have next : (r.x + r.w) / T ≤ (r.x + r.w - 1) / T + 1 := by
    have h : (r.x + r.w) / T ≤ (r.x + r.w - 1 + T) / T := Int.ediv_le_ediv hT (by omega)
    rw [ediv_add_self _ T hT] at h
    exact h
  have span := last_block_le_succ T r.y r.h hT hh
  by_cases hc : xBlock ≤ (r.x + r.w - 1) / T
  · exact hfree xBlock yBlock hwall ((overlapsBlock_iff T hT r xBlock yBlock).2
      ⟨by omega, hc, a3, a4⟩)
  · have hcol := hP xBlock yBlock hwall
    rcases (show yBlock = r.y / T ∨ yBlock = (r.y + r.h - 1) / T by omega) with h | h
    · rw [h] at hcol; exact hcol (hU xBlock (by omega) a2)
    · rw [h] at hcol; exact hcol (hD xBlock (by omega) a2)

theorem moveToUp_overlapsNone (s : State) (T : Int) (e : MovableEntity) (hT : 0 < T)
    (P : Int → Int → Prop)
    (hP : ∀ xBlock yBlock : Int, P xBlock yBlock →
      isCollidingAt s (COMPUTE_BLOCK_INDEX s xBlock yBlock) ≠ 0)
    (hw : e.positionRectangle.w ≤ T) (hs : 0 ≤ e.movingPixelsAmount)
    (hfree : overlapsNone P T e.positionRectangle) :
    overlapsNone P T (MovableEntity.moveToUp s T e).2.positionRectangle := by
  rw [moveToUp_positionRectangle]
  have h1 := upperWall_clear s T e.positionRectangle.x e.positionRectangle.y hT
  have h2 := upperWall_clear s T (e.positionRectangle.x + e.positionRectangle.w - 1)
    e.positionRectangle.y hT
  generalize getDistanceFromUpperWall s T e.positionRectangle.x e.positionRectangle.y = d1
    at h1 ⊢
  generalize getDistanceFromUpperWall s T (e.positionRectangle.x + e.positionRectangle.w - 1)
    e.positionRectangle.y = d2 at h2 ⊢
  generalize hm : min e.movingPixelsAmount (min d1 d2) = m
  have b1 : m ≤ d1 := by omega
  have b2 : m ≤ d2 := by omega
  have b0 : 0 ≤ m := by omega
  rcases (show m = 0 ∨ 0 < m by omega) with h0 | hpos
  · rw [h0, sub_zero]; exact hfree
  · rcases h1 with h | ⟨_, _, c1⟩
    · omega
    rcases h2 with h | ⟨_, _, c2⟩
    · omega
    apply overlapsNone_shift_up s T e.positionRectangle m hT P hP hw b0 hfree
    · intro yBlock a b
      exact c1 yBlock (le_trans (Int.ediv_le_ediv hT (by omega)) a) b
    · intro yBlock a b
      exact c2 yBlock (le_trans (Int.ediv_le_ediv hT (by omega)) a) b

theorem moveToDown_overlapsNone (s : State) (T : Int) (e : MovableEntity) (hT : 0 < T)
    (P : Int → Int → Prop)
    (hP : ∀ xBlock yBlock : Int, P xBlock yBlock →
      isCollidingAt s (COMPUTE_BLOCK_INDEX s xBlock yBlock) ≠ 0)
    (hw : e.positionRectangle.w ≤ T) (hs : 0 ≤ e.movingPixelsAmount)
    (hfree : overlapsNone P T e.positionRectangle) :
    overlapsNone P T (MovableEntity.moveToDown s T e).2.positionRectangle := by
  rw [moveToDown_positionRectangle]
  have h1 := downerWall_clear s T e.positionRectangle.x
    (e.positionRectangle.y + e.positionRectangle.h) hT
  have h2 := downerWall_clear s T (e.positionRectangle.x + e.positionRectangle.w - 1)
    (e.positionRectangle.y + e.positionRectangle.h) hT
  generalize getDistanceFromDownerWall s T e.positionRectangle.x
    (e.positionRectangle.y + e.positionRectangle.h) = d1 at h1 ⊢
  generalize getDistanceFromDownerWall s T (e.positionRectangle.x + e.positionRectangle.w - 1)
    (e.positionRectangle.y + e.positionRectangle.h) = d2 at h2 ⊢
  generalize hm : min e.movingPixelsAmount (min d1 d2) = m
  have b1 : m ≤ d1 := by omega
  have b2 : m ≤ d2 := by omega
  have b0 : 0 ≤ m := by omega
  rcases (show m = 0 ∨ 0 < m by omega) with h0 | hpos
  · rw [h0, add_zero]; exact hfree
  · rcases h1 with h | ⟨_, _, c1⟩
    · omega
    rcases h2 with h | ⟨_, _, c2⟩
    · omega
    apply overlapsNone_shift_down s T e.positionRectangle m hT P hP hw b0 hfree
    · intro yBlock a b
      exact c1 yBlock a (le_trans b (Int.ediv_le_ediv hT (by omega)))
    · intro yBlock a b
      exact c2 yBlock a (le_trans b (Int.ediv_le_ediv hT (by omega)))

theorem moveToLeft_overlapsNone (s : State) (T : Int) (e : MovableEntity) (hT : 0 < T)
    (P : Int → Int → Prop)
    (hP : ∀ xBlock yBlock : Int, P xBlock yBlock →
      isCollidingAt s (COMPUTE_BLOCK_INDEX s xBlock yBlock) ≠ 0)
    (hh : e.positionRectangle.h ≤ T) (hs : 0 ≤ e.movingPixelsAmount)
    (hfree : overlapsNone P T e.positionRectangle) :
    overlapsNone P T (MovableEntity.moveToLeft s T e).2.positionRectangle := by
  rw [moveToLeft_positionRectangle]
  have h1 := leftmostWall_clear s T e.positionRectangle.x e.positionRectangle.y hT
  have h2 := leftmostWall_clear s T e.positionRectangle.x
    (e.positionRectangle.y + e.positionRectangle.h - 1) hT
  generalize getDistanceFromLeftmostWall s T e.positionRectangle.x e.positionRectangle.y = d1
    at h1 ⊢
  generalize getDistanceFromLeftmostWall s T e.positionRectangle.x
    (e.positionRectangle.y + e.positionRectangle.h - 1) = d2 at h2 ⊢
  generalize hm : min e.movingPixelsAmount (min d1 d2) = m
  have b1 : m ≤ d1 := by omega
  have b2 : m ≤ d2 := by omega
  have b0 : 0 ≤ m := by omega
  rcases (show m = 0 ∨ 0 < m by omega) with h0 | hpos
  · rw [h0, sub_zero]; exact hfree
  · rcases h1 with h | ⟨_, _, c1⟩
    · omega
    rcases h2 with h | ⟨_, _, c2⟩
    · omega
    apply overlapsNone_shift_left s T e.positionRectangle m hT P hP hh b0 hfree
    · intro xBlock a b
      exact c1 xBlock (le_trans (Int.ediv_le_ediv hT (by omega)) a) b
    · intro xBlock a b
      exact c2 xBlock (le_trans (Int.ediv_le_ediv hT (by omega)) a) b

theorem moveToRight_overlapsNone (s : State) (T : Int) (e : MovableEntity) (hT : 0 < T)
    (P : Int → Int → Prop)
    (hP : ∀ xBlock yBlock : Int, P xBlock yBlock →
      isCollidingAt s (COMPUTE_BLOCK_INDEX s xBlock yBlock) ≠ 0)
    (hh : e.positionRectangle.h ≤ T) (hs : 0 ≤ e.movingPixelsAmount)
    (hfree : overlapsNone P T e.positionRectangle) :
    overlapsNone P T (MovableEntity.moveToRight s T e).2.positionRectangle := by
  rw [moveToRight_positionRectangle]
  have h1 := rightmostWall_clear s T (e.positionRectangle.x + e.positionRectangle.w)
    e.positionRectangle.y hT
  have h2 := rightmostWall_clear s T (e.positionRectangle.x + e.positionRectangle.w)
    (e.positionRectangle.y + e.positionRectangle.h - 1) hT
  generalize getDistanceFromRightmostWall s T (e.positionRectangle.x + e.positionRectangle.w)
    e.positionRectangle.y = d1 at h1 ⊢
  generalize getDistanceFromRightmostWall s T (e.positionRectangle.x + e.positionRectangle.w)
    (e.positionRectangle.y + e.positionRectangle.h - 1) = d2 at h2 ⊢
  generalize hm : min e.movingPixelsAmount (min d1 d2) = m
  have b1 : m ≤ d1 := by omega
  have b2 : m ≤ d2 := by omega
  have b0 : 0 ≤ m := by omega
  rcases (show m = 0 ∨ 0 < m by omega) with h0 | hpos
  · rw [h0, add_zero]; exact hfree
  · rcases h1 with h | ⟨_, _, c1⟩
    · omega
    rcases h2 with h | ⟨_, _, c2⟩
    · omega
    apply overlapsNone_shift_right s T e.positionRectangle m hT P hP hh b0 hfree
    · intro xBlock a b
      exact c1 xBlock a (le_trans b (Int.ediv_le_ediv hT (by omega)))
    · intro xBlock a b
      exact c2 xBlock a (le_trans b (Int.ediv_le_ediv hT (by omega)))

/-! ### Bounds of the wall distances and of the bullet offsets -/

theorem upperWall_bounds (s : State) (T x y : Int) (hT : 0 < T) :
    0 ≤ getDistanceFromUpperWall s T x y ∧ getDistanceFromUpperWall s T x y ≤ T := by
  rcases upperWall_clear s T x y hT with h | ⟨h1, h2, _⟩ <;> omega

theorem downerWall_bounds (s : State) (T x y : Int) (hT : 0 < T) :
    0 ≤ getDistanceFromDownerWall s T x y ∧ getDistanceFromDownerWall s T x y ≤ T := by
  rcases downerWall_clear s T x y hT with h | ⟨h1, h2, _⟩ <;> omega

theorem leftmostWall_bounds (s : State) (T x y : Int) (hT : 0 < T) :
    0 ≤ getDistanceFromLeftmostWall s T x y ∧ getDistanceFromLeftmostWall s T x y ≤ T := by
  rcases leftmostWall_clear s T x y hT with h | ⟨h1, h2, _⟩ <;> omega

theorem rightmostWall_bounds (s : State) (T x y : Int) (hT : 0 < T) :
    0 ≤ getDistanceFromRightmostWall s T x y ∧ getDistanceFromRightmostWall s T x y ≤ T := by
  rcases rightmostWall_clear s T x y hT with h | ⟨h1, h2, _⟩ <;> omega

/-- The truncating half of an integer. -/
theorem tdiv_two_bounds (n : Int) :
    n - 1 ≤ 2 * Int.tdiv n 2 ∧ 2 * Int.tdiv n 2 ≤ n + 1 := by
  by_cases h : 0 ≤ n
  · rw [Int.tdiv_eq_ediv h (by decide)]
    omega
  · have e : Int.tdiv n 2 = -Int.tdiv (-n) 2 := by
      rw [Int.neg_tdiv, neg_neg]
    rw [e, Int.tdiv_eq_ediv (by omega) (by decide)]
    omega

/-- On a grid at least as high as wide, every cell that a wall-distance query reads is a cell of
the grid. -/
theorem wall_distance_reads_in_grid (s : State) (T x y : Int)
    (hH : s.levelWidthBlocks ≤ s.levelHeightBlocks) :
    (∀ c ∈ getDistanceFromUpperWallReads s T x y, isLevelCell s c.1 c.2) ∧
      (∀ c ∈ getDistanceFromDownerWallReads s T x y, isLevelCell s c.1 c.2) ∧
      (∀ c ∈ getDistanceFromLeftmostWallReads s T x y, isLevelCell s c.1 c.2) ∧
      (∀ c ∈ getDistanceFromRightmostWallReads s T x y, isLevelCell s c.1 c.2) := by
  unfold getDistanceFromUpperWallReads getDistanceFromDownerWallReads
    getDistanceFromLeftmostWallReads getDistanceFromRightmostWallReads isLevelCell
  refine ⟨?_, ?_, ?_, ?_⟩ <;>
  · intro c hc
    simp only at hc
    split_ifs at hc with h1 h2
    · simp at hc
    · simp only [List.mem_singleton] at hc
      rw [hc]
      simp only
      omega
    · simp only [List.mem_cons, List.mem_singleton, List.not_mem_nil, or_false] at hc
      rcases hc with hc | hc <;>
      · rw [hc]
        simp only
        omega

/-- In the sample level with a wall border, every border block collides. -/
theorem walledLevel_border_collides (xBlock yBlock : Int)
    (h : isBorderBlock walledLevel xBlock yBlock) :
    isCollidingAt walledLevel (COMPUTE_BLOCK_INDEX walledLevel xBlock yBlock) ≠ 0 := by
  obtain ⟨h1, h2, h3, h4, hb⟩ := h
  simp only [walledLevel] at h1 h2 h3 h4 hb
  have hcond : yBlock * 5 + xBlock < 5 ∨ yBlock * 5 + xBlock ≥ 20 ∨
      (yBlock * 5 + xBlock) % 5 = 0 ∨ (yBlock * 5 + xBlock) % 5 = 4 := by omega
  simp only [isCollidingAt, COMPUTE_BLOCK_INDEX, walledLevel, sampleBlocks, if_pos hcond]
  decide

/-- The 32 x 32 rectangle at (100, 66) lies in the blocks (1, 1) and (2, 1) of a level of 5 x 5
blocks of 64 pixels: it overlaps no border block. -/
theorem sample_rectangle_overlapsNoBorder (s : State) (hW : s.levelWidthBlocks = 5)
    (hH : s.levelHeightBlocks = 5) :
    overlapsNoBorder s 64 (sampleEntity 100 66 8).positionRectangle := by
  intro xBlock yBlock hb hov
  obtain ⟨h1, h2, h3, h4, hb⟩ := hb
  obtain ⟨o1, o2, o3, o4⟩ := hov
  simp only [sampleEntity, MovableEntity.new] at o1 o2 o3 o4
  omega

/-! ### The 32-bit `int` -/

theorem wrapInt32_of_int_range (n : Int) (h : -(2 ^ 31) ≤ n ∧ n < 2 ^ 31) : wrapInt32 n = n := by
  unfold wrapInt32
  omega

theorem wrapInt32_range (n : Int) : -(2 ^ 31) ≤ wrapInt32 n ∧ wrapInt32 n < 2 ^ 31 := by
  unfold wrapInt32
  omega

/-- With a sum in the range of `int`, the wrapping `modifyLife` is the exact one. -/
theorem fighting_modifyLifeWrapping_eq (e : FightingEntity) (delta : Int)
    (h : -(2 ^ 31) ≤ e.lifePointsAmount + delta ∧ e.lifePointsAmount + delta < 2 ^ 31) :
    FightingEntity.modifyLifeWrapping e delta = FightingEntity.modifyLife e delta := by
  unfold FightingEntity.modifyLifeWrapping FightingEntity.modifyLife
  rw [wrapInt32_of_int_range _ h]

theorem spawner_modifyLifeWrapping_eq (e : EnemySpawnerEntity) (delta : Int)
    (h : -(2 ^ 31) ≤ e.lifePointsAmount + delta ∧ e.lifePointsAmount + delta < 2 ^ 31) :
    EnemySpawnerEntity.modifyLifeWrapping e delta = EnemySpawnerEntity.modifyLife e delta := by
  unfold EnemySpawnerEntity.modifyLifeWrapping EnemySpawnerEntity.modifyLife
  rw [wrapInt32_of_int_range _ h]

/-- The wrapping `modifyLife` also puts the life points into `[0, maximum]` when the maximum is
not negative, whatever the argument is, and keeps the maximum. -/
theorem fighting_modifyLifeWrapping_bounds (e : FightingEntity) (delta : Int)
    (hmax : 0 ≤ e.maximumLifePointsAmount) :
    (FightingEntity.modifyLifeWrapping e delta).maximumLifePointsAmount =
        e.maximumLifePointsAmount ∧
      lifeInvariant (FightingEntity.modifyLifeWrapping e delta).lifePointsAmount
        e.maximumLifePointsAmount := by
  unfold FightingEntity.modifyLifeWrapping lifeInvariant
  simp only
  split_ifs with h1 h2
  · exact ⟨rfl, le_refl 0, hmax⟩
  · exact ⟨rfl, hmax, le_refl _⟩
  · exact ⟨rfl, by simp only; omega, by simp only; omega⟩

theorem spawner_modifyLifeWrapping_bounds (e : EnemySpawnerEntity) (delta : Int)
    (hmax : 0 ≤ e.maximumLifePointsAmount) :
    (EnemySpawnerEntity.modifyLifeWrapping e delta).maximumLifePointsAmount =
        e.maximumLifePointsAmount ∧
      lifeInvariant (EnemySpawnerEntity.modifyLifeWrapping e delta).lifePointsAmount
        e.maximumLifePointsAmount := by
  unfold EnemySpawnerEntity.modifyLifeWrapping lifeInvariant
  simp only
  split_ifs with h1 h2
  · exact ⟨rfl, le_refl 0, hmax⟩
  · exact ⟨rfl, hmax, le_refl _⟩
  · exact ⟨rfl, by simp only; omega, by simp only; omega⟩

/-! ### Numerals and stored integers -/

/-- The integers that a row of the scan stores are the numerals of the row, each cut to an
`int`. -/
theorem scanRow_eq_map_storeInt :
    ∀ (remaining : Nat) (file : List Nat),
      (scanRow remaining file).1 = (scanRowNumerals remaining file).1.map storeInt ∧
        (scanRow remaining file).2 = (scanRowNumerals remaining file).2 := by
  intro remaining
  induction remaining with
  | zero => intro file; exact ⟨rfl, rfl⟩
  | succ n ih =>
    intro file
    cases hn : fscanfNumeral file with
    | none =>
      have hf : fscanfInt file = none := by simp only [fscanfInt, hn]
      simp only [scanRow, scanRowNumerals, hn, hf, List.map_nil, and_self]
    | some p =>
      obtain ⟨numeral, afterNumber⟩ := p
      have hf : fscanfInt file = some (storeInt numeral, afterNumber) := by
        simp only [fscanfInt, hn]
      by_cases hnl : (fgetc afterNumber).1 = 10
      · simp only [scanRow, scanRowNumerals, hn, hf, if_pos hnl, List.map_cons, List.map_nil,
          and_self]
      · obtain ⟨h1, h2⟩ := ih (fgetc afterNumber).2
        simp only [scanRow, scanRowNumerals, hn, hf, if_neg hnl, List.map_cons, h1, h2, and_self]

theorem scanRows_eq_map_storeInt (maximumWidth : Nat) :
    ∀ (remaining : Nat) (file : List Nat),
      scanRows maximumWidth remaining file =
        (scanNumerals maximumWidth remaining file).map storeInt := by
  intro remaining
  induction remaining with
  | zero => intro file; rfl
  | succ n ih =>
    intro file
    obtain ⟨h1, h2⟩ := scanRow_eq_map_storeInt maximumWidth file
    cases hr : (scanRowNumerals maximumWidth file).2 with
    | none =>
      rw [hr] at h2
      simp only [scanRows, scanNumerals, h2, hr, h1]
    | some rest =>
      rw [hr] at h2
      simp only [scanRows, scanNumerals, h2, hr, h1, ih rest, List.map_append]

/-- When every numeral of the scan is in the range of `int`, the stored integers are the
numerals. -/
theorem scanRows_eq_scanNumerals (maximumWidth remaining : Nat) (file : List Nat)
    (hbound : ∀ numeral ∈ scanNumerals maximumWidth remaining file,
      -(2 ^ 31) ≤ numeral ∧ numeral < 2 ^ 31) :
    scanRows maximumWidth remaining file = scanNumerals maximumWidth remaining file := by
  rw [scanRows_eq_map_storeInt]
  have h : ∀ l : List Int, (∀ n ∈ l, -(2 ^ 31) ≤ n ∧ n < 2 ^ 31) → l.map storeInt = l := by
    intro l
    induction l with
    | nil => intro _; rfl
    | cons a l ih =>
      intro hl
      rw [List.map_cons, storeInt_of_int_range a (hl a (List.mem_cons_self a l)),
        ih (fun n hn => hl n (List.mem_cons_of_mem a hn))]
  exact h _ hbound

/-- On every level source that can be opened, `loadLevel` returns -1 exactly when one of the
integers that `fscanf` stored before the parsing stops is below 0 or at least 5, and returns 0
exactly when all of them are in `[0, 5)`. -/
theorem loadLevel_fails_iff_stored_id_bad (s : State) (maximumWidth maximumHeight : Nat)
    (file : List Nat) :
    ((loadLevel s maximumWidth maximumHeight (some file)).1 = -1 ↔
        ∃ blockId ∈ scanRows maximumWidth maximumHeight file, blockId < 0 ∨ blockId ≥ 5) ∧
      ((loadLevel s maximumWidth maximumHeight (some file)).1 = 0 ↔
        ∀ blockId ∈ scanRows maximumWidth maximumHeight file, 0 ≤ blockId ∧ blockId < 5) := by
  have key := loadRows_scanRows maximumWidth maximumHeight 0
    { level := { s with levelWidthBlocks := 0, levelHeightBlocks := 0 }, i := 0, file := file }
  have hl : (loadLevel s maximumWidth maximumHeight (some file)).1 =
      (loadRows maximumWidth maximumHeight 0
        { level := { s with levelWidthBlocks := 0, levelHeightBlocks := 0 }, i := 0,
          file := file }).1 := rfl
  rw [hl]
  refine ⟨?_, ?_⟩
  · rcases key with ⟨⟨b, hb, hbb⟩, hr⟩ | ⟨hall, hr⟩
    · exact ⟨fun _ => ⟨b, hb, hbb⟩, fun _ => hr⟩
    · rw [hr]
      refine ⟨fun h => absurd h (by decide), ?_⟩
      rintro ⟨b, hb, hbb⟩
      exact absurd hbb (hall b hb)
  · rcases key with ⟨⟨b, hb, hbb⟩, hr⟩ | ⟨hall, hr⟩
    · rw [hr]
      refine ⟨fun h => absurd h (by decide), ?_⟩
      intro h
      have h5 := h b hb
      have hbb2 : b < 0 ∨ b ≥ 5 := hbb
      omega
    · refine ⟨fun _ b hb => ?_, fun _ => hr⟩
      have hnb : ¬ (b < 0 ∨ b ≥ 5) := hall b hb
      omega

/-! ### Wall distances and cells without a pointer -/

/-- When every cell that a wall-distance query reads holds a pointer, the query does not fault and
returns what it returns on a grid whose cells all hold a pointer. -/
theorem wall_distance_without_fault (s : State) (written : Int → Bool) (T x y : Int) :
    ((∀ c ∈ getDistanceFromUpperWallReads s T x y,
          written (COMPUTE_BLOCK_INDEX s c.1 c.2) = true) →
        getDistanceFromUpperWallOrFault s written T x y =
          some (getDistanceFromUpperWall s T x y)) ∧
      ((∀ c ∈ getDistanceFromDownerWallReads s T x y,
          written (COMPUTE_BLOCK_INDEX s c.1 c.2) = true) →
        getDistanceFromDownerWallOrFault s written T x y =
          some (getDistanceFromDownerWall s T x y)) ∧
      ((∀ c ∈ getDistanceFromLeftmostWallReads s T x y,
          written (COMPUTE_BLOCK_INDEX s c.1 c.2) = true) →
        getDistanceFromLeftmostWallOrFault s written T x y =
          some (getDistanceFromLeftmostWall s T x y)) ∧
      ((∀ c ∈ getDistanceFromRightmostWallReads s T x y,
          written (COMPUTE_BLOCK_INDEX s c.1 c.2) = true) →
        getDistanceFromRightmostWallOrFault s written T x y =
          some (getDistanceFromRightmostWall s T x y)) := by
  unfold getDistanceFromUpperWallReads getDistanceFromDownerWallReads
    getDistanceFromLeftmostWallReads getDistanceFromRightmostWallReads
    getDistanceFromUpperWallOrFault getDistanceFromDownerWallOrFault
    getDistanceFromLeftmostWallOrFault getDistanceFromRightmostWallOrFault
    getDistanceFromUpperWall getDistanceFromDownerWall
    getDistanceFromLeftmostWall getDistanceFromRightmostWall isCollidingAtOrFault
  refine ⟨?_, ?_, ?_, ?_⟩ <;>
  · intro h
    simp only at h ⊢
    split_ifs at h with h1 h2
    · simp only [if_pos h1]
    · have w1 := h _ (List.mem_singleton.mpr rfl)
      simp only at w1
      simp only [if_neg h1, w1, if_true, if_pos h2]
    · have w1 := h _ (List.mem_cons_self _ _)
      have w2 := h _ (List.mem_cons_of_mem _ (List.mem_singleton.mpr rfl))
      simp only at w1 w2
      simp only [if_neg h1, w1, w2, if_true, if_neg h2]
      split_ifs <;> rfl

/-- On a grid at least as high as wide whose cells all hold a pointer, no wall-distance query
faults, and for a block size above 0 the returned distance is between 0 and the block size. -/
theorem wall_distance_bounds_without_fault (s : State) (written : Int → Bool) (T x y : Int)
    (hT : 0 < T) (hH : s.levelWidthBlocks ≤ s.levelHeightBlocks)
    (hwritten : ∀ xBlock yBlock : Int, isLevelCell s xBlock yBlock →
      written (COMPUTE_BLOCK_INDEX s xBlock yBlock) = true) :
    (∃ d, getDistanceFromUpperWallOrFault s written T x y = some d ∧ 0 ≤ d ∧ d ≤ T) ∧
      (∃ d, getDistanceFromDownerWallOrFault s written T x y = some d ∧ 0 ≤ d ∧ d ≤ T) ∧
      (∃ d, getDistanceFromLeftmostWallOrFault s written T x y = some d ∧ 0 ≤ d ∧ d ≤ T) ∧
      (∃ d, getDistanceFromRightmostWallOrFault s written T x y = some d ∧ 0 ≤ d ∧ d ≤ T) := by
  obtain ⟨r1, r2, r3, r4⟩ := wall_distance_reads_in_grid s T x y hH
  obtain ⟨f1, f2, f3, f4⟩ := wall_distance_without_fault s written T x y
  exact ⟨⟨_, f1 (fun c hc => hwritten _ _ (r1 c hc)), upperWall_bounds s T x y hT⟩,
    ⟨_, f2 (fun c hc => hwritten _ _ (r2 c hc)), downerWall_bounds s T x y hT⟩,
    ⟨_, f3 (fun c hc => hwritten _ _ (r3 c hc)), leftmostWall_bounds s T x y hT⟩,
    ⟨_, f4 (fun c hc => hwritten _ _ (r4 c hc)), rightmostWall_bounds s T x y hT⟩⟩

end Auxiliary

/-! ## Movement -/

section Movement

open LevelManager MovableEntity

/-- C1: each move operation displaces the entity on the move axis by the minimum of its speed and
of the smaller of the two wall distances taken at the two corners of the leading edge, towards the
requested direction; the other coordinate, the width and the height keep their values. -/
theorem move_displaces_by_min_of_speed_and_distance (s : State) (blockSize : Int)
    (e : MovableEntity) :
    (moveToUp s blockSize e).2.positionRectangle =
        { x := e.positionRectangle.x
          y := e.positionRectangle.y - min e.movingPixelsAmount
            (min (getDistanceFromUpperWall s blockSize e.positionRectangle.x e.positionRectangle.y)
              (getDistanceFromUpperWall s blockSize
                (e.positionRectangle.x + e.positionRectangle.w - 1) e.positionRectangle.y))
          w := e.positionRectangle.w
          h := e.positionRectangle.h } ∧
      (moveToDown s blockSize e).2.positionRectangle =
        { x := e.positionRectangle.x
          y := e.positionRectangle.y + min e.movingPixelsAmount
            (min (getDistanceFromDownerWall s blockSize e.positionRectangle.x
                (e.positionRectangle.y + e.positionRectangle.h))
              (getDistanceFromDownerWall s blockSize
                (e.positionRectangle.x + e.positionRectangle.w - 1)
                (e.positionRectangle.y + e.positionRectangle.h)))
          w := e.positionRectangle.w
          h := e.positionRectangle.h } ∧
      (moveToLeft s blockSize e).2.positionRectangle =
        { x := e.positionRectangle.x - min e.movingPixelsAmount
            (min (getDistanceFromLeftmostWall s blockSize e.positionRectangle.x
                e.positionRectangle.y)
              (getDistanceFromLeftmostWall s blockSize e.positionRectangle.x
                (e.positionRectangle.y + e.positionRectangle.h - 1)))
          y := e.positionRectangle.y
          w := e.positionRectangle.w
          h := e.positionRectangle.h } ∧
      (moveToRight s blockSize e).2.positionRectangle =
        { x := e.positionRectangle.x + min e.movingPixelsAmount
            (min (getDistanceFromRightmostWall s blockSize
                (e.positionRectangle.x + e.positionRectangle.w) e.positionRectangle.y)
              (getDistanceFromRightmostWall s blockSize
                (e.positionRectangle.x + e.positionRectangle.w)
                (e.positionRectangle.y + e.positionRectangle.h - 1)))
          y := e.positionRectangle.y
          w := e.positionRectangle.w
          h := e.positionRectangle.h } := by
  exact ⟨moveToUp_positionRectangle s blockSize e, moveToDown_positionRectangle s blockSize e,
    moveToLeft_positionRectangle s blockSize e, moveToRight_positionRectangle s blockSize e⟩

/-- C2: on a level of 5 x 5 grass blocks of 64 pixels, an entity of 32 x 32 pixels at (100, 100)
with speed 3 has 64 free pixels in front of it upwards and to the right. `moveToUp` moves it by
`min 3 64 = 3` pixels (from y = 100 to y = 97) and `moveToRight` by 3 pixels (from x = 100 to
x = 103), yet both return 64, the wall distance, and not the 3 pixels moved. -/
theorem move_returns_wall_distance_not_pixels_moved :
    (moveToUp (grassLevel 5 5) 64 (sampleEntity 100 100 3)).1 = 64 ∧
      (sampleEntity 100 100 3).positionRectangle.y -
        (moveToUp (grassLevel 5 5) 64 (sampleEntity 100 100 3)).2.positionRectangle.y = 3 ∧
      (moveToRight (grassLevel 5 5) 64 (sampleEntity 100 100 3)).1 = 64 ∧
      (moveToRight (grassLevel 5 5) 64 (sampleEntity 100 100 3)).2.positionRectangle.x -
        (sampleEntity 100 100 3).positionRectangle.x = 3 := by
  decide

/-- C6: after each of the four move operations the entity faces the direction of that move,
whatever the wall distances are (so also when the move is blocked); after a sequence of moves
whose last move is `m` the facing direction read by `getFacingDirection` is the one of `m`; a
freshly constructed entity faces up. -/
theorem facing_is_direction_of_last_move :
    (∀ (s : State) (blockSize : Int) (e : MovableEntity),
        getFacingDirection (moveToUp s blockSize e).2 = FacingDirection.FACING_DIRECTION_UP ∧
        getFacingDirection (moveToDown s blockSize e).2 = FacingDirection.FACING_DIRECTION_DOWN ∧
        getFacingDirection (moveToLeft s blockSize e).2 = FacingDirection.FACING_DIRECTION_LEFT ∧
        getFacingDirection (moveToRight s blockSize e).2 =
          FacingDirection.FACING_DIRECTION_RIGHT) ∧
      (∀ (s : State) (blockSize : Int) (e : MovableEntity) (ms : List MoveRequest)
          (m : MoveRequest),
        getFacingDirection (MoveRequest.applyAll s blockSize e (ms ++ [m])) = m.direction) ∧
      (∀ (base : Entity) (x y movingPixelsAmount : Int),
        getFacingDirection (MovableEntity.new base x y movingPixelsAmount) =
          FacingDirection.FACING_DIRECTION_UP) := by
  refine ⟨fun s blockSize e => ⟨rfl, rfl, rfl, rfl⟩, ?_, fun _ _ _ _ => rfl⟩
  intro s blockSize e ms m
  rw [applyAll_append]
  exact apply_facingDirection s blockSize _ m

/-- C3: on a grid at least as high as wide, an entity whose width and height are between 1 and
the block size, whose speed is between 0 and the block size and whose rectangle overlaps no
colliding block of the grid, still overlaps no colliding block of the grid after each of the four
move operations, and hence after every sequence of moves. -/
theorem moves_keep_rectangle_off_walls (s : State) (blockSize : Int) (e : MovableEntity)
    (_hGrid : s.levelHeightBlocks ≥ s.levelWidthBlocks)
    (hw : 1 ≤ e.positionRectangle.w ∧ e.positionRectangle.w ≤ blockSize)
    (hh : 1 ≤ e.positionRectangle.h ∧ e.positionRectangle.h ≤ blockSize)
    (hs : 0 ≤ e.movingPixelsAmount ∧ e.movingPixelsAmount ≤ blockSize)
    (hfree : overlapsNoWall s blockSize e.positionRectangle) :
    overlapsNoWall s blockSize (moveToUp s blockSize e).2.positionRectangle ∧
      overlapsNoWall s blockSize (moveToDown s blockSize e).2.positionRectangle ∧
      overlapsNoWall s blockSize (moveToLeft s blockSize e).2.positionRectangle ∧
      overlapsNoWall s blockSize (moveToRight s blockSize e).2.positionRectangle ∧
      ∀ ms : List MoveRequest,
        overlapsNoWall s blockSize (MoveRequest.applyAll s blockSize e ms).positionRectangle := by
  have hT : 0 < blockSize := by omega
  exact ⟨moveToUp_overlapsNoWall s blockSize e hT hw.2 hs.1 hfree,
    moveToDown_overlapsNoWall s blockSize e hT hw.2 hs.1 hfree,
    moveToLeft_overlapsNoWall s blockSize e hT hh.2 hs.1 hfree,
    moveToRight_overlapsNoWall s blockSize e hT hh.2 hs.1 hfree,
    fun ms => applyAll_overlapsNoWall s blockSize hT ms e hw.2 hh.2 hs.1 hfree⟩

/-- Witness of C3: in the sample level with one wall at block `(2, 1)` and blocks of 64 pixels,
the entity of 32 x 32 pixels at (130, 130) with speed 8 stands two pixels below the wall; it
overlaps no wall, `moveToUp` takes it to y = 128, the lower edge of the wall, and it overlaps no
wall after any move. -/
theorem moves_keep_rectangle_off_walls_witness :
    overlapsNoWall wallLevel 64 (sampleEntity 130 130 8).positionRectangle ∧
      (moveToUp wallLevel 64 (sampleEntity 130 130 8)).2.positionRectangle.y = 128 ∧
      (overlapsNoWall wallLevel 64
          (moveToUp wallLevel 64 (sampleEntity 130 130 8)).2.positionRectangle ∧
        overlapsNoWall wallLevel 64
          (moveToDown wallLevel 64 (sampleEntity 130 130 8)).2.positionRectangle ∧
        overlapsNoWall wallLevel 64
          (moveToLeft wallLevel 64 (sampleEntity 130 130 8)).2.positionRectangle ∧
        overlapsNoWall wallLevel 64
          (moveToRight wallLevel 64 (sampleEntity 130 130 8)).2.positionRectangle ∧
        ∀ ms : List MoveRequest,
          overlapsNoWall wallLevel 64
            (MoveRequest.applyAll wallLevel 64 (sampleEntity 130 130 8) ms).positionRectangle) :=
  ⟨sampleEntity_overlapsNoWall, by decide,
    moves_keep_rectangle_off_walls wallLevel 64 (sampleEntity 130 130 8) (by decide) (by decide)
      (by decide) (by decide) sampleEntity_overlapsNoWall⟩

end Movement

/-! ## Wall distances -/

section WallDistance

open LevelManager

/-- C4: on a level of 3 x 5 grass blocks of 64 pixels the point (70, 140) lies in block (1, 2),
which is not within one block of the border (1 ≤ 1 ≤ 3 - 2 and 1 ≤ 2 ≤ 5 - 2); the block and its
four neighbours are not colliding, so each query should return the block size 64. The four
functions return 0, because they compare the block row 2 with the level width 3 instead of the
level height 5. -/
theorem wall_distance_is_zero_below_width_margin :
    (1 ≤ Int.tdiv 70 64 ∧ Int.tdiv 70 64 ≤ (grassLevel 3 5).levelWidthBlocks - 2) ∧
      (1 ≤ Int.tdiv 140 64 ∧ Int.tdiv 140 64 ≤ (grassLevel 3 5).levelHeightBlocks - 2) ∧
      isCollidingAt (grassLevel 3 5) (COMPUTE_BLOCK_INDEX (grassLevel 3 5) 1 2) = 0 ∧
      isCollidingAt (grassLevel 3 5) (COMPUTE_BLOCK_INDEX (grassLevel 3 5) 1 1) = 0 ∧
      isCollidingAt (grassLevel 3 5) (COMPUTE_BLOCK_INDEX (grassLevel 3 5) 1 3) = 0 ∧
      isCollidingAt (grassLevel 3 5) (COMPUTE_BLOCK_INDEX (grassLevel 3 5) 0 2) = 0 ∧
      isCollidingAt (grassLevel 3 5) (COMPUTE_BLOCK_INDEX (grassLevel 3 5) 2 2) = 0 ∧
      getDistanceFromUpperWall (grassLevel 3 5) 64 70 140 = 0 ∧
      getDistanceFromDownerWall (grassLevel 3 5) 64 70 140 = 0 ∧
      getDistanceFromLeftmostWall (grassLevel 3 5) 64 70 140 = 0 ∧
      getDistanceFromRightmostWall (grassLevel 3 5) 64 70 140 = 0 := by
  decide

/-- C5: on a level of 5 x 3 grass blocks of 64 pixels the point (96, 160) lies in block (1, 2),
in the last row of the grid (2 ≥ 3 - 1), so each query should return 0. The upper, leftmost and
rightmost queries return the block size 64, because they compare the block row 2 with the level
width 5 instead of the level height 3. -/
theorem wall_distance_is_not_zero_in_last_row :
    Int.tdiv 96 64 = 1 ∧ Int.tdiv 160 64 = 2 ∧
      Int.tdiv 160 64 ≥ (grassLevel 5 3).levelHeightBlocks - 1 ∧
      getDistanceFromUpperWall (grassLevel 5 3) 64 96 160 = 64 ∧
      getDistanceFromLeftmostWall (grassLevel 5 3) 64 96 160 = 64 ∧
      getDistanceFromRightmostWall (grassLevel 5 3) 64 96 160 = 64 := by
  decide

end WallDistance

/-! ## Life points -/

section Life

/-- With the sum taken in the integers, `modifyLife` replaces the life points by their sum with
the argument clamped to
`[0, maxLifePoints]` (0 if the sum is negative, the maximum if the sum exceeds it, the sum
otherwise) and keeps every other member; `FightingEntity::modifyLife` and
`EnemySpawnerEntity::modifyLife` compute the same function of the life points, the maximum and
the argument. -/
theorem modifyLife_clamps_exact_sum :
    (∀ (e : FightingEntity) (delta : Int),
        FightingEntity.modifyLife e delta =
          { e with lifePointsAmount :=
              if e.lifePointsAmount + delta < 0 then 0
              else if e.lifePointsAmount + delta > e.maximumLifePointsAmount then
                e.maximumLifePointsAmount
              else e.lifePointsAmount + delta }) ∧
      (∀ (e : EnemySpawnerEntity) (delta : Int),
        EnemySpawnerEntity.modifyLife e delta =
          { e with lifePointsAmount :=
              if e.lifePointsAmount + delta < 0 then 0
              else if e.lifePointsAmount + delta > e.maximumLifePointsAmount then
                e.maximumLifePointsAmount
              else e.lifePointsAmount + delta }) ∧
      (∀ (f : FightingEntity) (e : EnemySpawnerEntity) (delta : Int),
        (FightingEntity.modifyLife f delta).lifePointsAmount =
            clampLife (f.lifePointsAmount + delta) f.maximumLifePointsAmount ∧
          (EnemySpawnerEntity.modifyLife e delta).lifePointsAmount =
            clampLife (e.lifePointsAmount + delta) e.maximumLifePointsAmount) ∧
      (∀ sum maxLifePoints : Int, 0 ≤ maxLifePoints →
        clampLife sum maxLifePoints = max 0 (min sum maxLifePoints)) := by
  refine ⟨?_, ?_, ?_, ?_⟩
  · intro e delta
    unfold FightingEntity.modifyLife
    simp only
    split_ifs <;> rfl
  · intro e delta
    unfold EnemySpawnerEntity.modifyLife
    simp only
    split_ifs <;> rfl
  · intro f e delta
    unfold FightingEntity.modifyLife EnemySpawnerEntity.modifyLife clampLife
    simp only
    constructor <;> split_ifs <;> rfl
  · intro sum maxLifePoints h
    unfold clampLife
    split_ifs <;> omega

/-- Counterexample to C7: a fighting entity with 10 life points of at most 10 that receives the
delta 2147483647 ends with 0 life points, where the sum 2147483657 clamped to `[0, 10]` is 10;
a spawner with 100 life points of at most 100 that receives the same delta ends with 0 life points,
where the clamped sum is 100. Both sums are above the largest `int` and wrap to a negative
`int` before the clamp. -/
theorem modifyLife_wraps_sum_before_clamp :
    (sampleFighter 10 10).lifePointsAmount = 10 ∧
      (sampleFighter 10 10).maximumLifePointsAmount = 10 ∧
      wrapInt32 (10 + 2147483647) = -2147483639 ∧
      (FightingEntity.modifyLifeWrapping (sampleFighter 10 10) 2147483647).lifePointsAmount = 0 ∧
      clampLife (10 + 2147483647) 10 = 10 ∧
      freshSpawner.lifePointsAmount = 100 ∧
      freshSpawner.maximumLifePointsAmount = 100 ∧
      wrapInt32 (100 + 2147483647) = -2147483549 ∧
      (EnemySpawnerEntity.modifyLifeWrapping freshSpawner 2147483647).lifePointsAmount = 0 ∧
      clampLife (100 + 2147483647) 100 = 100 := by
  decide

/-- C7, amended: whenever the sum of the life points and the argument is in the range of the
32-bit `int`, `modifyLife` replaces the life points by that sum clamped to `[0, maxLifePoints]`
(0 if the sum is negative, the maximum if the sum exceeds it, the sum otherwise) and keeps every
other member; `FightingEntity::modifyLife` and `EnemySpawnerEntity::modifyLife` compute the same
function of the life points, the maximum and the argument. -/
theorem modifyLife_clamps_sum_in_int_range (f : FightingEntity) (e : EnemySpawnerEntity)
    (delta : Int)
    (hf : -(2 ^ 31) ≤ f.lifePointsAmount + delta ∧ f.lifePointsAmount + delta < 2 ^ 31)
    (he : -(2 ^ 31) ≤ e.lifePointsAmount + delta ∧ e.lifePointsAmount + delta < 2 ^ 31) :
    FightingEntity.modifyLifeWrapping f delta =
        { f with lifePointsAmount :=
            if f.lifePointsAmount + delta < 0 then 0
            else if f.lifePointsAmount + delta > f.maximumLifePointsAmount then
              f.maximumLifePointsAmount
            else f.lifePointsAmount + delta } ∧
      EnemySpawnerEntity.modifyLifeWrapping e delta =
        { e with lifePointsAmount :=
            if e.lifePointsAmount + delta < 0 then 0
            else if e.lifePointsAmount + delta > e.maximumLifePointsAmount then
              e.maximumLifePointsAmount
            else e.lifePointsAmount + delta } ∧
      (FightingEntity.modifyLifeWrapping f delta).lifePointsAmount =
        clampLife (f.lifePointsAmount + delta) f.maximumLifePointsAmount ∧
      (EnemySpawnerEntity.modifyLifeWrapping e delta).lifePointsAmount =
        clampLife (e.lifePointsAmount + delta) e.maximumLifePointsAmount ∧
      (∀ sum maxLifePoints : Int, 0 ≤ maxLifePoints →
        clampLife sum maxLifePoints = max 0 (min sum maxLifePoints)) := by
  obtain ⟨h1, h2, h3, h4⟩ := modifyLife_clamps_exact_sum
  rw [fighting_modifyLifeWrapping_eq f delta hf, spawner_modifyLifeWrapping_eq e delta he]
  exact ⟨h1 f delta, h2 e delta, (h3 f e delta).1, (h3 f e delta).2, h4⟩

/-- Witness of C7, amended: with the delta -30, a fighting entity with 5 life points of at most 10
ends with 0 life points and a spawner with 100 life points of at most 100 ends with 70. -/
theorem modifyLife_clamps_sum_in_int_range_witness :
    (-(2 ^ 31) ≤ (sampleFighter 5 10).lifePointsAmount + (-30 : Int) ∧
        (sampleFighter 5 10).lifePointsAmount + (-30 : Int) < 2 ^ 31) ∧
      (-(2 ^ 31) ≤ freshSpawner.lifePointsAmount + (-30 : Int) ∧
        freshSpawner.lifePointsAmount + (-30 : Int) < 2 ^ 31) ∧
      (FightingEntity.modifyLifeWrapping (sampleFighter 5 10) (-30)).lifePointsAmount = 0 ∧
      (EnemySpawnerEntity.modifyLifeWrapping freshSpawner (-30)).lifePointsAmount = 70 ∧
      (FightingEntity.modifyLifeWrapping (sampleFighter 5 10) (-30)).lifePointsAmount =
        clampLife ((sampleFighter 5 10).lifePointsAmount + (-30))
          (sampleFighter 5 10).maximumLifePointsAmount :=
  ⟨by decide, by decide, by decide, by decide,
    (modifyLife_clamps_sum_in_int_range (sampleFighter 5 10) freshSpawner (-30)
      (by decide) (by decide)).2.2.1⟩

/-- C8: a fighting entity constructed with a maximum that is not negative starts with its life
points at the maximum, and after every call of every finite sequence of `modifyLife` calls (that
is, after the first `k` calls, for every `k`) its life points are in `[0, maximum]` and the
maximum is the one of the construction; the same holds for a spawner, constructed with the
maximum 100. -/
theorem life_points_stay_in_bounds (base : MovingEntity)
    (maximumLifePointsAmount timeBetweenShots : Int) (firingSoundId : Nat)
    (wallOrEnemySpawner entityWidth bulletWidth bulletHeight : Int)
    (hmax : 0 ≤ maximumLifePointsAmount) (spawnerBase : Entity) (deltas : List Int) (k : Nat) :
    (FightingEntity.new base maximumLifePointsAmount timeBetweenShots firingSoundId
        wallOrEnemySpawner entityWidth bulletWidth bulletHeight).lifePointsAmount =
        maximumLifePointsAmount ∧
      (FightingEntity.modifyLifeAll
        (FightingEntity.new base maximumLifePointsAmount timeBetweenShots firingSoundId
          wallOrEnemySpawner entityWidth bulletWidth bulletHeight)
        (deltas.take k)).maximumLifePointsAmount = maximumLifePointsAmount ∧
      lifeInvariant
        (FightingEntity.modifyLifeAll
          (FightingEntity.new base maximumLifePointsAmount timeBetweenShots firingSoundId
            wallOrEnemySpawner entityWidth bulletWidth bulletHeight)
          (deltas.take k)).lifePointsAmount
        maximumLifePointsAmount ∧
      (EnemySpawnerEntity.new spawnerBase).lifePointsAmount = 100 ∧
      (EnemySpawnerEntity.modifyLifeAll (EnemySpawnerEntity.new spawnerBase)
        (deltas.take k)).maximumLifePointsAmount = 100 ∧
      lifeInvariant
        (EnemySpawnerEntity.modifyLifeAll (EnemySpawnerEntity.new spawnerBase)
          (deltas.take k)).lifePointsAmount
        100 := by
  have f := fighting_modifyLifeAll_bounds (deltas.take k)
    (FightingEntity.new base maximumLifePointsAmount timeBetweenShots firingSoundId
      wallOrEnemySpawner entityWidth bulletWidth bulletHeight) ⟨hmax, le_refl _⟩
  have g := spawner_modifyLifeAll_bounds (deltas.take k) (EnemySpawnerEntity.new spawnerBase)
    ⟨show (0 : Int) ≤ 100 by decide, show (100 : Int) ≤ 100 by decide⟩
  exact ⟨rfl, f.1, f.2, rfl, g.1, g.2⟩

/-- Witness of C8: a fighting entity constructed with the maximum 10, after the first three calls
of `modifyLife` with -4, 100, -7, -50. -/
theorem life_points_stay_in_bounds_witness :
    (0 : Int) ≤ 10 ∧
      (FightingEntity.modifyLifeAll (sampleFighter 10 10) [-4, 100, -7]).lifePointsAmount = 3 ∧
      lifeInvariant
        (FightingEntity.modifyLifeAll
          (FightingEntity.new
            { positionRectangles := fun _ => { x := 64, y := 64, w := 32, h := 32 }
              facingDirection := Direction.DIRECTION_UP
              movingPixelsAmount := 3
              collisionBlockContent := 0 }
            10 500 0 3 32 8 16)
          (List.take 3 [-4, 100, -7, -50])).lifePointsAmount
        10 :=
  ⟨by decide, by decide,
    (life_points_stay_in_bounds
      { positionRectangles := fun _ => { x := 64, y := 64, w := 32, h := 32 }
        facingDirection := Direction.DIRECTION_UP
        movingPixelsAmount := 3
        collisionBlockContent := 0 }
      10 500 0 3 32 8 16 (by decide)
      { pointerTexture := 0, positionRectangle := { x := 0, y := 0, w := 64, h := 64 } }
      [-4, 100, -7, -50] 3).2.2.1⟩

/-- Counterexample to C9: the state with 5 life points out of 10 satisfies the life invariant;
after `setLifePointsAmount(-1)`, after `setLifePointsAmount(11)` and after
`setMaximumLifePointsAmount(3)` the invariant fails. -/
theorem setters_break_life_invariant :
    lifeInvariant (sampleFighter 5 10).lifePointsAmount
        (sampleFighter 5 10).maximumLifePointsAmount ∧
      ¬ lifeInvariant
        (FightingEntity.setLifePointsAmount (sampleFighter 5 10) (-1)).lifePointsAmount
        (FightingEntity.setLifePointsAmount (sampleFighter 5 10) (-1)).maximumLifePointsAmount ∧
      ¬ lifeInvariant
        (FightingEntity.setLifePointsAmount (sampleFighter 5 10) 11).lifePointsAmount
        (FightingEntity.setLifePointsAmount (sampleFighter 5 10) 11).maximumLifePointsAmount ∧
      ¬ lifeInvariant
        (FightingEntity.setMaximumLifePointsAmount (sampleFighter 5 10) 3).lifePointsAmount
        (FightingEntity.setMaximumLifePointsAmount (sampleFighter 5 10) 3).maximumLifePointsAmount := by
  decide

/-- C9, amended: from a state that satisfies the life invariant, the invariant holds after
`modifyLife(d)` for every `d`; `setLifePointsAmount(v)` stores `v` as it is and keeps the
maximum, so the invariant holds after it exactly when `0 ≤ v ≤ maximum`;
`setMaximumLifePointsAmount(m)` stores `m` as it is and keeps the life points, so the invariant
holds after it exactly when `lifePoints ≤ m`. -/
theorem life_invariant_under_mutations (e : FightingEntity)
    (h : lifeInvariant e.lifePointsAmount e.maximumLifePointsAmount) :
    (∀ d : Int,
        lifeInvariant (FightingEntity.modifyLife e d).lifePointsAmount
          (FightingEntity.modifyLife e d).maximumLifePointsAmount) ∧
      (∀ v : Int,
        (FightingEntity.setLifePointsAmount e v).lifePointsAmount = v ∧
          (FightingEntity.setLifePointsAmount e v).maximumLifePointsAmount =
            e.maximumLifePointsAmount ∧
          (lifeInvariant (FightingEntity.setLifePointsAmount e v).lifePointsAmount
              (FightingEntity.setLifePointsAmount e v).maximumLifePointsAmount ↔
            0 ≤ v ∧ v ≤ e.maximumLifePointsAmount)) ∧
      (∀ m : Int,
        (FightingEntity.setMaximumLifePointsAmount e m).lifePointsAmount = e.lifePointsAmount ∧
          (FightingEntity.setMaximumLifePointsAmount e m).maximumLifePointsAmount = m ∧
          (lifeInvariant (FightingEntity.setMaximumLifePointsAmount e m).lifePointsAmount
              (FightingEntity.setMaximumLifePointsAmount e m).maximumLifePointsAmount ↔
            e.lifePointsAmount ≤ m)) := by
  refine ⟨?_, ?_, ?_⟩
  · intro d
    obtain ⟨k, b⟩ := fighting_modifyLife_bounds e d (le_trans h.1 h.2)
    rw [k]
    exact b
  · intro v
    exact ⟨rfl, rfl, Iff.rfl⟩
  · intro m
    refine ⟨rfl, rfl, ?_⟩
    constructor
    · intro hm
      exact hm.2
    · intro hm
      exact ⟨h.1, hm⟩

/-- Witness of C9, amended: the state with 5 life points out of 10. -/
theorem life_invariant_under_mutations_witness :
    lifeInvariant (sampleFighter 5 10).lifePointsAmount
        (sampleFighter 5 10).maximumLifePointsAmount ∧
      lifeInvariant (FightingEntity.modifyLife (sampleFighter 5 10) 100).lifePointsAmount
        (FightingEntity.modifyLife (sampleFighter 5 10) 100).maximumLifePointsAmount ∧
      (FightingEntity.modifyLife (sampleFighter 5 10) 100).lifePointsAmount = 10 :=
  ⟨by decide, (life_invariant_under_mutations (sampleFighter 5 10) (by decide)).1 100, by decide⟩

/-- C10: `isDead` returns 1 exactly when the life points are 0 and returns 0 otherwise;
`isWounded` returns 1 exactly when the life points are below the maximum and returns 0 otherwise;
the object after either call is the object before it. -/
theorem isDead_and_isWounded_report_life_state (e : FightingEntity) :
    ((FightingEntity.isDead e).1 = 1 ↔ e.lifePointsAmount = 0) ∧
      ((FightingEntity.isDead e).1 = 0 ↔ e.lifePointsAmount ≠ 0) ∧
      (FightingEntity.isDead e).2 = e ∧
      ((FightingEntity.isWounded e).1 = 1 ↔ e.lifePointsAmount < e.maximumLifePointsAmount) ∧
      ((FightingEntity.isWounded e).1 = 0 ↔
        ¬ e.lifePointsAmount < e.maximumLifePointsAmount) ∧
      (FightingEntity.isWounded e).2 = e := by
  unfold FightingEntity.isDead FightingEntity.isWounded
  refine ⟨?_, ?_, ?_, ?_, ?_, ?_⟩ <;> split_ifs with h <;> simp [h]

end Life


/-! ## Shooting -/

section Shooting

/-- C11: when the clock value minus the time of the last shot, as `unsigned int`, is below the
time between shots, `shoot` returns `NULL`, calls neither the bullet factory nor the audio manager
and leaves the object as it was, the time of the last shot included. -/
theorem shoot_denied_changes_nothing {Bullet : Type} (fireBullet : Int → Int → Option Bullet)
    (e : FightingEntity) (now after : Nat)
    (h : u32sub now e.lastShotTime < e.timeBetweenShots) :
    FightingEntity.shoot fireBullet e now after = (none, e, []) ∧
      (FightingEntity.shoot fireBullet e now after).2.1.lastShotTime = e.lastShotTime := by
  have hn : ¬ u32sub now e.lastShotTime ≥ e.timeBetweenShots := by omega
  unfold FightingEntity.shoot
  simp only [if_neg hn, and_self]

/-- Witness of C11: the fresh fighter shot at 1000; at 1499 the cooldown of 500 milliseconds is
not over. -/
theorem shoot_denied_changes_nothing_witness :
    u32sub 1499
        (FightingEntity.shoot sampleFireBullet freshFighter 1000 1000).2.1.lastShotTime <
        (FightingEntity.shoot sampleFireBullet freshFighter 1000 1000).2.1.timeBetweenShots ∧
      (FightingEntity.shoot sampleFireBullet
        (FightingEntity.shoot sampleFireBullet freshFighter 1000 1000).2.1 1499 1499).1 = none ∧
      (FightingEntity.shoot sampleFireBullet
        (FightingEntity.shoot sampleFireBullet freshFighter 1000 1000).2.1 1499 1499).2.2 = [] :=
  ⟨by decide,
    congrArg Prod.fst
      (shoot_denied_changes_nothing sampleFireBullet
        (FightingEntity.shoot sampleFireBullet freshFighter 1000 1000).2.1 1499 1499
        (by decide)).1,
    congrArg (fun r => r.2.2)
      (shoot_denied_changes_nothing sampleFireBullet
        (FightingEntity.shoot sampleFireBullet freshFighter 1000 1000).2.1 1499 1499
        (by decide)).1⟩

/-- C12: when the clock value minus the time of the last shot, as `unsigned int`, has reached the
time between shots, `shoot` returns the pointer that the factory returns for the position of the
entity plus the offset of its facing direction, calls the factory once and then the audio manager
once with the firing sound, stores the clock value read after the factory call as time of the last
shot, and keeps every other member. -/
theorem shoot_allowed_fires_bullet {Bullet : Type} (fireBullet : Int → Int → Option Bullet)
    (e : FightingEntity) (now after : Nat)
    (h : u32sub now e.lastShotTime ≥ e.timeBetweenShots) :
    (FightingEntity.shoot fireBullet e now after).1 =
        fireBullet
          ((e.positionRectangles e.facingDirection).x +
            (e.bulletStartingPositionOffsets e.facingDirection).x)
          ((e.positionRectangles e.facingDirection).y +
            (e.bulletStartingPositionOffsets e.facingDirection).y) ∧
      (FightingEntity.shoot fireBullet e now after).2.2 =
        [Effect.fireBullet
            ((e.positionRectangles e.facingDirection).x +
              (e.bulletStartingPositionOffsets e.facingDirection).x)
            ((e.positionRectangles e.facingDirection).y +
              (e.bulletStartingPositionOffsets e.facingDirection).y),
          Effect.playSound e.firingSoundId 0 0] ∧
      (FightingEntity.shoot fireBullet e now after).2.1 = { e with lastShotTime := after } ∧
      (FightingEntity.shoot fireBullet e now after).2.1.lastShotTime = after ∧
      (FightingEntity.shoot fireBullet e now after).2.1.lifePointsAmount = e.lifePointsAmount ∧
      (FightingEntity.shoot fireBullet e now after).2.1.maximumLifePointsAmount =
        e.maximumLifePointsAmount ∧
      (FightingEntity.shoot fireBullet e now after).2.1.timeBetweenShots = e.timeBetweenShots ∧
      (FightingEntity.shoot fireBullet e now after).2.1.facingDirection = e.facingDirection ∧
      (FightingEntity.shoot fireBullet e now after).2.1.positionRectangles =
        e.positionRectangles ∧
      (FightingEntity.shoot fireBullet e now after).2.1.bulletStartingPositionOffsets =
        e.bulletStartingPositionOffsets := by
  unfold FightingEntity.shoot
  simp only [if_pos h, and_self]

/-- Witness of C12: the fresh fighter at (64, 64), facing up, shoots at clock value 1000; the
bullet is created at (64 + 12, 64 + 2) and the clock value 1003 read after that is stored. -/
theorem shoot_allowed_fires_bullet_witness :
    u32sub 1000 freshFighter.lastShotTime ≥ freshFighter.timeBetweenShots ∧
      (FightingEntity.shoot sampleFireBullet freshFighter 1000 1003).1 =
        some { x := 76, y := 66 } ∧
      (FightingEntity.shoot sampleFireBullet freshFighter 1000 1003).2.1.lastShotTime = 1003 :=
  ⟨by decide,
    (shoot_allowed_fires_bullet sampleFireBullet freshFighter 1000 1003 (by decide)).1.trans
      (by decide),
    (shoot_allowed_fires_bullet sampleFireBullet freshFighter 1000 1003 (by decide)).2.2.2.1⟩

/-- C13: after a first call of `shoot` that was allowed at clock value `now1` and stored the
clock value `t1` read after the bullet was created, a second call at clock value `now2` returns
`NULL` without calling the factory when `now2 - t1` is below the time between shots, and returns
the pointer of the factory when `now2 - t1` has reached it: the second call is gated by `t1`. With
`now1 ≤ t1 ≤ now2`, the second call returns `NULL` whenever `now2 - now1` is below the time
between shots. -/
theorem second_shot_gated_by_stored_time {Bullet : Type}
    (fireBullet : Int → Int → Option Bullet) (e : FightingEntity) (now1 t1 now2 t2 : Nat)
    (hfirst : u32sub now1 e.lastShotTime ≥ e.timeBetweenShots) :
    (FightingEntity.shoot fireBullet e now1 t1).2.1.lastShotTime = t1 ∧
      (u32sub now2 t1 < e.timeBetweenShots →
        FightingEntity.shoot fireBullet (FightingEntity.shoot fireBullet e now1 t1).2.1 now2 t2 =
          (none, (FightingEntity.shoot fireBullet e now1 t1).2.1, [])) ∧
      (u32sub now2 t1 ≥ e.timeBetweenShots →
        (FightingEntity.shoot fireBullet (FightingEntity.shoot fireBullet e now1 t1).2.1
            now2 t2).1 =
          fireBullet
            ((e.positionRectangles e.facingDirection).x +
              (e.bulletStartingPositionOffsets e.facingDirection).x)
            ((e.positionRectangles e.facingDirection).y +
              (e.bulletStartingPositionOffsets e.facingDirection).y) ∧
        (FightingEntity.shoot fireBullet (FightingEntity.shoot fireBullet e now1 t1).2.1
            now2 t2).2.2 =
          [Effect.fireBullet
              ((e.positionRectangles e.facingDirection).x +
                (e.bulletStartingPositionOffsets e.facingDirection).x)
              ((e.positionRectangles e.facingDirection).y +
                (e.bulletStartingPositionOffsets e.facingDirection).y),
            Effect.playSound e.firingSoundId 0 0] ∧
        (FightingEntity.shoot fireBullet (FightingEntity.shoot fireBullet e now1 t1).2.1
            now2 t2).2.1.lastShotTime = t2) ∧
      (now1 ≤ t1 → t1 ≤ now2 → now2 < 2 ^ 32 → u32sub now2 now1 < e.timeBetweenShots →
        FightingEntity.shoot fireBullet (FightingEntity.shoot fireBullet e now1 t1).2.1 now2 t2 =
          (none, (FightingEntity.shoot fireBullet e now1 t1).2.1, [])) := by
  rw [shoot_allowed_object fireBullet e now1 t1 hfirst]
  have denied : u32sub now2 t1 < e.timeBetweenShots →
      FightingEntity.shoot fireBullet { e with lastShotTime := t1 } now2 t2 =
        (none, { e with lastShotTime := t1 }, []) := by
    intro h
    have hn : ¬ u32sub now2 t1 ≥ e.timeBetweenShots := by omega
    unfold FightingEntity.shoot
    simp only [if_neg hn]
  refine ⟨rfl, denied, ?_, ?_⟩
  · intro h
    unfold FightingEntity.shoot
    simp only [if_pos h, and_self]
  · intro h1 h2 h3 h4
    apply denied
    rw [u32sub_of_le now2 t1 h2 h3]
    rw [u32sub_of_le now2 now1 (le_trans h1 h2) h3] at h4
    omega

/-- Witness of C13: the fresh fighter (500 milliseconds between shots) shoots at clock value
1000 and stores 1002, read after the bullet was created. At clock value 1501 the time since the
first call is 501, the time since the stored value is 499, and the second call returns `NULL`. -/
theorem second_shot_gated_by_stored_time_witness :
    u32sub 1000 freshFighter.lastShotTime ≥ freshFighter.timeBetweenShots ∧
      u32sub 1501 1000 ≥ freshFighter.timeBetweenShots ∧
      u32sub 1501 1002 < freshFighter.timeBetweenShots ∧
      (FightingEntity.shoot sampleFireBullet
        (FightingEntity.shoot sampleFireBullet freshFighter 1000 1002).2.1 1501 1501).1 = none :=
  ⟨by decide, by decide, by decide,
    congrArg Prod.fst
      ((second_shot_gated_by_stored_time sampleFireBullet freshFighter 1000 1002 1501 1501
        (by decide)).2.1 (by decide))⟩

/-- C14: a fighting entity constructed with 500 milliseconds between shots has 0 as time of its
last shot; its first `shoot` call at clock value 100 is denied: it returns `NULL` and does not
call the factory, because 100 - 0 is below 500. -/
theorem fresh_fighter_is_denied_before_first_cooldown :
    freshFighter.lastShotTime = 0 ∧ freshFighter.timeBetweenShots = 500 ∧
      (FightingEntity.shoot sampleFireBullet freshFighter 100 100).1 = none ∧
      (FightingEntity.shoot sampleFireBullet freshFighter 100 100).2.2 = [] := by
  decide

/-- C18: the table of bullet offsets that the constructor builds from the width `W` of the entity
and the width `pw` and height `ph` of the bullet is UP = ((W - pw) / 2, 2),
DOWN = ((W - pw) / 2, W - ph - 2), LEFT = (2, (W - pw) / 2), RIGHT = (W - ph - 2, (W - pw) / 2),
with the truncating division; LEFT and RIGHT are UP and DOWN with x and y swapped. -/
theorem bullet_offsets_of_constructor (base : MovingEntity)
    (maximumLifePointsAmount timeBetweenShots : Int) (firingSoundId : Nat)
    (wallOrEnemySpawner entityWidth bulletWidth bulletHeight : Int) :
    (FightingEntity.new base maximumLifePointsAmount timeBetweenShots firingSoundId
        wallOrEnemySpawner entityWidth bulletWidth bulletHeight).bulletStartingPositionOffsets
        Direction.DIRECTION_UP =
        { x := Int.tdiv (entityWidth - bulletWidth) 2, y := 2 } ∧
      (FightingEntity.new base maximumLifePointsAmount timeBetweenShots firingSoundId
        wallOrEnemySpawner entityWidth bulletWidth bulletHeight).bulletStartingPositionOffsets
        Direction.DIRECTION_DOWN =
        { x := Int.tdiv (entityWidth - bulletWidth) 2, y := entityWidth - bulletHeight - 2 } ∧
      (FightingEntity.new base maximumLifePointsAmount timeBetweenShots firingSoundId
        wallOrEnemySpawner entityWidth bulletWidth bulletHeight).bulletStartingPositionOffsets
        Direction.DIRECTION_LEFT =
        { x := 2, y := Int.tdiv (entityWidth - bulletWidth) 2 } ∧
      (FightingEntity.new base maximumLifePointsAmount timeBetweenShots firingSoundId
        wallOrEnemySpawner entityWidth bulletWidth bulletHeight).bulletStartingPositionOffsets
        Direction.DIRECTION_RIGHT =
        { x := entityWidth - bulletHeight - 2, y := Int.tdiv (entityWidth - bulletWidth) 2 } ∧
      (∀ e : FightingEntity,
        e = FightingEntity.new base maximumLifePointsAmount timeBetweenShots firingSoundId
          wallOrEnemySpawner entityWidth bulletWidth bulletHeight →
        (e.bulletStartingPositionOffsets Direction.DIRECTION_LEFT).x =
            (e.bulletStartingPositionOffsets Direction.DIRECTION_UP).y ∧
          (e.bulletStartingPositionOffsets Direction.DIRECTION_LEFT).y =
            (e.bulletStartingPositionOffsets Direction.DIRECTION_UP).x ∧
          (e.bulletStartingPositionOffsets Direction.DIRECTION_RIGHT).x =
            (e.bulletStartingPositionOffsets Direction.DIRECTION_DOWN).y ∧
          (e.bulletStartingPositionOffsets Direction.DIRECTION_RIGHT).y =
            (e.bulletStartingPositionOffsets Direction.DIRECTION_DOWN).x) := by
  refine ⟨rfl, rfl, rfl, rfl, ?_⟩
  intro e he
  subst he
  exact ⟨rfl, rfl, rfl, rfl⟩

end Shooting

/-! ## Spawner -/

section Spawner

/-- Counterexample to C15: at the clock value `2 ^ 32 - 1` the first `update` of a freshly
constructed spawner returns 0: the `unsigned int` difference to the initial time of the last
spawn, `2 ^ 32 - 3000`, is 2999. -/
theorem fresh_spawner_keeps_at_end_of_clock_range :
    4294967295 < 2 ^ 32 ∧ freshSpawner.lifePointsAmount = 100 ∧
      freshSpawner.lastEnemySpawnTime = 2 ^ 32 - 3000 ∧
      u32sub 4294967295 freshSpawner.lastEnemySpawnTime = 2999 ∧
      (EnemySpawnerEntity.update freshSpawner 4294967295 4294967295).1 = 0 := by
  decide

/-- C15, amended: a freshly constructed spawner has 100 life points and `2 ^ 32 - 3000` as time
of its last spawn; its first `update` returns 2 for every clock value below `2 ^ 32 - 3000`, and
returns 0 for the clock values from `2 ^ 32 - 3000` to `2 ^ 32 - 1`. -/
theorem fresh_spawner_first_update (base : Entity) (now atStore : Nat) (hnow : now < 2 ^ 32) :
    (EnemySpawnerEntity.new base).lifePointsAmount = 100 ∧
      (EnemySpawnerEntity.new base).lastEnemySpawnTime = 2 ^ 32 - 3000 ∧
      (now < 2 ^ 32 - 3000 →
        (EnemySpawnerEntity.update (EnemySpawnerEntity.new base) now atStore).1 = 2) ∧
      (2 ^ 32 - 3000 ≤ now →
        (EnemySpawnerEntity.update (EnemySpawnerEntity.new base) now atStore).1 = 0) := by
  have hlife : (EnemySpawnerEntity.new base).lifePointsAmount ≠ 0 := by
    intro h
    have : (100 : Int) = 0 := h
    omega
  have hlast : (EnemySpawnerEntity.new base).lastEnemySpawnTime = 2 ^ 32 - 3000 := by
    simp only [EnemySpawnerEntity.new, EnemySpawnerEntity.timeBetweenSpawns]
    omega
  refine ⟨rfl, hlast, ?_, ?_⟩
  · intro h
    have hge : u32sub now (EnemySpawnerEntity.new base).lastEnemySpawnTime ≥
        EnemySpawnerEntity.timeBetweenSpawns := by
      rw [hlast]
      unfold u32sub EnemySpawnerEntity.timeBetweenSpawns
      omega
    unfold EnemySpawnerEntity.update
    rw [if_neg hlife, if_pos hge]
  · intro h
    have hlt : ¬ u32sub now (EnemySpawnerEntity.new base).lastEnemySpawnTime ≥
        EnemySpawnerEntity.timeBetweenSpawns := by
      rw [hlast]
      unfold u32sub EnemySpawnerEntity.timeBetweenSpawns
      omega
    unfold EnemySpawnerEntity.update
    rw [if_neg hlife, if_neg hlt]

/-- Witness of C15, amended: the first update at clock value 0. -/
theorem fresh_spawner_first_update_witness :
    0 < 2 ^ 32 ∧ (EnemySpawnerEntity.update freshSpawner 0 0).1 = 2 :=
  ⟨by decide,
    (fresh_spawner_first_update
      { pointerTexture := 0, positionRectangle := { x := 128, y := 128, w := 64, h := 64 } }
      0 0 (by decide)).2.2.1 (by decide)⟩

/-- C16: for a spawner with life points above 0 and time of the last spawn `t`, `update` at clock
value `now` returns 0 and leaves the object as it was when `now - t` (as `unsigned int`) is below
3000, and returns 2 and stores the clock value as time of the last spawn when `now - t` has
reached 3000; it never changes the life points. After a spawn stored at `now0`, the call at
`now0 + 1` returns 0 and the call at `now0 + 3000` returns 2. -/
theorem spawner_update_when_alive (e : EnemySpawnerEntity) (now atStore : Nat)
    (hlife : 0 < e.lifePointsAmount) :
    (u32sub now e.lastEnemySpawnTime < 3000 → EnemySpawnerEntity.update e now atStore = (0, e)) ∧
      (u32sub now e.lastEnemySpawnTime ≥ 3000 →
        EnemySpawnerEntity.update e now atStore =
          (2, { e with lastEnemySpawnTime := atStore })) ∧
      (EnemySpawnerEntity.update e now atStore).2.lifePointsAmount = e.lifePointsAmount ∧
      (EnemySpawnerEntity.update e now atStore).2.maximumLifePointsAmount =
        e.maximumLifePointsAmount ∧
      (∀ now0 later : Nat,
        (EnemySpawnerEntity.update { e with lastEnemySpawnTime := now0 }
            ((now0 + 1) % 2 ^ 32) later).1 = 0 ∧
          (EnemySpawnerEntity.update { e with lastEnemySpawnTime := now0 }
            ((now0 + 3000) % 2 ^ 32) later).1 = 2) := by
  have hne : ¬ e.lifePointsAmount = 0 := by omega
  refine ⟨?_, ?_, ?_, ?_, ?_⟩
  · intro h
    have hn : ¬ u32sub now e.lastEnemySpawnTime ≥ EnemySpawnerEntity.timeBetweenSpawns := by
      unfold EnemySpawnerEntity.timeBetweenSpawns
      omega
    unfold EnemySpawnerEntity.update
    rw [if_neg hne, if_neg hn]
  · intro h
    have hp : u32sub now e.lastEnemySpawnTime ≥ EnemySpawnerEntity.timeBetweenSpawns := h
    unfold EnemySpawnerEntity.update
    rw [if_neg hne, if_pos hp]
  · unfold EnemySpawnerEntity.update
    split_ifs <;> rfl
  · unfold EnemySpawnerEntity.update
    split_ifs <;> rfl
  · intro now0 later
    have h1 : ¬ u32sub ((now0 + 1) % 2 ^ 32) now0 ≥ EnemySpawnerEntity.timeBetweenSpawns := by
      rw [u32sub_add_mod now0 1 (by omega)]
      unfold EnemySpawnerEntity.timeBetweenSpawns
      omega
    have h2 : u32sub ((now0 + 3000) % 2 ^ 32) now0 ≥ EnemySpawnerEntity.timeBetweenSpawns := by
      rw [u32sub_add_mod now0 3000 (by omega)]
      unfold EnemySpawnerEntity.timeBetweenSpawns
      omega
    unfold EnemySpawnerEntity.update
    simp only [if_neg hne, if_neg h1, if_pos h2, and_self]

/-- Witness of C16: the fresh spawner spawns at clock value 5000; at 5001 it returns 0 and at
8000 it returns 2. -/
theorem spawner_update_when_alive_witness :
    0 < freshSpawner.lifePointsAmount ∧
      EnemySpawnerEntity.update freshSpawner 5000 5000 =
        (2, { freshSpawner with lastEnemySpawnTime := 5000 }) ∧
      (EnemySpawnerEntity.update (EnemySpawnerEntity.update freshSpawner 5000 5000).2
        5001 5001).1 = 0 ∧
      (EnemySpawnerEntity.update (EnemySpawnerEntity.update freshSpawner 5000 5000).2
        8000 8000).1 = 2 :=
  ⟨by decide, (spawner_update_when_alive freshSpawner 5000 5000 (by decide)).2.1 (by decide),
    by decide, by decide⟩

/-- C17: for a spawner with 0 life points, `update` returns 1 whatever the clock value is, and
leaves the object, with its time of the last spawn, as it was; a spawner with a maximum that is
not negative has 0 life points after `modifyLife(d)` with `d ≤ -lifePoints`. -/
theorem spawner_update_when_destroyed (e : EnemySpawnerEntity) (now atStore : Nat)
    (hdead : e.lifePointsAmount = 0) :
    EnemySpawnerEntity.update e now atStore = (1, e) ∧
      (EnemySpawnerEntity.update e now atStore).2.lastEnemySpawnTime = e.lastEnemySpawnTime ∧
      (∀ (alive : EnemySpawnerEntity) (d : Int), 0 ≤ alive.maximumLifePointsAmount →
        d ≤ -alive.lifePointsAmount →
        (EnemySpawnerEntity.modifyLife alive d).lifePointsAmount = 0 ∧
          (EnemySpawnerEntity.update (EnemySpawnerEntity.modifyLife alive d) now atStore).1 =
            1) := by
  have first : EnemySpawnerEntity.update e now atStore = (1, e) := by
    unfold EnemySpawnerEntity.update
    rw [if_pos hdead]
  refine ⟨first, by rw [first], ?_⟩
  intro alive d hmax hd
  have hzero : (EnemySpawnerEntity.modifyLife alive d).lifePointsAmount = 0 := by
    unfold EnemySpawnerEntity.modifyLife
    simp only
    split_ifs with h1 h2
    · rfl
    · simp only; omega
    · simp only; omega
  refine ⟨hzero, ?_⟩
  unfold EnemySpawnerEntity.update
  rw [if_pos hzero]

/-- Witness of C17: the fresh spawner loses 150 life points; at clock value 5000 a spawn is due
(the first update of the untouched spawner returns 2), yet the update returns 1. -/
theorem spawner_update_when_destroyed_witness :
    (EnemySpawnerEntity.modifyLife freshSpawner (-150)).lifePointsAmount = 0 ∧
      (EnemySpawnerEntity.update freshSpawner 5000 5000).1 = 2 ∧
      EnemySpawnerEntity.update (EnemySpawnerEntity.modifyLife freshSpawner (-150)) 5000 5000 =
        (1, EnemySpawnerEntity.modifyLife freshSpawner (-150)) :=
  ⟨by decide, by decide,
    (spawner_update_when_destroyed (EnemySpawnerEntity.modifyLife freshSpawner (-150)) 5000 5000
      (by decide)).1⟩

end Spawner

/-! ## Level loading -/

section LevelLoading

open LevelManager

/-- C19: for a level source of `H` rows of `W` block indexes below 5 each, written as digits
separated by commas with a newline at the end of every row, with `1 ≤ W ≤` maximum width and
`1 ≤ H ≤` maximum height, `loadLevel` returns 0, sets the level width to `W` and the level height
to `H`, keeps the catalog, and the cell of index `y * width + x` points to the block whose index
is the number `x` of the row `y`. -/
theorem loadLevel_of_well_formed_source (s : State) (maximumWidth maximumHeight W : Nat)
    (rows : List (List Nat)) (hW : 1 ≤ W ∧ W ≤ maximumWidth)
    (hH : 1 ≤ rows.length ∧ rows.length ≤ maximumHeight)
    (hrows : ∀ r ∈ rows, r.length = W ∧ ∀ a ∈ r, a < 5) :
    (loadLevel s maximumWidth maximumHeight (some (levelText rows))).1 = 0 ∧
      (loadLevel s maximumWidth maximumHeight (some (levelText rows))).2.levelWidthBlocks = W ∧
      (loadLevel s maximumWidth maximumHeight (some (levelText rows))).2.levelHeightBlocks =
        rows.length ∧
      (loadLevel s maximumWidth maximumHeight (some (levelText rows))).2.blocks = s.blocks ∧
      ∀ x y : Nat, x < W → y < rows.length →
        (loadLevel s maximumWidth maximumHeight (some (levelText rows))).2.pointerLevelBlocks
            (COMPUTE_BLOCK_INDEX
              (loadLevel s maximumWidth maximumHeight (some (levelText rows))).2 x y) =
          (rows.getD y []).getD x 0 := by
  have hne : rows ≠ [] := by
    intro h
    rw [h] at hH
    simp at hH
  have hload := loadRows_levelText maximumWidth W hW rows maximumHeight 0
    { s with levelWidthBlocks := 0, levelHeightBlocks := 0 } 0 hH.2 hrows
  simp only [loadLevel, hload, if_neg hne, zero_add, COMPUTE_BLOCK_INDEX, true_and]
  intro x y hx hy
  have hlen := levelIds_length W rows (fun r hr => (hrows r hr).1)
  have hk : y * W + x < (levelIds rows).length := by
    rw [hlen]
    have h1 : (y + 1) * W ≤ rows.length * W := Nat.mul_le_mul_right W hy
    have h2 : (y + 1) * W = y * W + W := Nat.succ_mul y W
    omega
  have e : (y : Int) * (W : Int) + (x : Int) = 0 + ((y * W + x : Nat) : Int) := by
    push_cast
    ring
  rw [e, writeCells_at (levelIds rows) _ 0 (y * W + x) hk]
  exact levelIds_getD W rows x y (fun r hr => (hrows r hr).1) hx hy

/-- Witness of C19: the level of 3 x 2 blocks with the rows 0,1,2 and 3,4,0, with at most 10
columns and 10 rows. -/
theorem loadLevel_of_well_formed_source_witness :
    levelText [[0, 1, 2], [3, 4, 0]] = [48, 44, 49, 44, 50, 10, 51, 44, 52, 44, 48, 10] ∧
      (loadLevel (grassLevel 7 7) 10 10 (some (levelText [[0, 1, 2], [3, 4, 0]]))).1 = 0 ∧
      (loadLevel (grassLevel 7 7) 10 10
        (some (levelText [[0, 1, 2], [3, 4, 0]]))).2.levelWidthBlocks = (3 : Nat) ∧
      (loadLevel (grassLevel 7 7) 10 10
        (some (levelText [[0, 1, 2], [3, 4, 0]]))).2.levelHeightBlocks =
        [[0, 1, 2], [3, 4, 0]].length ∧
      (loadLevel (grassLevel 7 7) 10 10
        (some (levelText [[0, 1, 2], [3, 4, 0]]))).2.pointerLevelBlocks
          (COMPUTE_BLOCK_INDEX
            (loadLevel (grassLevel 7 7) 10 10 (some (levelText [[0, 1, 2], [3, 4, 0]]))).2
            1 1) = 4 :=
  ⟨by decide,
    (loadLevel_of_well_formed_source (grassLevel 7 7) 10 10 3 [[0, 1, 2], [3, 4, 0]]
      (by decide) (by decide) (by decide)).1,
    (loadLevel_of_well_formed_source (grassLevel 7 7) 10 10 3 [[0, 1, 2], [3, 4, 0]]
      (by decide) (by decide) (by decide)).2.1,
    (loadLevel_of_well_formed_source (grassLevel 7 7) 10 10 3 [[0, 1, 2], [3, 4, 0]]
      (by decide) (by decide) (by decide)).2.2.1,
    by decide⟩

/-- Counterexample to C20: the source with the rows 1,4294967297 and 2,3 can be opened and the
numerals read before the parsing stops are 1, 4294967297, 2 and 3; the second is outside `[0, 5)`,
and yet `loadLevel` returns 0: the `int` that `fscanf` stores for it is 1, and the cell 1 of the
level holds the block 1. -/
theorem loadLevel_accepts_numeral_beyond_int_range :
    scanNumerals 10 10 bigNumeralText = [1, 4294967297, 2, 3] ∧
      (∃ numeral ∈ scanNumerals 10 10 bigNumeralText, numeral < 0 ∨ numeral ≥ 5) ∧
      storeInt 4294967297 = 1 ∧
      (loadLevel (grassLevel 7 7) 10 10 (some bigNumeralText)).1 = 0 ∧
      (loadLevel (grassLevel 7 7) 10 10 (some bigNumeralText)).2.pointerLevelBlocks 1 = 1 ∧
      (loadLevel (grassLevel 7 7) 10 10 (some bigNumeralText)).2.levelWidthBlocks = 2 ∧
      (loadLevel (grassLevel 7 7) 10 10 (some bigNumeralText)).2.levelHeightBlocks = 2 := by
  refine ⟨by decide, ⟨4294967297, by decide, by decide⟩, by decide, by decide, by decide,
    by decide, by decide⟩

/-- C20, amended: on a level source that can be opened and whose numerals read before the
parsing stops (`scanNumerals`: up to the first unreadable token, within the maximum width and
height) are all in the range of the 32-bit `int`, `loadLevel` returns -1 exactly when one of
these numerals is below 0 or at least 5, and returns 0 exactly when all of them are in
`[0, 5)`. -/
theorem loadLevel_fails_iff_bad_block_id_in_int_range (s : State)
    (maximumWidth maximumHeight : Nat) (file : List Nat)
    (hbound : ∀ numeral ∈ scanNumerals maximumWidth maximumHeight file,
      -(2 ^ 31) ≤ numeral ∧ numeral < 2 ^ 31) :
    ((loadLevel s maximumWidth maximumHeight (some file)).1 = -1 ↔
        ∃ blockId ∈ scanNumerals maximumWidth maximumHeight file, blockId < 0 ∨ blockId ≥ 5) ∧
      ((loadLevel s maximumWidth maximumHeight (some file)).1 = 0 ↔
        ∀ blockId ∈ scanNumerals maximumWidth maximumHeight file, 0 ≤ blockId ∧ blockId < 5) := by
  have h := loadLevel_fails_iff_stored_id_bad s maximumWidth maximumHeight file
  rw [scanRows_eq_scanNumerals maximumWidth maximumHeight file hbound] at h
  exact h

/-- Witness of C20, amended: the sources `0,99` and `0,-1` (one row each, numerals in the range of
`int`) make `loadLevel` return -1, and the source `0,4` makes it return 0. -/
theorem loadLevel_fails_iff_bad_block_id_in_int_range_witness :
    (∀ numeral ∈ scanNumerals 10 10 [48, 44, 57, 57, 10],
        -(2 ^ 31) ≤ numeral ∧ numeral < 2 ^ 31) ∧
      scanNumerals 10 10 [48, 44, 57, 57, 10] = [0, 99] ∧
      (loadLevel (grassLevel 7 7) 10 10 (some [48, 44, 57, 57, 10])).1 = -1 ∧
      scanNumerals 10 10 [48, 44, 45, 49, 10] = [0, -1] ∧
      (loadLevel (grassLevel 7 7) 10 10 (some [48, 44, 45, 49, 10])).1 = -1 ∧
      scanNumerals 10 10 [48, 44, 52, 10] = [0, 4] ∧
      (loadLevel (grassLevel 7 7) 10 10 (some [48, 44, 52, 10])).1 = 0 ∧
      ((loadLevel (grassLevel 7 7) 10 10 (some [48, 44, 57, 57, 10])).1 = -1 ↔
        ∃ blockId ∈ scanNumerals 10 10 [48, 44, 57, 57, 10], blockId < 0 ∨ blockId ≥ 5) :=
  ⟨by decide, by decide, by decide, by decide, by decide, by decide, by decide,
    (loadLevel_fails_iff_bad_block_id_in_int_range (grassLevel 7 7) 10 10 [48, 44, 57, 57, 10]
      (by decide)).1⟩

/-- Counterexample to C21: the source with the rows 0,1,2 and 3,4 (both ended by a newline) loads
with success; the first row at which a newline is met has 3 columns, and the level width after
the load is 2, the number of columns of the second row. -/
theorem loadLevel_width_is_not_the_one_of_first_row :
    levelText [[0, 1, 2], [3, 4]] = [48, 44, 49, 44, 50, 10, 51, 44, 52, 10] ∧
      [0, 1, 2].length = 3 ∧
      (loadLevel (grassLevel 7 7) 10 10 (some (levelText [[0, 1, 2], [3, 4]]))).1 = 0 ∧
      (loadLevel (grassLevel 7 7) 10 10
        (some (levelText [[0, 1, 2], [3, 4]]))).2.levelWidthBlocks = 2 := by
  decide

/-- C21, amended: for a level source made of rows of block indexes below 5, every row ended by a
newline, the rows of any lengths between 1 and the maximum width and at most as many as the
maximum height, `loadLevel` returns 0, the level height is the number of rows, and the level
width is the number of columns of the last row: every newline sets the width again. -/
theorem loadLevel_width_is_the_one_of_last_row (s : State) (maximumWidth maximumHeight : Nat)
    (front : List (List Nat)) (last : List Nat)
    (hH : (front ++ [last]).length ≤ maximumHeight)
    (hrows : ∀ r ∈ front ++ [last], r ≠ [] ∧ r.length ≤ maximumWidth ∧ ∀ a ∈ r, a < 5) :
    (loadLevel s maximumWidth maximumHeight (some (levelText (front ++ [last])))).1 = 0 ∧
      (loadLevel s maximumWidth maximumHeight
        (some (levelText (front ++ [last])))).2.levelWidthBlocks = last.length ∧
      (loadLevel s maximumWidth maximumHeight
        (some (levelText (front ++ [last])))).2.levelHeightBlocks = (front ++ [last]).length := by
  obtain ⟨hne, hlen, _⟩ := hrows last (by simp)
  have hW : 1 ≤ maximumWidth := by
    have : last.length ≠ 0 := fun h => hne (List.length_eq_zero.mp h)
    omega
  have hload := loadRows_rows_then maximumWidth [] (front ++ [last]) maximumHeight 0
    { s with levelWidthBlocks := 0, levelHeightBlocks := 0 } 0 hH hrows
  rw [List.append_nil] at hload
  simp only [loadLevel, hload, loadRows_at_end maximumWidth hW,
    lastRowWidth_append_singleton, zero_add, and_self]

/-- Witness of C21, amended: the rows 0,1,2 and 3,4. -/
theorem loadLevel_width_is_the_one_of_last_row_witness :
    (loadLevel (grassLevel 7 7) 10 10
        (some (levelText ([[0, 1, 2]] ++ [[3, 4]])))).2.levelWidthBlocks = [3, 4].length ∧
      (loadLevel (grassLevel 7 7) 10 10
        (some (levelText ([[0, 1, 2]] ++ [[3, 4]])))).2.levelHeightBlocks =
        ([[0, 1, 2]] ++ [[3, 4]]).length :=
  (loadLevel_width_is_the_one_of_last_row (grassLevel 7 7) 10 10 [[0, 1, 2]] [3, 4] (by decide)
    (by decide)).2

/-- C22: when the scene file cannot be opened, `loadLevel` returns -1 and the static variables
are the ones before the call: the level width, the level height and every cell. -/
theorem loadLevel_without_file_changes_nothing (s : State) (maximumWidth maximumHeight : Nat) :
    (loadLevel s maximumWidth maximumHeight none).1 = -1 ∧
      (loadLevel s maximumWidth maximumHeight none).2 = s ∧
      (loadLevel s maximumWidth maximumHeight none).2.levelWidthBlocks = s.levelWidthBlocks ∧
      (loadLevel s maximumWidth maximumHeight none).2.levelHeightBlocks = s.levelHeightBlocks ∧
      ∀ i : Int,
        (loadLevel s maximumWidth maximumHeight none).2.pointerLevelBlocks i =
          s.pointerLevelBlocks i :=
  ⟨rfl, rfl, rfl, rfl, fun _ => rfl⟩

/-- C29: for a level source of `H` rows of `W` block indexes below 5 each, with `1 ≤ W <` maximum
width and `H ≤` maximum height, in which every row but the last is ended by a newline and the
last row ends at the end of the file, `loadLevel` returns 0 and the level height is `H - 1`, the
number of rows ended by a newline; the level width is `W` when `H ≥ 2` and 0 when `H` is 1. -/
theorem loadLevel_leaves_out_row_without_newline (s : State)
    (maximumWidth maximumHeight W : Nat) (front : List (List Nat)) (last : List Nat)
    (hW : 1 ≤ W ∧ W < maximumWidth) (hH : (front ++ [last]).length ≤ maximumHeight)
    (hrows : ∀ r ∈ front ++ [last], r.length = W ∧ ∀ a ∈ r, a < 5) :
    (loadLevel s maximumWidth maximumHeight (some (levelText front ++ openRowText last))).1 =
        0 ∧
      (loadLevel s maximumWidth maximumHeight
        (some (levelText front ++ openRowText last))).2.levelHeightBlocks =
        ((front ++ [last]).length : Int) - 1 ∧
      (loadLevel s maximumWidth maximumHeight
        (some (levelText front ++ openRowText last))).2.levelWidthBlocks =
        (if front = [] then (0 : Int) else (W : Int)) := by
  have hfront : ∀ r ∈ front, r ≠ [] ∧ r.length ≤ maximumWidth ∧ ∀ a ∈ r, a < 5 := by
    intro r hr
    obtain ⟨h1, h2⟩ := hrows r (List.mem_append_left _ hr)
    refine ⟨?_, by omega, h2⟩
    intro h
    rw [h] at h1
    simp at h1
    omega
  obtain ⟨hl1, hl2⟩ := hrows last (by simp)
  have hlast : last ≠ [] := by
    intro h
    rw [h] at hl1
    simp at hl1
    omega
  have hlenH : front.length + 1 ≤ maximumHeight := by simpa using hH
  have hload := loadRows_rows_then maximumWidth (openRowText last) front maximumHeight 0
    { s with levelWidthBlocks := 0, levelHeightBlocks := 0 } 0 (by omega) hfront
  obtain ⟨n, hn⟩ : ∃ n, maximumHeight - front.length = n + 1 :=
    ⟨maximumHeight - front.length - 1, by omega⟩
  have hwidth := lastRowWidth_of_equal_rows W front 0
    (fun r hr => (hrows r (List.mem_append_left _ hr)).1)
  simp only [loadLevel, hload, hn, loadRows]
  rw [loadRow_openRowText last maximumWidth 0 _ _ hlast (by omega) hl2]
  simp only [hwidth, zero_add, List.length_append, List.length_singleton, Nat.cast_add,
    Nat.cast_one, Nat.cast_zero, true_and]
  constructor
  · ring
  · trivial

/-- Witness of C29: the row 0,1,2 with a newline and then the row 3,4,0 without. -/
theorem loadLevel_leaves_out_row_without_newline_witness :
    levelText [[0, 1, 2]] ++ openRowText [3, 4, 0] = [48, 44, 49, 44, 50, 10, 51, 44, 52, 44, 48] ∧
      (loadLevel (grassLevel 7 7) 10 10
        (some (levelText [[0, 1, 2]] ++ openRowText [3, 4, 0]))).1 = 0 ∧
      (loadLevel (grassLevel 7 7) 10 10
        (some (levelText [[0, 1, 2]] ++ openRowText [3, 4, 0]))).2.levelHeightBlocks = 1 ∧
      (loadLevel (grassLevel 7 7) 10 10
        (some (levelText [[0, 1, 2]] ++ openRowText [3, 4, 0]))).2.levelWidthBlocks = 3 :=
  ⟨by decide,
    (loadLevel_leaves_out_row_without_newline (grassLevel 7 7) 10 10 3 [[0, 1, 2]] [3, 4, 0]
      (by decide) (by decide) (by decide)).1,
    by decide, by decide⟩

end LevelLoading

/-! ## Border, reads and bounds of the wall distances -/

section Border

open LevelManager MovableEntity

/-- Counterexample to C23: on a level of 5 x 5 grass blocks of 64 pixels (no block collides), the
entity of 32 x 32 pixels at (100, 66) with speed 8 overlaps no border block; the upper wall
distance at its two upper corners is 64, `moveToUp` takes it to y = 58, and it then overlaps the
border block (1, 0). -/
theorem move_enters_free_border_block :
    overlapsNoBorder (grassLevel 5 5) 64 (sampleEntity 100 66 8).positionRectangle ∧
      (moveToUp (grassLevel 5 5) 64 (sampleEntity 100 66 8)).2.positionRectangle.y = 58 ∧
      isBorderBlock (grassLevel 5 5) 1 0 ∧
      overlapsBlock 64 (moveToUp (grassLevel 5 5) 64 (sampleEntity 100 66 8)).2.positionRectangle
        1 0 ∧
      ¬ overlapsNoBorder (grassLevel 5 5) 64
        (moveToUp (grassLevel 5 5) 64 (sampleEntity 100 66 8)).2.positionRectangle :=
  ⟨sample_rectangle_overlapsNoBorder (grassLevel 5 5) rfl rfl, by decide, by decide, by decide,
    fun h => h 1 0 (by decide) (by decide)⟩

/-- C23, amended: on a grid whose outer border blocks all collide, an entity whose width and
height are between 1 and the block size, whose speed is between 0 and the block size and whose
rectangle overlaps no outer border block, still overlaps no outer border block after each of the
four move operations. -/
theorem moves_keep_rectangle_off_colliding_border (s : State) (blockSize : Int)
    (e : MovableEntity)
    (hborder : ∀ xBlock yBlock : Int, isBorderBlock s xBlock yBlock →
      isCollidingAt s (COMPUTE_BLOCK_INDEX s xBlock yBlock) ≠ 0)
    (hw : 1 ≤ e.positionRectangle.w ∧ e.positionRectangle.w ≤ blockSize)
    (hh : 1 ≤ e.positionRectangle.h ∧ e.positionRectangle.h ≤ blockSize)
    (hs : 0 ≤ e.movingPixelsAmount ∧ e.movingPixelsAmount ≤ blockSize)
    (hfree : overlapsNoBorder s blockSize e.positionRectangle) :
    overlapsNoBorder s blockSize (moveToUp s blockSize e).2.positionRectangle ∧
      overlapsNoBorder s blockSize (moveToDown s blockSize e).2.positionRectangle ∧
      overlapsNoBorder s blockSize (moveToLeft s blockSize e).2.positionRectangle ∧
      overlapsNoBorder s blockSize (moveToRight s blockSize e).2.positionRectangle := by
  have hT : 0 < blockSize := by omega
  exact ⟨moveToUp_overlapsNone s blockSize e hT (isBorderBlock s) hborder hw.2 hs.1 hfree,
    moveToDown_overlapsNone s blockSize e hT (isBorderBlock s) hborder hw.2 hs.1 hfree,
    moveToLeft_overlapsNone s blockSize e hT (isBorderBlock s) hborder hh.2 hs.1 hfree,
    moveToRight_overlapsNone s blockSize e hT (isBorderBlock s) hborder hh.2 hs.1 hfree⟩

/-- Witness of C23, amended: on the sample level of 5 x 5 blocks with a wall border, the entity
of 32 x 32 pixels at (100, 66) with speed 8 is stopped by `moveToUp` at y = 64, the lower edge of
the border row. -/
theorem moves_keep_rectangle_off_colliding_border_witness :
    overlapsNoBorder walledLevel 64 (sampleEntity 100 66 8).positionRectangle ∧
      (moveToUp walledLevel 64 (sampleEntity 100 66 8)).2.positionRectangle.y = 64 ∧
      overlapsNoBorder walledLevel 64
        (moveToUp walledLevel 64 (sampleEntity 100 66 8)).2.positionRectangle :=
  ⟨sample_rectangle_overlapsNoBorder walledLevel rfl rfl, by decide,
    (moves_keep_rectangle_off_colliding_border walledLevel 64 (sampleEntity 100 66 8)
      walledLevel_border_collides (by decide) (by decide) (by decide)
      (sample_rectangle_overlapsNoBorder walledLevel rfl rfl)).1⟩

/-- C24: on a level of 5 x 3 grass blocks of 64 pixels, the downer wall query at (96, 160), a
point of the block (1, 2), reads the cell (1, 3), and the queries at (96, 200), a point below the
grid in the block row 3, read the cell (1, 3) and its neighbours: cells of the row 3, which is
not a row of the grid of height 3. The bound of the test on the block row is the level width 5. -/
theorem wall_distance_reads_cell_outside_grid :
    (grassLevel 5 3).levelWidthBlocks = 5 ∧ (grassLevel 5 3).levelHeightBlocks = 3 ∧
      getDistanceFromDownerWallReads (grassLevel 5 3) 64 96 160 = [(1, 2), (1, 3)] ∧
      getDistanceFromUpperWallReads (grassLevel 5 3) 64 96 200 = [(1, 3), (1, 2)] ∧
      getDistanceFromLeftmostWallReads (grassLevel 5 3) 64 96 200 = [(1, 3), (0, 3)] ∧
      getDistanceFromRightmostWallReads (grassLevel 5 3) 64 96 200 = [(1, 3), (2, 3)] := by
  decide

/-- On a grid whose cells all hold a pointer: for a block size above 0 and every query point, each
of the four wall distances is between 0 and the block size; the upper and leftmost ones are the block size or at
most the block size minus 1, the downer and rightmost ones are 0 or at least 1. A move of an
entity with a speed that is not negative displaces it in the direction of the move by at least 0
and at most the block size. -/
theorem wall_distance_bounds_on_total_grid (s : State) (blockSize x y : Int) (hT : 0 < blockSize) :
    (0 ≤ getDistanceFromUpperWall s blockSize x y ∧
        getDistanceFromUpperWall s blockSize x y ≤ blockSize) ∧
      (0 ≤ getDistanceFromDownerWall s blockSize x y ∧
        getDistanceFromDownerWall s blockSize x y ≤ blockSize) ∧
      (0 ≤ getDistanceFromLeftmostWall s blockSize x y ∧
        getDistanceFromLeftmostWall s blockSize x y ≤ blockSize) ∧
      (0 ≤ getDistanceFromRightmostWall s blockSize x y ∧
        getDistanceFromRightmostWall s blockSize x y ≤ blockSize) ∧
      (getDistanceFromUpperWall s blockSize x y = blockSize ∨
        (0 ≤ getDistanceFromUpperWall s blockSize x y ∧
          getDistanceFromUpperWall s blockSize x y ≤ blockSize - 1)) ∧
      (getDistanceFromLeftmostWall s blockSize x y = blockSize ∨
        (0 ≤ getDistanceFromLeftmostWall s blockSize x y ∧
          getDistanceFromLeftmostWall s blockSize x y ≤ blockSize - 1)) ∧
      (getDistanceFromDownerWall s blockSize x y = 0 ∨
        (1 ≤ getDistanceFromDownerWall s blockSize x y ∧
          getDistanceFromDownerWall s blockSize x y ≤ blockSize)) ∧
      (getDistanceFromRightmostWall s blockSize x y = 0 ∨
        (1 ≤ getDistanceFromRightmostWall s blockSize x y ∧
          getDistanceFromRightmostWall s blockSize x y ≤ blockSize)) ∧
      (∀ e : MovableEntity, 0 ≤ e.movingPixelsAmount →
        (0 ≤ e.positionRectangle.y - (moveToUp s blockSize e).2.positionRectangle.y ∧
          e.positionRectangle.y - (moveToUp s blockSize e).2.positionRectangle.y ≤ blockSize) ∧
        (0 ≤ (moveToDown s blockSize e).2.positionRectangle.y - e.positionRectangle.y ∧
          (moveToDown s blockSize e).2.positionRectangle.y - e.positionRectangle.y ≤
            blockSize) ∧
        (0 ≤ e.positionRectangle.x - (moveToLeft s blockSize e).2.positionRectangle.x ∧
          e.positionRectangle.x - (moveToLeft s blockSize e).2.positionRectangle.x ≤
            blockSize) ∧
        (0 ≤ (moveToRight s blockSize e).2.positionRectangle.x - e.positionRectangle.x ∧
          (moveToRight s blockSize e).2.positionRectangle.x - e.positionRectangle.x ≤
            blockSize)) := by
  have hu := upperWall_bounds s blockSize x y hT
  have hd := downerWall_bounds s blockSize x y hT
  have hl := leftmostWall_bounds s blockSize x y hT
  have hr := rightmostWall_bounds s blockSize x y hT
  refine ⟨hu, hd, hl, hr, by omega, by omega, by omega, by omega, ?_⟩
  intro e hs
  rw [moveToUp_positionRectangle, moveToDown_positionRectangle, moveToLeft_positionRectangle,
    moveToRight_positionRectangle]
  have u1 := upperWall_bounds s blockSize e.positionRectangle.x e.positionRectangle.y hT
  have u2 := upperWall_bounds s blockSize (e.positionRectangle.x + e.positionRectangle.w - 1)
    e.positionRectangle.y hT
  have d1 := downerWall_bounds s blockSize e.positionRectangle.x
    (e.positionRectangle.y + e.positionRectangle.h) hT
  have d2 := downerWall_bounds s blockSize (e.positionRectangle.x + e.positionRectangle.w - 1)
    (e.positionRectangle.y + e.positionRectangle.h) hT
  have l1 := leftmostWall_bounds s blockSize e.positionRectangle.x e.positionRectangle.y hT
  have l2 := leftmostWall_bounds s blockSize e.positionRectangle.x
    (e.positionRectangle.y + e.positionRectangle.h - 1) hT
  have r1 := rightmostWall_bounds s blockSize (e.positionRectangle.x + e.positionRectangle.w)
    e.positionRectangle.y hT
  have r2 := rightmostWall_bounds s blockSize (e.positionRectangle.x + e.positionRectangle.w)
    (e.positionRectangle.y + e.positionRectangle.h - 1) hT
  simp only
  refine ⟨⟨?_, ?_⟩, ⟨?_, ?_⟩, ⟨?_, ?_⟩, ⟨?_, ?_⟩⟩ <;> omega

/-- An instance of the bounds: in the sample level with one wall, the upper wall distance two pixels below
the wall is 2 and the one in the open is the block size 64. -/
theorem wall_distance_bounds_on_total_grid_instance :
    (0 : Int) < 64 ∧ getDistanceFromUpperWall wallLevel 64 130 130 = 2 ∧
      getDistanceFromUpperWall wallLevel 64 70 130 = 64 ∧
      (0 ≤ getDistanceFromUpperWall wallLevel 64 130 130 ∧
        getDistanceFromUpperWall wallLevel 64 130 130 ≤ 64) :=
  ⟨by decide, by decide, by decide, (wall_distance_bounds_on_total_grid wallLevel 64 130 130 (by decide)).1⟩

set_option maxRecDepth 8192 in
/-- C28, evaluated: the level of 3 rows of 5 grass blocks loads with success into a grid 5 blocks
wide and 3 blocks high, and the load writes the 15 cells of index 0 to 14. With the block size 64,
`getDistanceFromDownerWall(96, 160)` is in the block (1, 2), passes the margin test (the row 2 is
compared with the width 5), reads the cell (1, 3) of index 16, which holds no pointer, and faults:
it returns no value. So do the four queries at (96, 200), in the block (1, 3). -/
theorem wall_distance_faults_below_low_grid :
    (LevelManager.loadLevel (grassLevel 0 0) 10 10 (some (levelText grassRows))).1 = 0 ∧
      (scanRows 10 10 (levelText grassRows)).length = 15 ∧
      loadedGrass.levelWidthBlocks = 5 ∧ loadedGrass.levelHeightBlocks = 3 ∧
      getDistanceFromDownerWallReads loadedGrass 64 96 160 = [(1, 2), (1, 3)] ∧
      COMPUTE_BLOCK_INDEX loadedGrass 1 3 = 16 ∧
      writtenByFirstLoad 15 16 = false ∧
      getDistanceFromDownerWallOrFault loadedGrass (writtenByFirstLoad 15) 64 96 160 = none ∧
      getDistanceFromUpperWallOrFault loadedGrass (writtenByFirstLoad 15) 64 96 200 = none ∧
      getDistanceFromDownerWallOrFault loadedGrass (writtenByFirstLoad 15) 64 96 200 = none ∧
      getDistanceFromLeftmostWallOrFault loadedGrass (writtenByFirstLoad 15) 64 96 200 = none ∧
      getDistanceFromRightmostWallOrFault loadedGrass (writtenByFirstLoad 15) 64 96 200 = none := by
  refine ⟨by decide, by decide, by decide, by decide, by decide, by decide, by decide, by decide,
    by decide, by decide, by decide, by decide⟩

end Border

/-! ## Bullet spawn point -/

section BulletSpawn

/-- C25: for an entity whose rectangle in its facing direction is a square of `W ≥ 3` pixels at
`(x, y)` and a bullet of `pw ≥ 1` by `ph ≥ 1` pixels, the rectangle of the bullet created at the
point that `shoot` gives to the factory, `(x + offset.x, y + offset.y)` with the offset of the
facing direction, has a pixel in the rectangle of the entity, for each of the four facing
directions. -/
theorem bullet_spawns_on_owner (base : MovingEntity)
    (maximumLifePointsAmount timeBetweenShots : Int) (firingSoundId : Nat)
    (wallOrEnemySpawner x y W pw ph : Int) (facing : Direction)
    (hW : 3 ≤ W) (hpw : 1 ≤ pw) (hph : 1 ≤ ph)
    (hpos : base.positionRectangles facing = { x := x, y := y, w := W, h := W })
    (hfacing : base.facingDirection = facing) :
    (FightingEntity.shoot (fun bulletX bulletY => some (bulletRectangle facing bulletX bulletY pw ph))
        (FightingEntity.new base maximumLifePointsAmount timeBetweenShots firingSoundId
          wallOrEnemySpawner W pw ph) (timeBetweenShots % 2 ^ 32).toNat 0).1 =
        some (bulletRectangle facing
          (x + ((FightingEntity.new base maximumLifePointsAmount timeBetweenShots firingSoundId
            wallOrEnemySpawner W pw ph).bulletStartingPositionOffsets facing).x)
          (y + ((FightingEntity.new base maximumLifePointsAmount timeBetweenShots firingSoundId
            wallOrEnemySpawner W pw ph).bulletStartingPositionOffsets facing).y) pw ph) ∧
      ∃ px py : Int,
        containsPixel
            ((FightingEntity.new base maximumLifePointsAmount timeBetweenShots firingSoundId
              wallOrEnemySpawner W pw ph).positionRectangles facing) px py ∧
          containsPixel
            (bulletRectangle facing
              (x + ((FightingEntity.new base maximumLifePointsAmount timeBetweenShots
                firingSoundId wallOrEnemySpawner W pw ph).bulletStartingPositionOffsets facing).x)
              (y + ((FightingEntity.new base maximumLifePointsAmount timeBetweenShots
                firingSoundId wallOrEnemySpawner W pw ph).bulletStartingPositionOffsets facing).y)
              pw ph) px py := by
  have ht := tdiv_two_bounds (W - pw)
  constructor
  · have hgate : u32sub (timeBetweenShots % 2 ^ 32).toNat 0 ≥ (timeBetweenShots % 2 ^ 32).toNat := by
      rw [u32sub_zero]
      have : (timeBetweenShots % 2 ^ 32).toNat < 2 ^ 32 := by omega
      omega
    unfold FightingEntity.shoot
    simp only [FightingEntity.new, hgate, if_true, hpos, hfacing]
  · simp only [FightingEntity.new, hpos]
    cases facing
    · refine ⟨max x (x + Int.tdiv (W - pw) 2), y + 2, ?_⟩
      simp only [containsPixel, bulletRectangle]
      omega
    · refine ⟨max x (x + Int.tdiv (W - pw) 2), max y (y + (W - ph - 2)), ?_⟩
      simp only [containsPixel, bulletRectangle]
      omega
    · refine ⟨x + 2, max y (y + Int.tdiv (W - pw) 2), ?_⟩
      simp only [containsPixel, bulletRectangle]
      omega
    · refine ⟨max x (x + (W - ph - 2)), max y (y + Int.tdiv (W - pw) 2), ?_⟩
      simp only [containsPixel, bulletRectangle]
      omega

/-- Witness of C25: the fresh fighter of 32 x 32 pixels at (64, 64), facing up, with bullets of
8 x 16 pixels: the bullet is created at (76, 66) and the pixel (76, 66) is in both rectangles. -/
theorem bullet_spawns_on_owner_witness :
    containsPixel (freshFighter.positionRectangles Direction.DIRECTION_UP) 76 66 ∧
      containsPixel (bulletRectangle Direction.DIRECTION_UP 76 66 8 16) 76 66 ∧
      ∃ px py : Int,
        containsPixel (freshFighter.positionRectangles Direction.DIRECTION_UP) px py ∧
          containsPixel
            (bulletRectangle Direction.DIRECTION_UP
              (64 + (freshFighter.bulletStartingPositionOffsets Direction.DIRECTION_UP).x)
              (64 + (freshFighter.bulletStartingPositionOffsets Direction.DIRECTION_UP).y)
              8 16) px py :=
  ⟨by unfold containsPixel; decide, by unfold containsPixel; decide,
    (bullet_spawns_on_owner
      { positionRectangles := fun _ => { x := 64, y := 64, w := 32, h := 32 }
        facingDirection := Direction.DIRECTION_UP
        movingPixelsAmount := 3
        collisionBlockContent := 0 }
      10 500 0 3 64 64 32 8 16 Direction.DIRECTION_UP (by decide) (by decide) (by decide) rfl
      rfl).2⟩

end BulletSpawn

/-! ## Rendering -/

section Rendering

open LevelManager

/-- C26: for every camera origin, negative values included, every draw call of `renderScene` is
for a cell `(xBlock, yBlock)` of the grid, renders the texture of the block of that cell at the
screen position `(xBlock * blockSize - topLeftX, yBlock * blockSize - topLeftY)`, no cell gets two
draw calls, and the static variables after the call are the ones before it. -/
theorem renderScene_draws_level_cells_once (s : State) (blockSize topLeftX topLeftY : Int) :
    (∀ c ∈ (renderScene s blockSize topLeftX topLeftY).1,
        (0 ≤ c.xBlock ∧ c.xBlock < s.levelWidthBlocks ∧ 0 ≤ c.yBlock ∧
          c.yBlock < s.levelHeightBlocks) ∧
        c.xPixel = c.xBlock * blockSize - topLeftX ∧
        c.yPixel = c.yBlock * blockSize - topLeftY ∧
        c.pointerTexture =
          (s.blocks
            (s.pointerLevelBlocks (COMPUTE_BLOCK_INDEX s c.xBlock c.yBlock))).pointerTexture) ∧
      ((renderScene s blockSize topLeftX topLeftY).1.map
        (fun c => (c.xBlock, c.yBlock))).Nodup ∧
      (renderScene s blockSize topLeftX topLeftY).2 = s := by
  refine ⟨?_, renderSceneRows_nodup s blockSize _ _ _ _ _ _ _, rfl⟩
  intro c hc
  obtain ⟨jy, _, jx, _, hg, rfl⟩ := (mem_renderSceneRows s blockSize _ _ _ _ _ _ _ c).1 hc
  have hx := Int.tdiv_add_tmod topLeftX blockSize
  have hy := Int.tdiv_add_tmod topLeftY blockSize
  obtain ⟨g1, g2, g3, g4⟩ := hg
  refine ⟨⟨g1, g3, g2, g4⟩, ?_, ?_, rfl⟩
  · simp only [drawCallOf]
    linear_combination (-1 : Int) * hx
  · simp only [drawCallOf]
    linear_combination (-1 : Int) * hy

/-- C27: with the display size in blocks that `LevelManager::initialize` computes, for every
camera origin `renderScene` makes the draw call of every cell of the grid whose square of
`blockSize` x `blockSize` pixels at `(xBlock * blockSize - topLeftX, yBlock * blockSize -
topLeftY)` has a pixel in the display area `[0, displayWidth) x [0, displayHeight)`. -/
theorem renderScene_draws_every_visible_cell (s s0 : State) (displayWidth displayHeight blockSize : Int)
    (textures : Nat → Nat) (topLeftX topLeftY xBlock yBlock : Int) (hT : 0 < blockSize)
    (hdw : s.displayWidthBlocks =
      (initializeManager s0 displayWidth displayHeight blockSize textures).2.displayWidthBlocks)
    (hdh : s.displayHeightBlocks =
      (initializeManager s0 displayWidth displayHeight blockSize textures).2.displayHeightBlocks)
    (hcell : 0 ≤ xBlock ∧ xBlock < s.levelWidthBlocks ∧ 0 ≤ yBlock ∧
      yBlock < s.levelHeightBlocks)
    (hvis : isOnDisplay displayWidth displayHeight blockSize (xBlock * blockSize - topLeftX)
      (yBlock * blockSize - topLeftY)) :
    drawCallOf s xBlock yBlock (xBlock * blockSize - topLeftX) (yBlock * blockSize - topLeftY) ∈
      (renderScene s blockSize topLeftX topLeftY).1 := by
  obtain ⟨px, py, p1, p2, p3, p4, p5, p6, p7, p8⟩ := hvis
  obtain ⟨c1, c2, c3, c4⟩ := hcell
  have ex := visible_block_is_enumerated blockSize topLeftX displayWidth xBlock hT c1
    (by omega) (by omega) (by omega)
  have ey := visible_block_is_enumerated blockSize topLeftY displayHeight yBlock hT c3
    (by omega) (by omega) (by omega)
  have hx := Int.tdiv_add_tmod topLeftX blockSize
  have hy := Int.tdiv_add_tmod topLeftY blockSize
  simp only [renderScene, hdw, hdh, initializeManager]
  rw [mem_renderSceneRows]
  refine ⟨(yBlock - Int.tdiv topLeftY blockSize).toNat, ?_,
    (xBlock - Int.tdiv topLeftX blockSize).toNat, ?_, ?_, ?_⟩
  · omega
  · omega
  · have e1 : Int.tdiv topLeftX blockSize +
        (0 + ((xBlock - Int.tdiv topLeftX blockSize).toNat : Int)) = xBlock := by omega
    have e2 : Int.tdiv topLeftY blockSize +
        (0 + ((yBlock - Int.tdiv topLeftY blockSize).toNat : Int)) = yBlock := by omega
    rw [e1, e2]
    exact ⟨c1, c3, c2, c4⟩
  · have e1 : ((xBlock - Int.tdiv topLeftX blockSize).toNat : Int) =
        xBlock - Int.tdiv topLeftX blockSize := Int.toNat_of_nonneg (by omega)
    have e2 : ((yBlock - Int.tdiv topLeftY blockSize).toNat : Int) =
        yBlock - Int.tdiv topLeftY blockSize := Int.toNat_of_nonneg (by omega)
    rw [e1, e2]
    congr 1
    · ring
    · ring
    · linear_combination hx
    · linear_combination hy

/-- Witness of C27: a display of 100 x 70 pixels, blocks of 64 pixels, a grid of 3 x 2 blocks and
the camera at (-10, 70). The cell (1, 1) is drawn at (74, -6): it is cut by the right edge and by
the upper edge of the display, and the pixel (74, 0) of the display is in its square. -/
theorem renderScene_draws_every_visible_cell_witness :
    isOnDisplay 100 70 64 (1 * 64 - -10) (1 * 64 - 70) ∧
      (initializeManager (grassLevel 3 2) 100 70 64 id).2.displayWidthBlocks = 2 ∧
      drawCallOf (initializeManager (grassLevel 3 2) 100 70 64 id).2 1 1 (1 * 64 - -10)
          (1 * 64 - 70) ∈
        (renderScene (initializeManager (grassLevel 3 2) 100 70 64 id).2 64 (-10) 70).1 :=
  ⟨⟨74, 0, by decide⟩, by decide,
    renderScene_draws_every_visible_cell (initializeManager (grassLevel 3 2) 100 70 64 id).2
      (grassLevel 3 2) 100 70 64 id (-10) 70 1 1 (by decide) rfl rfl (by decide)
      ⟨74, 0, by decide⟩⟩

end Rendering

end Strage
